import Mathlib

/-!
ImgStore: a shallow embedding of the storage engine.

The definitions below follow the C sources of the image store
(`imgStore.h`, `tools.c`, `dedup.c`, `image_content.c`, `imgst_create.c`,
`imgst_insert.c`, `imgst_read.c`, `imgst_delete.c`, `imgst_gbcollect.c` and
the commands `create` and `insert` of `imgStoreMgr.c`) function by function.

* Bytes are natural numbers; a `char*` is the list of bytes found at the
  pointer, read as `0` past its end (C strings are NUL-terminated).
* A `FILE*` is the length and contents of the file as the program sees them
  through the stream, the position indicator and the outcomes that the
  upcoming calls of `fwrite` report; `fclose` gives the file that the device
  holds once the stream is closed.
* Fixed-width integers are natural numbers reduced modulo `2^w` wherever the
  C code converts or increments them.
* The SHA-256 primitive and the JPEG library are external: they are the
  fields of `Env`.
-/

namespace ImgStore

/-! ## Constants of `imgStore.h` -/

def MAX_IMGST_NAME : Nat := 31
def MAX_IMG_ID : Nat := 127
def MAX_MAX_FILES : Nat := 100000
def EMPTY : Nat := 0
def NON_EMPTY : Nat := 1
def RES_THUMB : Nat := 0
def RES_SMALL : Nat := 1
def RES_ORIG : Nat := 2
def NB_RES : Nat := 3
def SHA256_DIGEST_LENGTH : Nat := 32
def SHA256_STRING_LENGTH : Nat := 2 * SHA256_DIGEST_LENGTH

/-- The bytes of the string literal `CAT_TXT`, "EPFL ImgStore binary". -/
def CAT_TXT : List Nat :=
  [69, 80, 70, 76, 32, 73, 109, 103, 83, 116, 111, 114, 101, 32, 98, 105, 110, 97, 114, 121]

/-- Modelled from the spec: `error.h` is not part of the sources; these are
the error kinds of section 7 of the specification, with `ERR_NONE` for
success. -/
inductive error_code where
  | ERR_NONE
  | ERR_IO
  | ERR_OUT_OF_MEMORY
  | ERR_NOT_ENOUGH_ARGUMENTS
  | ERR_INVALID_FILENAME
  | ERR_INVALID_COMMAND
  | ERR_INVALID_ARGUMENT
  | ERR_MAX_FILES
  | ERR_RESOLUTIONS
  | ERR_INVALID_IMGID
  | ERR_FULL_IMGSTORE
  | ERR_FILE_NOT_FOUND
  | ERR_IMGLIB
  | ERR_DUPLICATE_ID
  deriving DecidableEq, Repr

open error_code

/-! ## Integer conversions -/

/-- Conversion of an integer value to `uint32_t`. -/
def to_uint32 (n : Nat) : Nat := n % 2 ^ 32

/-- Conversion of a non-negative value to `int` (32 bits, two's complement). -/
def to_int (n : Nat) : Int :=
  if n % 2 ^ 32 < 2 ^ 31 then ((n % 2 ^ 32 : Nat) : Int) else ((n % 2 ^ 32 : Nat) : Int) - 2 ^ 32

/-- Conversion of a signed value to `uint64_t`. -/
def to_uint64 (z : Int) : Nat := (z % 2 ^ 64).toNat

/-- Conversion of a `uint64_t` value to `long` (64 bits, two's complement). -/
def to_long (n : Nat) : Int :=
  if n % 2 ^ 64 < 2 ^ 63 then ((n % 2 ^ 64 : Nat) : Int) else ((n % 2 ^ 64 : Nat) : Int) - 2 ^ 64

/-! ## C strings -/

/-- The function `strncmp`: compares at most `n` bytes, stopping after a NUL. -/
def strncmp : List Nat → List Nat → Nat → Int
  | _, _, 0 => 0
  | s1, s2, n + 1 =>
    if s1.headD 0 ≠ s2.headD 0 then (s1.headD 0 : Int) - (s2.headD 0 : Int)
    else if s1.headD 0 = 0 then 0
    else strncmp s1.tail s2.tail n

/-- The `n` bytes that `strncpy` stores: the bytes of `src` up to its NUL,
then NUL bytes. -/
def strncpy_bytes : List Nat → Nat → List Nat
  | _, 0 => []
  | src, n + 1 =>
    if src.headD 0 = 0 then List.replicate (n + 1) 0
    else src.headD 0 :: strncpy_bytes src.tail n

/-- The function `strncpy`: the destination array after the call. -/
def strncpy (dst src : List Nat) (n : Nat) : List Nat :=
  strncpy_bytes src n ++ dst.drop n

/-- The function `strlen`. -/
def strlen : List Nat → Nat
  | [] => 0
  | c :: s => if c = 0 then 0 else strlen s + 1

/-! ## Streams -/

/-- A stream on the store file: the file as the program reads and writes it
through the stream.  The bytes that the stream still buffers are part of it;
the file that the device holds once the stream is closed is given by `fclose`. -/
structure FILE where
  /-- Length of the file. -/
  len : Nat
  /-- Contents of the file at the offsets below `len`. -/
  byte : Nat → Nat
  /-- File position indicator. -/
  pos : Nat
  /-- Outcomes that the upcoming calls of `fwrite` report, `true` for a failure;
  once the list is exhausted every call reports that its items are written.
  A write that the stream buffers is reported as done whether or not the
  device takes its bytes later. -/
  faults : List Bool

/-- The byte read at offset `k`. -/
def FILE.at (f : FILE) (k : Nat) : Nat := if k < f.len then f.byte k else 0

/-- The file after the bytes `buf` have been stored at the position indicator. -/
def FILE.put (f : FILE) (buf : List Nat) : FILE :=
  { f with
    len := max f.len (f.pos + buf.length)
    byte := fun k => if f.pos ≤ k ∧ k < f.pos + buf.length then buf.getD (k - f.pos) 0 else f.at k
    pos := f.pos + buf.length }

/-- The call `fwrite(ptr, size, nmemb, f)`: the number of items that the call
reports as written and the stream afterwards.  A failure that the call reports
leaves the file as it was; the bytes of a call that reports no failure are in
the file as the stream presents it. -/
def fwrite (ptr : List Nat) (size nmemb : Nat) (f : FILE) : Nat × FILE :=
  if size = 0 ∨ nmemb = 0 then (0, f)
  else match f.faults with
    | true :: rest => (0, { f with faults := rest })
    | false :: rest => (nmemb, { f.put (ptr.take (size * nmemb)) with faults := rest })
    | [] => (nmemb, f.put (ptr.take (size * nmemb)))

/-- The call `fread(buf, size, 1, f)`: the number of items read, the bytes
stored in the buffer and the stream afterwards. -/
def fread (size : Nat) (f : FILE) : Nat × List Nat × FILE :=
  if size = 0 then (0, [], f)
  else if f.pos + size ≤ f.len then
    (1, (List.range size).map (fun k => f.at (f.pos + k)), { f with pos := f.pos + size })
  else (0, (List.range (f.len - f.pos)).map (fun k => f.at (f.pos + k)), { f with pos := max f.pos f.len })

/-- The call `fseek(f, offset, SEEK_SET)`: a negative offset is refused and
leaves the position indicator where it was. -/
def fseek_set (f : FILE) (offset : Int) : FILE :=
  if offset < 0 then f else { f with pos := offset.toNat }

/-- The call `fseek(f, 0, SEEK_END)`. -/
def fseek_end (f : FILE) : FILE := { f with pos := f.len }

/-- The call `rewind(f)`. -/
def rewind (f : FILE) : FILE := { f with pos := 0 }

/-- The call `ftell(f)`. -/
def ftell (f : FILE) : Nat := f.pos

/-- The stream returned by `fopen(name, "wb+")`: an empty file. -/
def fopen_wb (faults : List Bool) : FILE :=
  { len := 0, byte := fun _ => 0, pos := 0, faults := faults }

/-- The call `fclose(f)`: the value returned and the file left on the disk.
The bytes that the stream still buffers reach the device only now; `room` is
the number of bytes of the file that the device holds (`none` when it holds
them all).  The bytes beyond are lost, and `fclose` then returns `EOF`. -/
def fclose (f : FILE) (room : Option Nat) : Int × FILE :=
  match room with
  | none => (0, f)
  | some n => if f.len ≤ n then (0, f) else (-1, { f with len := n })

/-! ## Records of `imgStore.h` -/

/-- The configuration information of the store (`struct imgst_header`). -/
structure imgst_header where
  imgst_name : List Nat
  imgst_version : Nat
  num_files : Nat
  max_files : Nat
  res_resized : Nat → Nat
  unused_32 : Nat
  unused_64 : Nat

/-- The metadata of an image (`struct img_metadata`); the arrays `res_orig`,
`size` and `offset` are indexed by position. -/
structure img_metadata where
  img_id : List Nat
  SHA : List Nat
  res_orig : Nat → Nat
  size : Nat → Nat
  padding0 : Nat
  offset : Nat → Nat
  is_valid : Nat
  unused_16 : Nat
  padding1 : Nat

/-- The store in memory (`struct imgst_file`); `metadata` is the array behind
the pointer, of which the slots below `header.max_files` are allocated. -/
structure imgst_file where
  file : FILE
  header : imgst_header
  metadata : Nat → img_metadata

/-- A slot as `calloc` returns it. -/
def zero_metadata : img_metadata :=
  { img_id := [], SHA := [], res_orig := fun _ => 0, size := fun _ => 0, padding0 := 0,
    offset := fun _ => 0, is_valid := 0, unused_16 := 0, padding1 := 0 }

/-- The external libraries: the function `SHA256` of OpenSSL and the JPEG functions of VIPS.
`vips_jpegload_buffer` gives `Xsize` and `Ysize` of the decoded image, or
nothing when decoding fails; `vips_resize_jpegsave` gives the bytes that
`vips_jpegsave_buffer` produces for the image loaded from the given bytes and
resized by `vips_resize` to fit the given width and height, or nothing when
it fails. -/
structure Env where
  SHA256 : List Nat → List Nat
  vips_jpegload_buffer : List Nat → Option (Nat × Nat)
  vips_resize_jpegsave : List Nat → Nat → Nat → Option (List Nat)

/-! ## Layout of the records in the file (little-endian host) -/

/-- The `w` bytes of an unsigned integer field. -/
def int_bytes (w n : Nat) : List Nat := (List.range w).map (fun k => n / 256 ^ k % 256)

/-- The `w` bytes of a character array. -/
def array_bytes (w : Nat) (a : List Nat) : List Nat := (List.range w).map (fun k => a.getD k 0)

def sizeof_imgst_header : Nat := 64
def sizeof_img_metadata : Nat := 216

/-- The bytes of a `struct imgst_header`. -/
def header_bytes (h : imgst_header) : List Nat :=
  array_bytes (MAX_IMGST_NAME + 1) h.imgst_name
    ++ int_bytes 4 h.imgst_version ++ int_bytes 4 h.num_files ++ int_bytes 4 h.max_files
    ++ int_bytes 2 (h.res_resized 0) ++ int_bytes 2 (h.res_resized 1)
    ++ int_bytes 2 (h.res_resized 2) ++ int_bytes 2 (h.res_resized 3)
    ++ int_bytes 4 h.unused_32 ++ int_bytes 8 h.unused_64

/-- The bytes of a `struct img_metadata`. -/
def metadata_bytes (m : img_metadata) : List Nat :=
  array_bytes (MAX_IMG_ID + 1) m.img_id ++ array_bytes SHA256_DIGEST_LENGTH m.SHA
    ++ int_bytes 4 (m.res_orig 0) ++ int_bytes 4 (m.res_orig 1)
    ++ int_bytes 4 (m.size 0) ++ int_bytes 4 (m.size 1) ++ int_bytes 4 (m.size 2)
    ++ int_bytes 4 m.padding0
    ++ int_bytes 8 (m.offset 0) ++ int_bytes 8 (m.offset 1) ++ int_bytes 8 (m.offset 2)
    ++ int_bytes 2 m.is_valid ++ int_bytes 2 m.unused_16 ++ int_bytes 4 m.padding1

/-- The bytes of the first `n` slots of the metadata array. -/
def table_bytes (md : Nat → img_metadata) : Nat → List Nat
  | 0 => []
  | n + 1 => table_bytes md n ++ metadata_bytes (md n)

/-- The lowest index `k` with `i ≤ k < i + n` at which `p` holds: the index at
which a `for` loop over the slots stops. -/
def first_index (p : Nat → Bool) : Nat → Nat → Option Nat
  | 0, _ => none
  | n + 1, i => if p i then some i else first_index p n (i + 1)

/-! ## `tools.c` -/

/-- One byte printed by `sprintf` with the format `%02x`. -/
def hex_digit (d : Nat) : Nat := if d < 10 then 48 + d else 87 + d

/-- The function `sha_to_string`. -/
def sha_to_string (SHA : List Nat) : List Nat :=
  ((List.range SHA256_DIGEST_LENGTH).map
    (fun i => [hex_digit (SHA.getD i 0 % 256 / 16), hex_digit (SHA.getD i 0 % 256 % 16)])).flatten

/-- The function `compare_sha`: `0` if and only if the two printed values are equal. -/
def compare_sha (sha1 sha2 : List Nat) : Int :=
  strncmp (sha_to_string sha1) (sha_to_string sha2) SHA256_STRING_LENGTH

/-- The function `update_metadata`. -/
def update_metadata (s : imgst_file) (index : Nat) : error_code × imgst_file :=
  let offset := to_int (sizeof_imgst_header + index * sizeof_img_metadata)
  let r := fwrite (metadata_bytes (s.metadata index)) sizeof_img_metadata 1 (fseek_set s.file offset)
  if r.1 ≠ 1 then ( ERR_IO, { s with file := r.2 }) else (ERR_NONE, { s with file := r.2 })

/-- The function `update_header`. -/
def update_header (s : imgst_file) : error_code × imgst_file :=
  let r := fwrite (header_bytes s.header) sizeof_imgst_header 1 (rewind s.file)
  if r.1 ≠ 1 then ( ERR_IO, { s with file := r.2 }) else (ERR_NONE, { s with file := r.2 })

/-- The assignment `metadata[index].offset[res] = v`. -/
def set_offset (md : Nat → img_metadata) (index res v : Nat) : Nat → img_metadata :=
  Function.update md index { md index with offset := Function.update (md index).offset res v }

/-- The assignment `metadata[index].size[res] = v`. -/
def set_size (md : Nat → img_metadata) (index res v : Nat) : Nat → img_metadata :=
  Function.update md index { md index with size := Function.update (md index).size res v }

/-- The function `write_image_end_of_imgst`. -/
def write_image_end_of_imgst (index res : Nat) (buffer : List Nat) (size : Nat) (s : imgst_file) :
    error_code × imgst_file :=
  let f := fseek_end s.file
  let offset := to_int (ftell f)
  let r := fwrite buffer size 1 f
  if r.1 ≠ 1 then ( ERR_IO, { s with file := r.2 })
  else (ERR_NONE, { s with file := r.2, metadata := set_offset s.metadata index res (to_uint64 offset) })

/-- The function `load_image_from_imgst`: the error code, the bytes loaded in
the buffer and the store afterwards. -/
def load_image_from_imgst (index resolution image_size : Nat) (s : imgst_file) :
    error_code × List Nat × imgst_file :=
  let r := fread image_size (fseek_set s.file (to_long ((s.metadata index).offset resolution)))
  if r.1 ≠ 1 then ( ERR_IO, r.2.1, { s with file := r.2.2 })
  else (ERR_NONE, r.2.1, { s with file := r.2.2 })

/-- The function `do_close`, which returns nothing: the file left on the disk
once the stream is closed.  The value that `fclose` returns is not kept. -/
def do_close (s : imgst_file) (room : Option Nat) : FILE := (fclose s.file room).2

/-! ## `dedup.c` -/

/-- The copy of the three offsets and sizes of slot `i` into slot `index`. -/
def copy_offsets_sizes (md : Nat → img_metadata) (index i : Nat) : Nat → img_metadata :=
  Function.update md index { md index with offset := (md i).offset, size := (md i).size }

/-- The loop of `do_name_and_content_dedup` over the slots `i, ..., i + n - 1`:
the error code, the value of `index_duplicate` (`none` for `-1`) and the
metadata array afterwards. -/
def dedup_loop (index : Nat) :
    Nat → Nat → Option Nat → (Nat → img_metadata) → error_code × Option Nat × (Nat → img_metadata)
  | 0, _, index_duplicate, md => (ERR_NONE, index_duplicate, md)
  | n + 1, i, index_duplicate, md =>
    if i ≠ index ∧ (md i).is_valid = NON_EMPTY then
      if strncmp (md i).img_id (md index).img_id MAX_IMGST_NAME = 0 then
        (ERR_DUPLICATE_ID, index_duplicate, md)
      else if index_duplicate = none ∧ compare_sha (md i).SHA (md index).SHA = 0 then
        dedup_loop index n (i + 1) (some i) (copy_offsets_sizes md index i)
      else dedup_loop index n (i + 1) index_duplicate md
    else dedup_loop index n (i + 1) index_duplicate md

/-- The function `do_name_and_content_dedup`. -/
def do_name_and_content_dedup (s : imgst_file) (index : Nat) : error_code × imgst_file :=
  if index ≥ s.header.max_files then (ERR_INVALID_ARGUMENT, s)
  else
    let r := dedup_loop index s.header.max_files 0 none s.metadata
    if r.1 ≠ ERR_NONE then (r.1, { s with metadata := r.2.2 })
    else if r.2.1 = none then (ERR_NONE, { s with metadata := set_offset r.2.2 index RES_ORIG 0 })
    else (ERR_NONE, { s with metadata := r.2.2 })

/-! ## `image_content.c` -/

/-- The function `get_resolution`: the error code, the height and the width. -/
def get_resolution (env : Env) (image_buffer : List Nat) (image_size : Nat) :
    error_code × Nat × Nat :=
  match env.vips_jpegload_buffer (image_buffer.take image_size) with
  | none => (ERR_IMGLIB, 0, 0)
  | some (xsize, ysize) => (ERR_NONE, ysize, xsize)

/-- The function `lazily_resize`. -/
def lazily_resize (env : Env) (res : Int) (s : imgst_file) (index : Nat) : error_code × imgst_file :=
  if res < RES_THUMB ∨ res > RES_ORIG ∨ index ≥ s.header.max_files then (ERR_INVALID_ARGUMENT, s)
  else if res = RES_ORIG ∨ (s.metadata index).offset res.toNat ≠ 0 then (ERR_NONE, s)
  else
    -- load_orig_from_disk
    let buffer_size_orig := (s.metadata index).size RES_ORIG
    let l := load_image_from_imgst index RES_ORIG buffer_size_orig s
    if l.1 ≠ ERR_NONE then (l.1, l.2.2)
    else match env.vips_jpegload_buffer l.2.1 with
      | none => (ERR_IMGLIB, l.2.2)
      | some _ =>
        -- resize_image, then store_resized_on_disk
        match env.vips_resize_jpegsave l.2.1 (s.header.res_resized (2 * res.toNat))
            (s.header.res_resized (2 * res.toNat + 1)) with
        | none => (ERR_IMGLIB, l.2.2)
        | some buffer =>
          let w := write_image_end_of_imgst index res.toNat buffer buffer.length l.2.2
          if w.1 ≠ ERR_NONE then w
          else
            let md := set_size w.2.metadata index res.toNat (to_uint32 buffer.length)
            update_metadata { w.2 with metadata := md } index

/-! ## `imgst_create.c` -/

/-- The function `do_create`; `fopen` fails when `io` is `none` and otherwise
returns a stream on an empty file on which the calls of `fwrite` report the
given outcomes.  When a call reports a failure the stream is closed: the field
`file` then holds the file as it is left on the disk.  When no call reports a
failure the stream stays open and nothing flushes it. -/
def do_create (io : Option (List Bool)) (s : imgst_file) : error_code × imgst_file :=
  let header : imgst_header :=
    { s.header with
      imgst_version := 0
      num_files := 0
      imgst_name := (strncpy s.header.imgst_name CAT_TXT MAX_IMGST_NAME).take MAX_IMGST_NAME ++ [0] }
  let metadata : Nat → img_metadata := fun _ => { zero_metadata with is_valid := EMPTY }
  match io with
  | none => ( ERR_IO, { s with header := header })
  | some faults =>
    let r1 := fwrite (header_bytes header) sizeof_imgst_header 1 (fopen_wb faults)
    let r2 := fwrite (table_bytes metadata header.max_files) sizeof_img_metadata header.max_files r1.2
    if r1.1 + r2.1 ≠ 1 + header.max_files then ( ERR_IO, { s with header := header, file := r2.2 })
    else (ERR_NONE, { file := r2.2, header := header, metadata := metadata })

/-! ## `imgst_insert.c` -/

/-- The first statements of the body of the loop of `do_insert` at the empty
slot `i`: sets the SHA, img_id and size fields of the image metadata. -/
def insert_candidate (env : Env) (buffer : List Nat) (size : Nat) (img_id : List Nat)
    (s : imgst_file) (i : Nat) : imgst_file :=
  let m : img_metadata :=
    { s.metadata i with
      SHA := env.SHA256 (buffer.take size)
      img_id := strncpy (s.metadata i).img_id img_id MAX_IMG_ID }
  { s with metadata := set_size (Function.update s.metadata i m) i RES_ORIG (to_uint32 size) }

/-- The statements of the body of the loop of `do_insert` that follow the
deduplication: if there is no duplicate of the image, writes the image on the disk. -/
def insert_blob (buffer : List Nat) (size : Nat) (s : imgst_file) (i : Nat) :
    error_code × imgst_file :=
  let md := set_size (set_size (set_offset (set_offset s.metadata i RES_SMALL 0) i RES_THUMB 0)
    i RES_SMALL 0) i RES_THUMB 0
  if (s.metadata i).offset RES_ORIG = 0 then
    write_image_end_of_imgst i RES_ORIG buffer size { s with metadata := md }
  else (ERR_NONE, s)

/-- The assignment `metadata[i].is_valid = NON_EMPTY` of `do_insert`. -/
def mark_valid (s : imgst_file) (i : Nat) : imgst_file :=
  { s with metadata := Function.update s.metadata i { s.metadata i with is_valid := NON_EMPTY } }

/-- The store in memory once `do_insert` has set the width and the height of
the image and incremented `imgst_version` and `num_files`. -/
def count_image (s : imgst_file) (i height width : Nat) : imgst_file :=
  let res_orig := Function.update (Function.update (s.metadata i).res_orig 1 (to_uint32 height))
    0 (to_uint32 width)
  { s with
    metadata := Function.update s.metadata i { s.metadata i with res_orig := res_orig }
    header :=
      { s.header with
        imgst_version := to_uint32 (s.header.imgst_version + 1)
        num_files := to_uint32 (s.header.num_files + 1) } }

/-- The last statements of the body of the loop of `do_insert`: marks the slot
as valid, sets the resolution of the image, updates the header and the
metadata on the disk. -/
def insert_commit (env : Env) (buffer : List Nat) (size : Nat) (s : imgst_file) (i : Nat) :
    error_code × imgst_file :=
  let s2 := mark_valid s i
  -- Sets the width and the height of the image
  let g := get_resolution env buffer size
  if g.1 ≠ ERR_NONE then (g.1, s2)
  else
    -- Updates the database header on the disk
    let h := update_header (count_image s2 i g.2.1 g.2.2)
    if h.1 ≠ ERR_NONE then h
    else update_metadata h.2 i

/-- The body of the loop of `do_insert` at the empty slot `i`. -/
def do_insert_at (env : Env) (buffer : List Nat) (size : Nat) (img_id : List Nat)
    (s : imgst_file) (i : Nat) : error_code × imgst_file :=
  let s1 := insert_candidate env buffer size img_id s i
  -- De-duplicates the image
  let d := do_name_and_content_dedup s1 i
  if d.1 ≠ ERR_NONE then d
  else
    let w := insert_blob buffer size d.2 i
    if w.1 ≠ ERR_NONE then w
    else insert_commit env buffer size w.2 i

/-- The function `do_insert`. -/
def do_insert (env : Env) (buffer : List Nat) (size : Nat) (img_id : List Nat) (s : imgst_file) :
    error_code × imgst_file :=
  if s.header.num_files ≥ s.header.max_files then (ERR_FULL_IMGSTORE, s)
  else match first_index (fun i => (s.metadata i).is_valid = 0) s.header.max_files 0 with
    | some i => do_insert_at env buffer size img_id s i
    | none => (ERR_FULL_IMGSTORE, s)

/-! ## `imgst_read.c` -/

/-- The function `do_read`: the error code, the image buffer and image size
handed to the caller (nothing when no image was loaded) and the store afterwards. -/
def do_read (env : Env) (img_id : List Nat) (resolution : Int) (s : imgst_file) :
    error_code × Option (List Nat × Nat) × imgst_file :=
  if resolution < RES_THUMB ∨ resolution > RES_ORIG then (ERR_INVALID_ARGUMENT, none, s)
  else if s.header.num_files = 0 then (ERR_FILE_NOT_FOUND, none, s)
  else match first_index
      (fun i => strncmp (s.metadata i).img_id img_id MAX_IMG_ID = 0 ∧ (s.metadata i).is_valid = NON_EMPTY)
      s.header.max_files 0 with
    | some i =>
      -- If the found image does not exist in the given resolution, creates it
      let z : error_code × imgst_file :=
        if (s.metadata i).offset resolution.toNat = 0 then lazily_resize env resolution s i
        else (ERR_NONE, s)
      if z.1 ≠ ERR_NONE then (z.1, none, z.2)
      else
        -- Reads the image content in the image buffer
        let image_size := (z.2.metadata i).size resolution.toNat
        let l := load_image_from_imgst i resolution.toNat image_size z.2
        if l.1 ≠ ERR_NONE then (l.1, none, l.2.2)
        else (ERR_NONE, some (l.2.1, image_size), l.2.2)
    | none => (ERR_FILE_NOT_FOUND, none, s)

/-! ## `imgst_delete.c` -/

/-- The assignment `metadata[index].is_valid = EMPTY` of `do_delete`. -/
def invalidate (s : imgst_file) (index : Nat) : imgst_file :=
  { s with metadata := Function.update s.metadata index { s.metadata index with is_valid := EMPTY } }

/-- The store in memory once `do_delete` has decremented `num_files` and
incremented `imgst_version`. -/
def uncount_image (s : imgst_file) : imgst_file :=
  { s with header :=
      { s.header with
        num_files := to_uint32 (s.header.num_files + (2 ^ 32 - 1))
        imgst_version := to_uint32 (s.header.imgst_version + 1) } }

/-- The function `do_delete`. -/
def do_delete (img_id : List Nat) (s : imgst_file) : error_code × imgst_file :=
  if s.header.num_files = 0 then (ERR_FILE_NOT_FOUND, s)
  else match first_index
      (fun i => strncmp (s.metadata i).img_id img_id MAX_IMGST_NAME = 0 ∧ (s.metadata i).is_valid = NON_EMPTY)
      s.header.max_files 0 with
    | none => (ERR_FILE_NOT_FOUND, s)
    | some index =>
      -- invalidates the reference
      let u := update_metadata (invalidate s index) index
      if u.1 ≠ ERR_NONE then u
      else update_header (uncount_image u.2)

/-! ## Concrete inputs

The stores, images and identifiers on which the code is evaluated below. -/

/-- An environment for evaluating the code: the digest of a buffer is the
buffer itself, a buffer is decoded, as an image of 4 by 3 pixels, when it
starts with the byte `0xFF` of the JPEG marker, and the resized image is
encoded in four bytes. -/
def sample_env : Env :=
  { SHA256 := fun b => b
    vips_jpegload_buffer := fun b => if b.headD 0 = 255 then some (4, 3) else none
    vips_resize_jpegsave := fun b w h => some [255, w, h, b.length] }

/-- The structure that the `create` command passes to `do_create`: the
capacity and the default resolutions are set, everything else is zero. -/
def blank_store (max_files : Nat) : imgst_file :=
  { file := fopen_wb []
    header :=
      { imgst_name := [], imgst_version := 0, num_files := 0, max_files := max_files,
        res_resized := fun k => if k < 2 then 64 else if k < 4 then 256 else 0,
        unused_32 := 0, unused_64 := 0 }
    metadata := fun _ => zero_metadata }

/-- A store of capacity `max_files` as `do_create` leaves it. -/
def created_store (max_files : Nat) : imgst_file := (do_create (some []) (blank_store max_files)).2

/-- The bytes `FF D8 FF D9`. -/
def jpeg_a : List Nat := [255, 216, 255, 217]

/-- The bytes `FF D8 00 FF D9`. -/
def jpeg_b : List Nat := [255, 216, 0, 255, 217]

/-- The identifier "pic1". -/
def pic1 : List Nat := [112, 105, 99, 49]

/-- The identifier "pic2". -/
def pic2 : List Nat := [112, 105, 99, 50]

/-- The store of capacity 1 that holds `jpeg_a` under "pic1". -/
def full_store : imgst_file := (do_insert sample_env jpeg_a 4 pic1 (created_store 1)).2

/-- The store of capacity 2 that holds `jpeg_a` under "pic1". -/
def half_store : imgst_file := (do_insert sample_env jpeg_a 4 pic1 (created_store 2)).2


/-- The store of capacity 2 that holds `jpeg_a` under "pic1" and `jpeg_b` under "pic2". -/
def two_store : imgst_file := (do_insert sample_env jpeg_b 5 pic2 half_store).2

/-- The store `two_store` after the deletion of "pic1". -/
def deleted_store : imgst_file := (do_delete pic1 two_store).2


/-- An identifier of 32 bytes: 31 times the letter `a`, then the byte `c`. -/
def long_id (c : Nat) : List Nat := List.replicate 31 97 ++ [c]

/-- The store of capacity 2 that holds `jpeg_a` under the identifier `long_id 49`. -/
def long_store : imgst_file := (do_insert sample_env jpeg_a 4 (long_id 49) (created_store 2)).2

/-- The store of capacity 1 that `do_create` leaves, with a file that has grown
to `2^31` bytes: after the header and the slot table come bytes (zeros here)
to which no slot refers, as deleted images leave them. -/
def two_gib_store : imgst_file :=
  { created_store 1 with file := { (created_store 1).file with len := 2 ^ 31 } }

/-! ## Reachable states -/

/-- The number of slots whose validity flag is NON_EMPTY. -/
def count_non_empty (s : imgst_file) : Nat :=
  ((List.range s.header.max_files).filter (fun i => (s.metadata i).is_valid = NON_EMPTY)).length

/-- The stores in memory that a sequence of calls of `do_insert`, `do_delete`,
`do_read` and `lazily_resize` leaves behind, whatever the calls return, when it
starts from a store that `do_create` has created. -/
inductive Reachable (env : Env) : imgst_file → Prop where
  | create (io : Option (List Bool)) (s0 : imgst_file) :
      (do_create io s0).1 = ERR_NONE → Reachable env (do_create io s0).2
  | insert (buffer : List Nat) (size : Nat) (img_id : List Nat) (s : imgst_file) :
      Reachable env s → Reachable env (do_insert env buffer size img_id s).2
  | delete (img_id : List Nat) (s : imgst_file) :
      Reachable env s → Reachable env (do_delete img_id s).2
  | read (img_id : List Nat) (resolution : Int) (s : imgst_file) :
      Reachable env s → Reachable env (do_read env img_id resolution s).2.2
  | resize (res : Int) (index : Nat) (s : imgst_file) :
      Reachable env s → Reachable env (lazily_resize env res s index).2


/-- A buffer of `2^32` bytes that starts with the JPEG marker. -/
def four_gib_jpeg : List Nat := List.replicate (2 ^ 32) 255


/-- A buffer of `2^32 - 280` bytes that starts with the JPEG marker. -/
def big_jpeg : List Nat := List.replicate (2 ^ 32 - 280) 255

/-- The store of capacity 1 that holds `big_jpeg` under "pic1": its file is
`2^32` bytes long. -/
def grown_store : imgst_file := (do_insert sample_env big_jpeg (2 ^ 32 - 280) pic1 (created_store 1)).2

/-- The store `grown_store` after the deletion of "pic1". -/
def emptied_store : imgst_file := (do_delete pic1 grown_store).2

/-- The store `emptied_store` after the insertion of `jpeg_a` under "pic2". -/
def wrapped_store : imgst_file := (do_insert sample_env jpeg_a 4 pic2 emptied_store).2

/-! ## `imgStoreMgr.c`: the command `create` -/

/-- The function `strcmp`. -/
def strcmp : List Nat → List Nat → Int
  | [], s2 => - (s2.headD 0 : Int)
  | c :: s1, s2 =>
    if c ≠ s2.headD 0 then (c : Int) - (s2.headD 0 : Int)
    else if c = 0 then 0
    else strcmp s1 s2.tail

/-- The bytes of the string literal "-max_files". -/
def opt_max_files : List Nat := [45, 109, 97, 120, 95, 102, 105, 108, 101, 115]

/-- The bytes of the string literal "-thumb_res". -/
def opt_thumb_res : List Nat := [45, 116, 104, 117, 109, 98, 95, 114, 101, 115]

/-- The bytes of the string literal "-small_res". -/
def opt_small_res : List Nat := [45, 115, 109, 97, 108, 108, 95, 114, 101, 115]

/-- The local variables of `do_create_cmd` that the options set. -/
structure create_args where
  max_files : Nat
  thumb_res_x : Nat
  thumb_res_y : Nat
  small_res_x : Nat
  small_res_y : Nat
  deriving DecidableEq, Repr

/-- The values of the local variables of `do_create_cmd` before the options are parsed. -/
def default_create_args : create_args :=
  { max_files := 10, thumb_res_x := 64, thumb_res_y := 64, small_res_x := 256, small_res_y := 256 }

/-- The loop of `do_create_cmd` over the arguments `argv[i], ..., argv[args - 1]`,
given as a list. The conversions `atouint32` and `atouint16` of `util.c`,
which is not part of the sources, are parameters. -/
def parse_create_args (atouint32 atouint16 : List Nat → Nat) :
    List (List Nat) → create_args → error_code × create_args
  | [], a => (ERR_NONE, a)
  | opt :: rest, a =>
    if strcmp opt opt_max_files = 0 then
      match rest with
      | v :: rest1 =>
        let a1 := { a with max_files := atouint32 v }
        if a1.max_files = 0 ∨ a1.max_files > MAX_MAX_FILES then (ERR_MAX_FILES, a1)
        else parse_create_args atouint32 atouint16 rest1 a1
      | [] => (ERR_NOT_ENOUGH_ARGUMENTS, a)
    else if strcmp opt opt_thumb_res = 0 then
      match rest with
      | x :: y :: rest2 =>
        let a1 := { a with thumb_res_x := atouint16 x, thumb_res_y := atouint16 y }
        if a1.thumb_res_x = 0 ∨ a1.thumb_res_x > 128 ∨ a1.thumb_res_y = 0 ∨ a1.thumb_res_y > 128 then
          (ERR_RESOLUTIONS, a1)
        else parse_create_args atouint32 atouint16 rest2 a1
      | _ => (ERR_NOT_ENOUGH_ARGUMENTS, a)
    else if strcmp opt opt_small_res = 0 then
      match rest with
      | x :: y :: rest2 =>
        let a1 := { a with small_res_x := atouint16 x, small_res_y := atouint16 y }
        if a1.small_res_x = 0 ∨ a1.small_res_x > 512 ∨ a1.small_res_y = 0 ∨ a1.small_res_y > 512 then
          (ERR_RESOLUTIONS, a1)
        else parse_create_args atouint32 atouint16 rest2 a1
      | _ => (ERR_NOT_ENOUGH_ARGUMENTS, a)
    else (ERR_INVALID_ARGUMENT, a)

/-- The structure `imgst_file` that `do_create_cmd` initialises from its local
variables: the fields that the initialiser does not name are zero. -/
def new_store (a : create_args) : imgst_file :=
  { file := fopen_wb []
    header :=
      { imgst_name := [], imgst_version := 0, num_files := 0, max_files := a.max_files,
        res_resized := fun k => [a.thumb_res_x, a.thumb_res_y, a.small_res_x, a.small_res_y].getD k 0,
        unused_32 := 0, unused_64 := 0 }
    metadata := fun _ => zero_metadata }

/-- The function `do_create_cmd` on the argument vector `argv` (the name of
the command, the name of the file, the options): the error code, the store
that `do_create` leaves when it has been called, and the file that `do_close`
leaves on the disk when it has been called.  `io` describes the file as in
`do_create` and `room` the device as in `fclose`. -/
def do_create_cmd (atouint32 atouint16 : List Nat → Nat) (io : Option (List Bool))
    (room : Option Nat) (argv : List (List Nat)) :
    error_code × Option imgst_file × Option FILE :=
  if argv.length = 1 then (ERR_NOT_ENOUGH_ARGUMENTS, none, none)
  else
    let p := parse_create_args atouint32 atouint16 (argv.drop 2) default_create_args
    if p.1 ≠ ERR_NONE then (p.1, none, none)
    else
      -- Creates the new image database in a binary file on disk
      let c := do_create io (new_store p.2)
      if c.1 ≠ ERR_NONE then (c.1, some c.2, none)
      else (ERR_NONE, some c.2, some (do_close c.2 room))

/-- A conversion of a string of decimal digits to a number, for evaluating the
code: the value of the digits, and `0` for any other string. -/
def sample_atouint (s : List Nat) : Nat :=
  if s ≠ [] ∧ s.all (fun c => 48 ≤ c ∧ c ≤ 57) then s.foldl (fun acc c => 10 * acc + (c - 48)) 0
  else 0

/-! ## `tools.c`: opening a store -/

/-- The call `fread(buf, size, nmemb, f)`: the number of complete items read,
the bytes stored in the buffer and the stream afterwards. -/
def fread_items (size nmemb : Nat) (f : FILE) : Nat × List Nat × FILE :=
  let n := if size = 0 then 0 else min nmemb ((f.len - f.pos) / size)
  (n, (List.range (n * size)).map (fun k => f.at (f.pos + k)), { f with pos := f.pos + n * size })

/-- The unsigned integer whose bytes are `b`, the least significant first. -/
def bytes_int (b : List Nat) : Nat := b.foldr (fun x acc => x + 256 * acc) 0

/-- The bytes `b[start], ..., b[start + w - 1]`. -/
def slice (b : List Nat) (start w : Nat) : List Nat := (b.drop start).take w

/-- The `struct imgst_header` whose bytes are `b`. -/
def header_of_bytes (b : List Nat) : imgst_header :=
  { imgst_name := slice b 0 (MAX_IMGST_NAME + 1)
    imgst_version := bytes_int (slice b 32 4)
    num_files := bytes_int (slice b 36 4)
    max_files := bytes_int (slice b 40 4)
    res_resized := fun k => bytes_int (slice b (44 + 2 * k) 2)
    unused_32 := bytes_int (slice b 52 4)
    unused_64 := bytes_int (slice b 56 8) }

/-- The `struct img_metadata` whose bytes are `b`. -/
def metadata_of_bytes (b : List Nat) : img_metadata :=
  { img_id := slice b 0 (MAX_IMG_ID + 1)
    SHA := slice b 128 SHA256_DIGEST_LENGTH
    res_orig := fun k => bytes_int (slice b (160 + 4 * k) 4)
    size := fun k => bytes_int (slice b (168 + 4 * k) 4)
    padding0 := bytes_int (slice b 180 4)
    offset := fun k => bytes_int (slice b (184 + 8 * k) 8)
    is_valid := bytes_int (slice b 208 2)
    unused_16 := bytes_int (slice b 210 2)
    padding1 := bytes_int (slice b 212 4) }

/-- The store in memory that `do_open` fills in from the file `f`, when the
header and the `max_files` slots that it announces are read. -/
def read_store (f : FILE) : imgst_file :=
  let r := fread_items sizeof_imgst_header 1 { f with pos := 0 }
  let header := header_of_bytes r.2.1
  let m := fread_items sizeof_img_metadata header.max_files r.2.2
  { file := m.2.2
    header := header
    metadata := fun i =>
      if i < header.max_files then
        metadata_of_bytes (slice m.2.1 (i * sizeof_img_metadata) sizeof_img_metadata)
      else zero_metadata }

/-- The function `do_open` on the file found under the given name (`none` when
`fopen` fails): the error code or the store in memory. -/
def do_open (file : Option FILE) : Except error_code imgst_file :=
  match file with
  | none => .error ERR_IO
  | some f =>
    -- Reads the header from the file
    let r := fread_items sizeof_imgst_header 1 { f with pos := 0 }
    let header := header_of_bytes r.2.1
    if r.1 ≠ 1 ∨ header.max_files > MAX_MAX_FILES then .error ERR_IO
    else
      -- Reads the metadata from the file
      let m := fread_items sizeof_img_metadata header.max_files r.2.2
      if m.1 ≠ header.max_files then .error ERR_IO
      else .ok (read_store f)

/-! ## `imgst_gbcollect.c` -/

/-- The structure `temp_file` that `do_gbcollect` initialises from the header
of the original store. -/
def temp_store (original : imgst_file) : imgst_file :=
  { file := fopen_wb []
    header :=
      { imgst_name := [], imgst_version := 0, num_files := 0,
        max_files := original.header.max_files,
        res_resized := fun k => if k < 4 then original.header.res_resized k else 0,
        unused_32 := 0, unused_64 := 0 }
    metadata := fun _ => zero_metadata }

/-- The statements of the body of the loop of `do_gbcollect` that follow the
insertion of the image of slot `i` in the temporary store: inserts the image
in the other resolutions, if any. -/
def gc_resize (env : Env) (original temp : imgst_file) (i : Nat) : error_code × imgst_file :=
  let index := to_uint32 (temp.header.num_files + (2 ^ 32 - 1))
  let t1 : error_code × imgst_file :=
    if (original.metadata i).offset RES_SMALL ≠ 0 then lazily_resize env RES_SMALL temp index
    else (ERR_NONE, temp)
  if t1.1 ≠ ERR_NONE then t1
  else if (original.metadata i).offset RES_THUMB ≠ 0 then
    lazily_resize env RES_THUMB t1.2 (to_uint32 (t1.2.header.num_files + (2 ^ 32 - 1)))
  else (ERR_NONE, t1.2)

/-- The body of the loop of `do_gbcollect` at the NON_EMPTY slot `i`: the error
code, the original store and the temporary store afterwards. -/
def gc_step (env : Env) (original temp : imgst_file) (i : Nat) :
    error_code × imgst_file × imgst_file :=
  let size := (original.metadata i).size RES_ORIG
  -- Reads the image in original resolution
  let r := do_read env (original.metadata i).img_id RES_ORIG original
  if r.1 ≠ ERR_NONE then (r.1, r.2.2, temp)
  else
    let image := r.2.1.getD ([], to_uint32 size)
    -- Re-inserts the image in the imgStore (and possibly deduplicates it)
    let ins := do_insert env image.1 image.2 (r.2.2.metadata i).img_id temp
    if ins.1 ≠ ERR_NONE then (ins.1, r.2.2, ins.2)
    else
      let z := gc_resize env r.2.2 ins.2 i
      (z.1, r.2.2, z.2)

/-- The loop of `do_gbcollect` over the slots `i, ..., i + n - 1` of the
original store. -/
def gc_loop (env : Env) : Nat → Nat → imgst_file → imgst_file → error_code × imgst_file × imgst_file
  | 0, _, original, temp => (ERR_NONE, original, temp)
  | n + 1, i, original, temp =>
    if (original.metadata i).is_valid = NON_EMPTY then
      let g := gc_step env original temp i
      if g.1 ≠ ERR_NONE then g
      else gc_loop env n (i + 1) g.2.1 g.2.2
    else gc_loop env n (i + 1) original temp

/-- The function `do_gbcollect` on the file found under `imgst_path`; `io`
describes the file under `imgst_tmp_bkp_path` as in `do_create`. The result
is the error code, the file found under `imgst_path` afterwards (`none` when
there is none) and the temporary store in memory before it is closed (`none`
when the function returns before it exists). When `do_create` fails, the C
code goes on with a null `metadata` pointer and a null stream in `temp_file`:
its behaviour is then defined only if the loop finds no NON_EMPTY slot. -/
def do_gbcollect (env : Env) (file : Option FILE) (io : Option (List Bool)) :
    error_code × Option FILE × Option imgst_file :=
  match do_open file with
  | .error e => (e, file, none)
  | .ok original_file =>
    -- the value that do_create returns is not looked at
    let temp_file := (do_create io (temp_store original_file)).2
    let g := gc_loop env original_file.header.max_files 0 original_file temp_file
    if g.1 ≠ ERR_NONE then (g.1, file, some g.2.2)
    else
      -- remove(imgst_path), then rename(imgst_tmp_bkp_path, imgst_path)
      (ERR_NONE, if io.isSome then some g.2.2.file else none, some g.2.2)

/-- The identifier "pic3". -/
def pic3 : List Nat := [112, 105, 99, 51]

/-- The identifier "pic4". -/
def pic4 : List Nat := [112, 105, 99, 52]

/-- The store `half_store` after "pic1" has been read in the resolution RES_SMALL. -/
def small_store : imgst_file := (do_read sample_env pic1 RES_SMALL half_store).2.2

/-- The store `small_store` after the insertion of `jpeg_a` under "pic2". -/
def shared_store : imgst_file := (do_insert sample_env jpeg_a 4 pic2 small_store).2

/-- The store of capacity 4 that holds `jpeg_a` under "pic1" and "pic2". -/
def pair_store : imgst_file :=
  (do_insert sample_env jpeg_a 4 pic2 (do_insert sample_env jpeg_a 4 pic1 (created_store 4)).2).2

/-- The store `pair_store` after "pic1" has been read in the resolution
RES_SMALL and `jpeg_a` has been inserted under "pic3" and under "pic4". -/
def quad_store : imgst_file :=
  (do_insert sample_env jpeg_a 4 pic4
    (do_insert sample_env jpeg_a 4 pic3 (do_read sample_env pic1 RES_SMALL pair_store).2.2).2).2

/-- The store `quad_store` after the deletion of "pic1". -/
def trio_store : imgst_file := (do_delete pic1 quad_store).2

/-! ## The blob region of the file -/

/-- The offset at which the blob region of the file of a store starts:
`sizeof(header) + max_files * sizeof(slot)`. -/
def blob_start (s : imgst_file) : Nat := sizeof_imgst_header + s.header.max_files * sizeof_img_metadata

/-- The file `g` is at least as long as the file `f` and holds the same bytes
as `f` at the offsets of `f` from `n` on. -/
def blobs_kept (n : Nat) (f g : FILE) : Prop :=
  f.len ≤ g.len ∧ ∀ k, n ≤ k → k < f.len → g.at k = f.at k


/-- The store `half_store` with a file that has grown to `2^32` bytes: after the
image of "pic1" come bytes (zeros here) to which no slot refers, as deleted
images leave them. -/
def four_gib_store : imgst_file :=
  { half_store with file := { half_store.file with len := 2 ^ 32 } }

/-- The store `four_gib_store` after "pic1" has been read in the resolution RES_SMALL. -/
def four_gib_read_store : imgst_file := (do_read sample_env pic1 RES_SMALL four_gib_store).2.2


/-- The store `half_store` after "pic1" has been read in the resolution
RES_THUMB and then deleted: a store of capacity 2 without any image. -/
def thumb_deleted_store : imgst_file :=
  (do_delete pic1 (do_read sample_env pic1 RES_THUMB half_store).2.2).2


/-! ## Derived resolutions and the SHA -/

/-- In the NON_EMPTY slots, the offsets of the derived resolutions that are not
0 lie below the length of the file, and two distinct slots have the same one
only if `compare_sha` finds their SHA equal. -/
def derived_ok (s : imgst_file) : Prop :=
  (∀ i res, (s.metadata i).is_valid = NON_EMPTY → res = RES_THUMB ∨ res = RES_SMALL →
    (s.metadata i).offset res ≠ 0 → (s.metadata i).offset res < s.file.len) ∧
  (∀ i j res, i ≠ j → (s.metadata i).is_valid = NON_EMPTY → (s.metadata j).is_valid = NON_EMPTY →
    res = RES_THUMB ∨ res = RES_SMALL → (s.metadata i).offset res = (s.metadata j).offset res →
    (s.metadata i).offset res ≠ 0 → compare_sha (s.metadata i).SHA (s.metadata j).SHA = 0)


/-! ## The slots that the garbage collection copies -/

/-- The number of NON_EMPTY slots of the store below the slot `i`. -/
def slots_before (s : imgst_file) (i : Nat) : Nat :=
  ((List.range i).filter (fun k => (s.metadata k).is_valid = NON_EMPTY)).length

/-- The bytes of the file of the store at the original offset of the slot `i`,
as many as the original size of the slot says. -/
def original_bytes (s : imgst_file) (i : Nat) : List Nat :=
  (List.range ((s.metadata i).size RES_ORIG)).map
    (fun k => s.file.at ((s.metadata i).offset RES_ORIG + k))


/-- The temporary store counts and holds, in its first slots and in the same
order, the images of the NON_EMPTY slots of the original store below the slot
`i`: the image of the slot `k` is in the slot `slots_before original k`, with
the same identifier, SHA and original size, and the other slots are EMPTY. -/
def copied_below (original temp : imgst_file) (i : Nat) : Prop :=
  temp.header.num_files = slots_before original i ∧
  (∀ j, j < slots_before original i → (temp.metadata j).is_valid = NON_EMPTY) ∧
  (∀ j, slots_before original i ≤ j → (temp.metadata j).is_valid = EMPTY) ∧
  (∀ k, k < i → (original.metadata k).is_valid = NON_EMPTY →
    strncmp (temp.metadata (slots_before original k)).img_id (original.metadata k).img_id MAX_IMG_ID = 0 ∧
    compare_sha (temp.metadata (slots_before original k)).SHA (original.metadata k).SHA = 0 ∧
    (temp.metadata (slots_before original k)).size RES_ORIG = (original.metadata k).size RES_ORIG)


/-! ## `imgStoreMgr.c`: the command `insert` -/

/-- The function `read_disk_image` on the file found under the given name
(`none` when `fopen` fails): the error code, the buffer and the size.  The
allocation of the buffer is taken to succeed. -/
def read_disk_image (file : Option FILE) : error_code × List Nat × Nat :=
  match file with
  | none => ( ERR_IO, [], 0)
  | some f =>
    let size := ftell (fseek_end f)
    -- Loads the image file in the allocated buffer
    let r := fread_items 1 size (rewind f)
    if r.1 ≠ size then ( ERR_IO, [], size) else (ERR_NONE, r.2.1, size)

/-- The statements of `do_insert_cmd` that follow the check of the identifier:
reads the image file, opens the store and inserts the buffer content in it.
The files are found by their names in `disk`; the result is the error code and,
when the store has been opened, the store in memory before it is closed. -/
def insert_disk_image (env : Env) (disk : List Nat → Option FILE) (imgstore_filename img_id
    filename : List Nat) : error_code × Option imgst_file :=
  let r := read_disk_image (disk filename)
  if r.1 ≠ ERR_NONE then (r.1, none)
  else match do_open (disk imgstore_filename) with
    | .error e => (e, none)
    | .ok myfile =>
      let error_insert := do_insert env r.2.1 r.2.2 img_id myfile
      (error_insert.1, some error_insert.2)

/-- The function `do_insert_cmd` on the argument vector `argv` (the name of the
command, the name of the store, the identifier, the name of the image file). -/
def do_insert_cmd (env : Env) (disk : List Nat → Option FILE) (argv : List (List Nat)) :
    error_code × Option imgst_file :=
  if argv.length < 4 then (ERR_NOT_ENOUGH_ARGUMENTS, none)
  else
    let imgstore_filename := argv.getD 1 []
    let img_id := argv.getD 2 []
    if strlen img_id = 0 ∨ strlen img_id > MAX_IMG_ID then (ERR_INVALID_IMGID, none)
    else insert_disk_image env disk imgstore_filename img_id (argv.getD 3 [])

/-! ## More concrete inputs -/

/-- The store that holds `jpeg_a` under `long_id 49` and `jpeg_b` under
`long_id 50`, two identifiers that differ in their 32nd byte only: the second
image was inserted under "pic2" and its identifier then replaced in the slot,
since `do_insert` refuses the identifier `long_id 50` in this store. -/
def twin_store : imgst_file :=
  let s := (do_insert sample_env jpeg_b 5 pic2 long_store).2
  { s with metadata := Function.update s.metadata 1 { s.metadata 1 with img_id := long_id 50 } }

/-- The store `small_store` after the deletion of "pic1", with a file that has
grown to `2^31` bytes: the slot 0 is EMPTY and still carries the offset and the
size of the small image of "pic1". -/
def stale_store : imgst_file :=
  let s := (do_delete pic1 small_store).2
  { s with file := { s.file with len := 2 ^ 31 } }

/-- The store `small_store` after the deletion of "pic1". -/
def reuse_store : imgst_file := (do_delete pic1 small_store).2

/-- The identifier "img" followed by the digit `n`. -/
def img_name (n : Nat) : List Nat := [105, 109, 103, 48 + n]

/-- The bytes `FF D8 n FF D9`. -/
def jpeg_n (n : Nat) : List Nat := [255, 216, n, 255, 217]

/-- The store of capacity `max_files` in which the images `jpeg_n 0`, ...,
`jpeg_n (n - 1)` have been inserted under "img0", ..., in this order. -/
def filled_store (max_files : Nat) : Nat → imgst_file
  | 0 => created_store max_files
  | n + 1 => (do_insert sample_env (jpeg_n n) 5 (img_name n) (filled_store max_files n)).2

/-- The store of capacity 8 in which 8 images have been inserted, in the slots
0 to 7, and the image "img3" of the slot 3 has then been deleted. -/
def gap_store : imgst_file := (do_delete (img_name 3) (filled_store 8 8)).2


/-- The store of capacity 1 that holds `jpeg_a` under `long_id 49`. -/
def full_long_store : imgst_file :=
  (do_insert sample_env jpeg_a 4 (long_id 49) (created_store 1)).2


/-- Equality of two SHA values over all their 32 bytes. -/
@[reducible] def same_sha (sha1 sha2 : List Nat) : Prop :=
  ∀ k, k < SHA256_DIGEST_LENGTH → sha1.getD k 0 % 256 = sha2.getD k 0 % 256

/-- The store `half_store` in which `do_insert` has set, in the EMPTY slot 1,
the SHA, the identifier and the size of the image `jpeg_a` inserted under
"pic2": the store on which `do_insert` calls the deduplicator. -/
def candidate_store : imgst_file := insert_candidate sample_env jpeg_a 4 pic2 half_store 1


/-- The header of a store of capacity 1 that holds one image. -/
def giant_header : imgst_header :=
  { imgst_name := CAT_TXT, imgst_version := 1, num_files := 1, max_files := 1,
    res_resized := fun k => if k < 2 then 64 else if k < 4 then 256 else 0,
    unused_32 := 0, unused_64 := 0 }

/-- The slot of an image of `2^32 - 280` bytes stored at the offset 280 under
"pic1", whose small image, of 4 bytes, is stored at the offset `2^32`. -/
def giant_slot : img_metadata :=
  { img_id := pic1, SHA := [255], res_orig := fun k => if k = 0 then 4 else 3,
    size := fun k => if k = RES_ORIG then 2 ^ 32 - 280 else if k = RES_SMALL then 4 else 0,
    padding0 := 0,
    offset := fun k => if k = RES_ORIG then 280 else if k = RES_SMALL then 2 ^ 32 else 0,
    is_valid := NON_EMPTY, unused_16 := 0, padding1 := 0 }

/-- A store file of `2^32 + 4` bytes: the header `giant_header`, the slot
`giant_slot`, an image of `2^32 - 280` bytes, which starts with the byte `0xFF`
of the JPEG marker, and the 4 bytes of its small image. -/
def giant_file : FILE :=
  { len := 2 ^ 32 + 4
    byte := fun k =>
      if k = 2 ^ 32 then 255
      else (header_bytes giant_header ++ metadata_bytes giant_slot ++ [255]).getD k 0
    pos := 0
    faults := [] }

/-! # Properties -/

/-! ## Loops over the slots -/

theorem first_index_eq_some {p : Nat → Bool} {n i k : Nat} (h : first_index p n i = some k) :
    i ≤ k ∧ k < i + n ∧ p k = true ∧ ∀ j, i ≤ j → j < k → p j = false := by
  induction n generalizing i with
  | zero => simp [first_index] at h
  | succ n ih =>
    simp only [first_index] at h
    by_cases hp : p i = true
    · simp only [hp, if_true, Option.some.injEq] at h
      subst h
      exact ⟨le_refl _, by omega, hp, fun j h1 h2 => by omega⟩
    · simp only [hp] at h
      obtain ⟨h1, h2, h3, h4⟩ := ih h
      refine ⟨by omega, by omega, h3, fun j hj1 hj2 => ?_⟩
      by_cases hji : j = i
      · subst hji; simpa using hp
      · exact h4 j (by omega) hj2

theorem first_index_eq_none {p : Nat → Bool} {n i : Nat} :
    first_index p n i = none ↔ ∀ j, i ≤ j → j < i + n → p j = false := by
  induction n generalizing i with
  | zero => simp [first_index]; intro j h1 h2; omega
  | succ n ih =>
    simp only [first_index]
    by_cases hp : p i = true
    · rw [if_pos hp]
      constructor
      · intro h; cases h
      · intro h; have := h i (le_refl _) (by omega); simp [hp] at this
    · rw [if_neg hp, ih]
      constructor
      · intro h j h1 h2
        by_cases hji : j = i
        · subst hji; simpa using hp
        · exact h j (by omega) (by omega)
      · intro h j h1 h2
        exact h j (by omega) (by omega)

theorem first_index_exists {p : Nat → Bool} {n i k : Nat} (h1 : i ≤ k) (h2 : k < i + n)
    (hp : p k = true) : ∃ k0, first_index p n i = some k0 := by
  cases h : first_index p n i with
  | some k0 => exact ⟨k0, rfl⟩
  | none =>
    rw [first_index_eq_none] at h
    have := h k h1 h2
    simp [hp] at this

/-! ## Comparison of identifiers -/

theorem strncmp_symm (a b : List Nat) (n : Nat) : strncmp a b n = 0 → strncmp b a n = 0 := by
  induction n generalizing a b with
  | zero => intro _; simp [strncmp]
  | succ n ih =>
    intro h
    unfold strncmp at h ⊢
    by_cases hne : a.headD 0 = b.headD 0
    · rw [if_neg (by simp only [hne, ne_eq, not_true_eq_false, not_false_eq_true])] at h
      rw [if_neg (by simp only [hne, ne_eq, not_true_eq_false, not_false_eq_true])]
      by_cases hz : b.headD 0 = 0
      · rw [if_pos hz]
      · rw [if_neg (by rw [hne]; exact hz)] at h
        rw [if_neg hz]
        exact ih _ _ h
    · rw [if_pos hne] at h
      exfalso; apply hne; omega

theorem strncmp_mono (a b : List Nat) (m n : Nat) (hmn : m ≤ n) :
    strncmp a b n = 0 → strncmp a b m = 0 := by
  induction m generalizing a b n with
  | zero => intro _; simp [strncmp]
  | succ m ih =>
    intro h
    obtain ⟨n, rfl⟩ : ∃ n0, n = n0 + 1 := ⟨n - 1, by omega⟩
    unfold strncmp at h ⊢
    by_cases hne : a.headD 0 = b.headD 0
    · rw [if_neg (by simp only [hne, ne_eq, not_true_eq_false, not_false_eq_true])] at h
      rw [if_neg (by simp only [hne, ne_eq, not_true_eq_false, not_false_eq_true])]
      by_cases hz : a.headD 0 = 0
      · rw [if_pos hz]
      · rw [if_neg hz] at h
        rw [if_neg hz]
        exact ih _ _ n (by omega) h
    · rw [if_pos hne] at h
      rw [if_pos hne]
      exact h

theorem strncpy_bytes_headD (x r : List Nat) (n : Nat) :
    (strncpy_bytes x (n + 1) ++ r).headD 0 = x.headD 0 := by
  unfold strncpy_bytes
  by_cases hz : x.headD 0 = 0
  · rw [if_pos hz, hz]; rfl
  · rw [if_neg hz]; rfl

theorem strncpy_bytes_tail (x r : List Nat) (n : Nat) (hz : x.headD 0 ≠ 0) :
    (strncpy_bytes x (n + 1) ++ r).tail = strncpy_bytes x.tail n ++ r := by
  conv_lhs => unfold strncpy_bytes
  rw [if_neg hz]; rfl

theorem strncmp_succ (s1 s2 : List Nat) (n : Nat) :
    strncmp s1 s2 (n + 1) =
      if s1.headD 0 ≠ s2.headD 0 then (s1.headD 0 : Int) - (s2.headD 0 : Int)
      else if s1.headD 0 = 0 then 0 else strncmp s1.tail s2.tail n := by
  rw [strncmp]

theorem strncmp_strncpy_bytes (a x r : List Nat) (k n : Nat) (hkn : k ≤ n) :
    strncmp a (strncpy_bytes x n ++ r) k = strncmp a x k := by
  induction k generalizing a x n with
  | zero => simp [strncmp]
  | succ k ih =>
    obtain ⟨n, rfl⟩ : ∃ n0, n = n0 + 1 := ⟨n - 1, by omega⟩
    rw [strncmp_succ, strncmp_succ, strncpy_bytes_headD]
    by_cases hne : a.headD 0 = x.headD 0
    · have h1 : ¬ (a.headD 0 ≠ x.headD 0) := fun h => h hne
      rw [if_neg h1, if_neg h1]
      by_cases hz : a.headD 0 = 0
      · rw [if_pos hz, if_pos hz]
      · rw [if_neg hz, if_neg hz, strncpy_bytes_tail _ _ _ (by rw [← hne]; exact hz)]
        exact ih _ _ n (by omega)
    · rw [if_pos hne, if_pos hne]

theorem strncmp_strncpy (a dst x : List Nat) (k n : Nat) (hkn : k ≤ n) :
    strncmp a (strncpy dst x n) k = strncmp a x k :=
  strncmp_strncpy_bytes a x (dst.drop n) k n hkn

/-! ## The deduplicator -/

theorem update_slot_self (md : Nat → img_metadata) (index : Nat) :
    md = Function.update md index { md index with offset := (md index).offset, size := (md index).size } := by
  funext k
  by_cases h : k = index
  · subst h; simp
  · simp [Function.update_noteq h]

theorem dedup_loop_frame (index n i : Nat) (dup : Option Nat) (md : Nat → img_metadata) :
    ∃ off sz, (dedup_loop index n i dup md).2.2 =
      Function.update md index { md index with offset := off, size := sz } := by
  induction n generalizing i dup md with
  | zero => exact ⟨_, _, update_slot_self md index⟩
  | succ n ih =>
    unfold dedup_loop
    split
    · split
      · exact ⟨_, _, update_slot_self md index⟩
      · split
        · obtain ⟨off, sz, h⟩ := ih (i + 1) (some i) (copy_offsets_sizes md index i)
          refine ⟨off, sz, ?_⟩
          rw [h]
          simp [copy_offsets_sizes]
        · exact ih _ _ _
    · exact ih _ _ _

theorem dedup_loop_duplicate (index n i : Nat) (dup : Option Nat) (md : Nat → img_metadata) (j : Nat)
    (h1 : i ≤ j) (h2 : j < i + n) (hj : j ≠ index) (hv : (md j).is_valid = NON_EMPTY)
    (hs : strncmp (md j).img_id (md index).img_id MAX_IMGST_NAME = 0) :
    (dedup_loop index n i dup md).1 = ERR_DUPLICATE_ID := by
  induction n generalizing i dup md with
  | zero => omega
  | succ n ih =>
    unfold dedup_loop
    by_cases hij : i = j
    · subst hij
      rw [if_pos ⟨hj, hv⟩, if_pos hs]
    · split
      · split
        · rfl
        · split
          · apply ih
            · omega
            · omega
            · simpa [copy_offsets_sizes, Function.update_noteq hj] using hv
            · simpa [copy_offsets_sizes, Function.update_noteq hj] using hs
          · exact ih _ _ _ (by omega) (by omega) hv hs
      · exact ih _ _ _ (by omega) (by omega) hv hs

theorem dedup_loop_code (index n i : Nat) (dup : Option Nat) (md : Nat → img_metadata) :
    (dedup_loop index n i dup md).1 = ERR_NONE ∨ (dedup_loop index n i dup md).1 = ERR_DUPLICATE_ID := by
  induction n generalizing i dup md with
  | zero => left; rfl
  | succ n ih =>
    unfold dedup_loop
    split
    · split
      · right; rfl
      · split
        · exact ih _ _ _
        · exact ih _ _ _
    · exact ih _ _ _

theorem dedup_loop_none (index n i : Nat) (dup : Option Nat) (md : Nat → img_metadata)
    (h : (dedup_loop index n i dup md).1 = ERR_NONE) (j : Nat)
    (h1 : i ≤ j) (h2 : j < i + n) (hj : j ≠ index) (hv : (md j).is_valid = NON_EMPTY) :
    strncmp (md j).img_id (md index).img_id MAX_IMGST_NAME ≠ 0 := by
  intro hs
  rw [dedup_loop_duplicate index n i dup md j h1 h2 hj hv hs] at h
  cases h

theorem do_name_and_content_dedup_frame (s : imgst_file) (index : Nat) :
    (do_name_and_content_dedup s index).2.file = s.file ∧
    (do_name_and_content_dedup s index).2.header = s.header ∧
    ∃ off sz, (do_name_and_content_dedup s index).2.metadata =
      Function.update s.metadata index { s.metadata index with offset := off, size := sz } := by
  unfold do_name_and_content_dedup
  obtain ⟨off, sz, h⟩ := dedup_loop_frame index s.header.max_files 0 none s.metadata
  split
  · exact ⟨rfl, rfl, _, _, update_slot_self _ _⟩
  · simp only []
    split
    · exact ⟨rfl, rfl, off, sz, h⟩
    · split
      · refine ⟨rfl, rfl, Function.update off RES_ORIG 0, sz, ?_⟩
        simp [h, set_offset]
      · exact ⟨rfl, rfl, off, sz, h⟩

theorem do_name_and_content_dedup_duplicate (s : imgst_file) (index j : Nat)
    (hi : index < s.header.max_files) (hj : j < s.header.max_files) (hne : j ≠ index)
    (hv : (s.metadata j).is_valid = NON_EMPTY)
    (hs : strncmp (s.metadata j).img_id (s.metadata index).img_id MAX_IMGST_NAME = 0) :
    (do_name_and_content_dedup s index).1 = ERR_DUPLICATE_ID := by
  have h := dedup_loop_duplicate index s.header.max_files 0 none s.metadata j (by omega) (by omega) hne hv hs
  unfold do_name_and_content_dedup
  rw [if_neg (by omega)]
  simp [h]

/-! ## Insertion into a full store -/

/-- C4. Full store: when `num_files` equals `max_files`, or when no slot is
EMPTY, `do_insert` returns `ERR_FULL_IMGSTORE` and the store (header, every
metadata slot, file) is the one it was given. -/
theorem do_insert_full (env : Env) (buffer : List Nat) (size : Nat) (img_id : List Nat)
    (s : imgst_file)
    (h : s.header.num_files = s.header.max_files ∨
      ∀ i, i < s.header.max_files → (s.metadata i).is_valid ≠ EMPTY) :
    do_insert env buffer size img_id s = (ERR_FULL_IMGSTORE, s) := by
  unfold do_insert
  by_cases hfull : s.header.num_files ≥ s.header.max_files
  · rw [if_pos hfull]
  · rw [if_neg hfull]
    rcases h with h | h
    · omega
    · have hnone : first_index (fun i => decide ((s.metadata i).is_valid = 0)) s.header.max_files 0 = none := by
        rw [first_index_eq_none]
        intro j _ hj
        have := h j (by omega)
        simpa [EMPTY] using this
      rw [hnone]

set_option maxRecDepth 100000 in
/-- C4, at a concrete input: the store of capacity 1 that holds "pic1" refuses "pic2". -/
theorem do_insert_full_witness :
    (full_store.header.num_files = full_store.header.max_files ∨
      ∀ i, i < full_store.header.max_files → (full_store.metadata i).is_valid ≠ EMPTY) ∧
    do_insert sample_env jpeg_b 5 pic2 full_store = (ERR_FULL_IMGSTORE, full_store) :=
  ⟨Or.inl (by decide), do_insert_full sample_env jpeg_b 5 pic2 full_store (Or.inl (by decide))⟩

/-! ## Reading an identifier that is not in the store -/

/-- C6. Read of a non-existent id: for a valid resolution code and an identifier
that differs, compared over at most 127 bytes, from the identifier of every
NON_EMPTY slot, `do_read` returns `ERR_FILE_NOT_FOUND`, hands no buffer to the
caller and leaves the store as it was; the identifiers of EMPTY slots are not
looked at. -/
theorem do_read_not_found (env : Env) (img_id : List Nat) (resolution : Int) (s : imgst_file)
    (hres : (RES_THUMB : Int) ≤ resolution ∧ resolution ≤ (RES_ORIG : Int))
    (h : ∀ i, i < s.header.max_files → (s.metadata i).is_valid = NON_EMPTY →
      strncmp (s.metadata i).img_id img_id MAX_IMG_ID ≠ 0) :
    do_read env img_id resolution s = (ERR_FILE_NOT_FOUND, none, s) := by
  unfold do_read
  rw [if_neg (by omega)]
  by_cases h0 : s.header.num_files = 0
  · rw [if_pos h0]
  · rw [if_neg h0]
    have hnone : first_index
        (fun i => decide (strncmp (s.metadata i).img_id img_id MAX_IMG_ID = 0 ∧
          (s.metadata i).is_valid = NON_EMPTY)) s.header.max_files 0 = none := by
      rw [first_index_eq_none]
      intro j _ hj
      have := h j (by omega)
      simp only [decide_eq_false_iff_not, not_and]
      intro h1 h2
      exact this h2 h1
    rw [hnone]

set_option maxRecDepth 100000 in
/-- C6, at a concrete input: "pic1" was deleted from a store that still holds
"pic2"; its slot is EMPTY, still carries the identifier, and the read fails. -/
theorem do_read_not_found_witness :
    ((RES_THUMB : Int) ≤ 2 ∧ (2 : Int) ≤ (RES_ORIG : Int)) ∧
    (∀ i, i < deleted_store.header.max_files → (deleted_store.metadata i).is_valid = NON_EMPTY →
      strncmp (deleted_store.metadata i).img_id pic1 MAX_IMG_ID ≠ 0) ∧
    ((deleted_store.metadata 0).is_valid = EMPTY ∧
      strncmp (deleted_store.metadata 0).img_id pic1 MAX_IMG_ID = 0) ∧
    do_read sample_env pic1 2 deleted_store = (ERR_FILE_NOT_FOUND, none, deleted_store) :=
  ⟨by decide, by decide, by decide,
    do_read_not_found sample_env pic1 2 deleted_store (by decide) (by decide)⟩

/-! ## Insertion under an identifier that is already in the store -/

theorem insert_candidate_header (env : Env) (buffer : List Nat) (size : Nat) (img_id : List Nat)
    (s : imgst_file) (i : Nat) :
    (insert_candidate env buffer size img_id s i).header = s.header := rfl

theorem insert_candidate_file (env : Env) (buffer : List Nat) (size : Nat) (img_id : List Nat)
    (s : imgst_file) (i : Nat) :
    (insert_candidate env buffer size img_id s i).file = s.file := rfl

theorem insert_candidate_other (env : Env) (buffer : List Nat) (size : Nat) (img_id : List Nat)
    (s : imgst_file) (i k : Nat) (h : k ≠ i) :
    (insert_candidate env buffer size img_id s i).metadata k = s.metadata k := by
  simp [insert_candidate, set_size, Function.update_noteq h]

theorem insert_candidate_is_valid (env : Env) (buffer : List Nat) (size : Nat) (img_id : List Nat)
    (s : imgst_file) (i k : Nat) :
    ((insert_candidate env buffer size img_id s i).metadata k).is_valid = (s.metadata k).is_valid := by
  by_cases h : k = i
  · subst h; simp [insert_candidate, set_size]
  · rw [insert_candidate_other _ _ _ _ _ _ _ h]

theorem insert_candidate_img_id (env : Env) (buffer : List Nat) (size : Nat) (img_id : List Nat)
    (s : imgst_file) (i : Nat) :
    ((insert_candidate env buffer size img_id s i).metadata i).img_id =
      strncpy (s.metadata i).img_id img_id MAX_IMG_ID := by
  simp [insert_candidate, set_size]

/-- C3, as amended. Duplicate id rejection: when the store has room
(`num_files < max_files` and an EMPTY slot) and a NON_EMPTY slot `j` holds the
identifier `X`, `do_insert` of any bytes under `X` returns `ERR_DUPLICATE_ID`,
leaves the header (so `num_files` and `imgst_version`) and the file as they
were, and leaves the validity flag of every slot as it was. -/
theorem do_insert_duplicate_id (env : Env) (buffer : List Nat) (size : Nat) (X : List Nat)
    (s : imgst_file) (j : Nat)
    (hroom : s.header.num_files < s.header.max_files)
    (hempty : ∃ i, i < s.header.max_files ∧ (s.metadata i).is_valid = EMPTY)
    (hj : j < s.header.max_files) (hv : (s.metadata j).is_valid = NON_EMPTY)
    (hid : strncmp (s.metadata j).img_id X MAX_IMG_ID = 0) :
    (do_insert env buffer size X s).1 = ERR_DUPLICATE_ID ∧
    (do_insert env buffer size X s).2.header = s.header ∧
    (do_insert env buffer size X s).2.file = s.file ∧
    ∀ k, ((do_insert env buffer size X s).2.metadata k).is_valid = (s.metadata k).is_valid := by
  obtain ⟨i0, hi0, he⟩ := hempty
  obtain ⟨i, hfi⟩ := first_index_exists (p := fun i => decide ((s.metadata i).is_valid = 0))
    (n := s.header.max_files) (Nat.zero_le i0) (by omega) (by simpa [EMPTY] using he)
  obtain ⟨_, hi, hpi, _⟩ := first_index_eq_some hfi
  have hvi : (s.metadata i).is_valid = 0 := by simpa using hpi
  have hji : j ≠ i := by
    intro hji; subst hji; rw [hvi] at hv; cases hv
  have hd : (do_name_and_content_dedup (insert_candidate env buffer size X s i) i).1
      = ERR_DUPLICATE_ID := by
    have hi2 : i < (insert_candidate env buffer size X s i).header.max_files := by
      rw [insert_candidate_header]; omega
    apply do_name_and_content_dedup_duplicate (insert_candidate env buffer size X s i) i j hi2 hj hji
    · rw [insert_candidate_is_valid]; exact hv
    · rw [insert_candidate_img_id, insert_candidate_other _ _ _ _ _ _ _ hji, strncmp_strncpy _ _ _ _ _
        (by decide)]
      exact strncmp_mono _ _ _ _ (by decide) hid
  obtain ⟨hf, hh, off, sz, hm⟩ :=
    do_name_and_content_dedup_frame (insert_candidate env buffer size X s i) i
  have hres : do_insert env buffer size X s =
      do_name_and_content_dedup (insert_candidate env buffer size X s i) i := by
    unfold do_insert
    rw [if_neg (by omega), hfi]
    simp only [do_insert_at]
    rw [if_pos (by rw [hd]; decide)]
  rw [hres]
  refine ⟨hd, hh, hf, fun k => ?_⟩
  rw [hm]
  by_cases hk : k = i
  · subst hk
    simp only [Function.update_same]
    exact insert_candidate_is_valid _ _ _ _ _ _ _
  · rw [Function.update_noteq hk]
    exact insert_candidate_is_valid _ _ _ _ _ _ _

set_option maxRecDepth 100000 in
/-- C3, as amended, at a concrete input: a second image under "pic1" in a store
of capacity 2 that holds "pic1". -/
theorem do_insert_duplicate_id_witness :
    (half_store.header.num_files < half_store.header.max_files ∧
      (∃ i, i < half_store.header.max_files ∧ (half_store.metadata i).is_valid = EMPTY) ∧
      0 < half_store.header.max_files ∧ (half_store.metadata 0).is_valid = NON_EMPTY ∧
      strncmp (half_store.metadata 0).img_id pic1 MAX_IMG_ID = 0) ∧
    (do_insert sample_env jpeg_b 5 pic1 half_store).1 = ERR_DUPLICATE_ID ∧
    (do_insert sample_env jpeg_b 5 pic1 half_store).2.header = half_store.header ∧
    (do_insert sample_env jpeg_b 5 pic1 half_store).2.file = half_store.file ∧
    ∀ k, ((do_insert sample_env jpeg_b 5 pic1 half_store).2.metadata k).is_valid =
      (half_store.metadata k).is_valid :=
  ⟨⟨by decide, ⟨1, by decide, by decide⟩, by decide, by decide, by decide⟩,
    do_insert_duplicate_id sample_env jpeg_b 5 pic1 half_store 0 (by decide)
      ⟨1, by decide, by decide⟩ (by decide) (by decide) (by decide)⟩

set_option maxRecDepth 100000 in
/-- C3, as stated, fails on a full store: the store of capacity 1 holds a
NON_EMPTY slot with the identifier "pic1", and `do_insert` under "pic1" returns
`ERR_FULL_IMGSTORE`, not `ERR_DUPLICATE_ID`. -/
theorem do_insert_duplicate_id_full_store :
    (full_store.metadata 0).is_valid = NON_EMPTY ∧
    strncmp (full_store.metadata 0).img_id pic1 MAX_IMG_ID = 0 ∧
    (do_insert sample_env jpeg_b 5 pic1 full_store).1 = ERR_FULL_IMGSTORE ∧
    (do_insert sample_env jpeg_b 5 pic1 full_store).1 ≠ ERR_DUPLICATE_ID := by
  decide

/-! ## Evaluations of the code at concrete inputs -/

theorem put_faults (f : FILE) (buf : List Nat) : (f.put buf).faults = f.faults := rfl

theorem fwrite_of_no_faults (ptr : List Nat) (size nmemb : Nat) (f : FILE) (h : f.faults = []) :
    fwrite ptr size nmemb f =
      if size = 0 ∨ nmemb = 0 then (0, f) else (nmemb, f.put (ptr.take (size * nmemb))) := by
  unfold fwrite
  rw [h]

theorem fwrite_one_no_faults (ptr : List Nat) (size : Nat) (f : FILE) (h : f.faults = [])
    (hs : size ≠ 0) : fwrite ptr size 1 f = (1, f.put (ptr.take size)) := by
  rw [fwrite_of_no_faults _ _ _ _ h, if_neg (by omega), Nat.mul_one]

theorem fwrite_fst_no_faults (ptr : List Nat) (size nmemb : Nat) (f : FILE) (h : f.faults = [])
    (hs : size ≠ 0) : (fwrite ptr size nmemb f).1 = nmemb := by
  rw [fwrite_of_no_faults _ _ _ _ h]
  by_cases hn : nmemb = 0
  · rw [if_pos (Or.inr hn), hn]
  · rw [if_neg (by omega)]

theorem do_create_no_faults (s0 : imgst_file) : (do_create (some []) s0).1 = ERR_NONE := by
  unfold do_create
  simp only []
  rw [fwrite_one_no_faults _ _ (fopen_wb []) rfl (by decide)]
  rw [fwrite_fst_no_faults _ _ _ _ (by rfl) (by decide)]
  simp

theorem created_store_reachable (env : Env) (n : Nat) : Reachable env (created_store n) :=
  Reachable.create (some []) (blank_store n) (do_create_no_faults _)

set_option maxRecDepth 100000 in
/-- C5, at a failing input. The store holds one image, under the identifier
`long_id 49`; the query `long_id 50` has 32 bytes and differs from it in the last
one, yet `do_delete` returns `ERR_NONE`, invalidates the slot of the other image
and takes `num_files` from 1 to 0. -/
theorem do_delete_other_id :
    strlen (long_id 50) = 32 ∧
    (∀ i, i < long_store.header.max_files → (long_store.metadata i).is_valid = NON_EMPTY →
      strncmp (long_store.metadata i).img_id (long_id 50) MAX_IMG_ID ≠ 0) ∧
    (long_store.metadata 0).is_valid = NON_EMPTY ∧
    long_store.header.num_files = 1 ∧
    (do_delete (long_id 50) long_store).1 = ERR_NONE ∧
    ((do_delete (long_id 50) long_store).2.metadata 0).is_valid = EMPTY ∧
    (do_delete (long_id 50) long_store).2.header.num_files = 0 := by
  decide

set_option maxRecDepth 100000 in
/-- C2, at a failing input. In an empty store of capacity 2 the bytes `jpeg_a`
are inserted under `long_id 49` and then under the different identifier
`long_id 50`: the second `do_insert` returns `ERR_DUPLICATE_ID`, `num_files` has
grown by 1 only and the second slot is still EMPTY. -/
theorem do_insert_same_bytes_long_ids :
    long_id 49 ≠ long_id 50 ∧
    (created_store 2).header.num_files = 0 ∧
    (do_insert sample_env jpeg_a 4 (long_id 49) (created_store 2)).1 = ERR_NONE ∧
    (do_insert sample_env jpeg_a 4 (long_id 50) long_store).1 = ERR_DUPLICATE_ID ∧
    (do_insert sample_env jpeg_a 4 (long_id 50) long_store).2.header.num_files = 1 ∧
    ((do_insert sample_env jpeg_a 4 (long_id 50) long_store).2.metadata 1).is_valid = EMPTY := by
  decide

set_option maxRecDepth 100000 in
/-- C8, at a failing input. Bytes that the JPEG library does not decode are
inserted in an empty store of capacity 1: `do_insert` returns `ERR_IMGLIB`, and
the store it leaves in memory has one NON_EMPTY slot while `num_files` is 0. -/
theorem count_after_failed_insert :
    Reachable sample_env (do_insert sample_env [0, 1] 2 pic1 (created_store 1)).2 ∧
    (do_insert sample_env [0, 1] 2 pic1 (created_store 1)).1 = ERR_IMGLIB ∧
    count_non_empty (do_insert sample_env [0, 1] 2 pic1 (created_store 1)).2 = 1 ∧
    (do_insert sample_env [0, 1] 2 pic1 (created_store 1)).2.header.num_files = 0 :=
  ⟨Reachable.insert _ _ _ _ (created_store_reachable _ 1), by decide, by decide, by decide⟩

set_option maxRecDepth 100000 in
/-- C1, at a failing input. The file of the store is `2^31` bytes long and the
store has room; `do_insert` of the 4 bytes `jpeg_a` under "pic1" returns
`ERR_NONE` and records the offset `2^64 - 2^31` where the bytes went to the
offset `2^31`; `do_read` of "pic1" in the original resolution then returns
`ERR_NONE` with 4 bytes that are not the bytes inserted. -/
theorem insert_read_two_gib :
    two_gib_store.header.num_files < two_gib_store.header.max_files ∧
    (two_gib_store.metadata 0).is_valid = EMPTY ∧
    (do_insert sample_env jpeg_a 4 pic1 two_gib_store).1 = ERR_NONE ∧
    ((do_insert sample_env jpeg_a 4 pic1 two_gib_store).2.metadata 0).offset RES_ORIG = 2 ^ 64 - 2 ^ 31 ∧
    (do_read sample_env pic1 2 (do_insert sample_env jpeg_a 4 pic1 two_gib_store).2).1 = ERR_NONE ∧
    (do_read sample_env pic1 2 (do_insert sample_env jpeg_a 4 pic1 two_gib_store).2).2.1
      = some ([0, 0, 0, 0], 4) ∧
    (do_read sample_env pic1 2 (do_insert sample_env jpeg_a 4 pic1 two_gib_store).2).2.1
      ≠ some (jpeg_a, 4) := by
  decide

/-! ## What each function leaves untouched -/

theorem update_metadata_frame (s : imgst_file) (index : Nat) :
    (update_metadata s index).2.metadata = s.metadata ∧
    (update_metadata s index).2.header = s.header := by
  unfold update_metadata
  simp only []
  split <;> exact ⟨rfl, rfl⟩

theorem update_header_frame (s : imgst_file) :
    (update_header s).2.metadata = s.metadata ∧ (update_header s).2.header = s.header := by
  unfold update_header
  simp only []
  split <;> exact ⟨rfl, rfl⟩

theorem load_image_from_imgst_frame (index resolution image_size : Nat) (s : imgst_file) :
    (load_image_from_imgst index resolution image_size s).2.2.metadata = s.metadata ∧
    (load_image_from_imgst index resolution image_size s).2.2.header = s.header := by
  unfold load_image_from_imgst
  simp only []
  split <;> exact ⟨rfl, rfl⟩

theorem update_slot_offset_self (md : Nat → img_metadata) (index : Nat) :
    md = Function.update md index { md index with offset := (md index).offset } := by
  funext k
  by_cases h : k = index
  · subst h; simp
  · simp [Function.update_noteq h]

theorem write_image_end_of_imgst_frame (index res : Nat) (buffer : List Nat) (size : Nat)
    (s : imgst_file) :
    (write_image_end_of_imgst index res buffer size s).2.header = s.header ∧
    ∃ off, (write_image_end_of_imgst index res buffer size s).2.metadata =
      Function.update s.metadata index { s.metadata index with offset := off } := by
  unfold write_image_end_of_imgst
  simp only []
  split
  · exact ⟨rfl, _, update_slot_offset_self _ _⟩
  · exact ⟨rfl, _, rfl⟩

theorem lazily_resize_frame (env : Env) (res : Int) (s : imgst_file) (index : Nat) :
    (lazily_resize env res s index).2.header = s.header ∧
    ∃ off sz, (lazily_resize env res s index).2.metadata =
      Function.update s.metadata index { s.metadata index with offset := off, size := sz } := by
  unfold lazily_resize
  have hl := load_image_from_imgst_frame index RES_ORIG ((s.metadata index).size RES_ORIG) s
  split
  · exact ⟨rfl, _, _, update_slot_self _ _⟩
  · split
    · exact ⟨rfl, _, _, update_slot_self _ _⟩
    · simp only []
      split
      · exact ⟨hl.2, _, _, by rw [hl.1]; exact update_slot_self _ _⟩
      · split
        · exact ⟨hl.2, _, _, by rw [hl.1]; exact update_slot_self _ _⟩
        · split
          · exact ⟨hl.2, _, _, by rw [hl.1]; exact update_slot_self _ _⟩
          · rename_i buffer _
            obtain ⟨hwh, off, hwm⟩ := write_image_end_of_imgst_frame index res.toNat buffer buffer.length
              (load_image_from_imgst index RES_ORIG ((s.metadata index).size RES_ORIG) s).2.2
            split
            · refine ⟨by rw [hwh, hl.2], off, (s.metadata index).size, ?_⟩
              rw [hwm, hl.1]
            · obtain ⟨hum, huh⟩ := update_metadata_frame
                { (write_image_end_of_imgst index res.toNat buffer buffer.length
                    (load_image_from_imgst index RES_ORIG ((s.metadata index).size RES_ORIG) s).2.2).2 with
                  metadata := set_size (write_image_end_of_imgst index res.toNat buffer buffer.length
                    (load_image_from_imgst index RES_ORIG ((s.metadata index).size RES_ORIG) s).2.2).2.metadata
                    index res.toNat (to_uint32 buffer.length) } index
              refine ⟨by rw [huh]; simp only []; rw [hwh, hl.2], off,
                Function.update (s.metadata index).size res.toNat (to_uint32 buffer.length), ?_⟩
              rw [hum]
              simp only []
              rw [hwm, hl.1]
              simp [set_size]

theorem do_read_frame (env : Env) (img_id : List Nat) (resolution : Int) (s : imgst_file) :
    (do_read env img_id resolution s).2.2.header = s.header ∧
    ∃ i off sz, (do_read env img_id resolution s).2.2.metadata =
      Function.update s.metadata i { s.metadata i with offset := off, size := sz } := by
  unfold do_read
  split
  · exact ⟨rfl, 0, _, _, update_slot_self _ _⟩
  · split
    · exact ⟨rfl, 0, _, _, update_slot_self _ _⟩
    · split
      · rename_i i _
        have hz : ∀ z : error_code × imgst_file,
            (z = lazily_resize env resolution s i ∨ z = (ERR_NONE, s)) →
            z.2.header = s.header ∧ ∃ off sz, z.2.metadata =
              Function.update s.metadata i { s.metadata i with offset := off, size := sz } := by
          intro z hz
          rcases hz with hz | hz
          · rw [hz]; exact lazily_resize_frame env resolution s i
          · rw [hz]; exact ⟨rfl, _, _, update_slot_self _ _⟩
        simp only []
        split
        · rename_i h0
          obtain ⟨hh, off, sz, hm⟩ := hz _ (Or.inl rfl)
          split
          · exact ⟨hh, i, off, sz, hm⟩
          · split
            · exact ⟨by rw [(load_image_from_imgst_frame _ _ _ _).2, hh], i, off, sz,
                by rw [(load_image_from_imgst_frame _ _ _ _).1, hm]⟩
            · exact ⟨by rw [(load_image_from_imgst_frame _ _ _ _).2, hh], i, off, sz,
                by rw [(load_image_from_imgst_frame _ _ _ _).1, hm]⟩
        · obtain ⟨hh, off, sz, hm⟩ := hz _ (Or.inr rfl)
          split
          · exact ⟨hh, i, off, sz, hm⟩
          · split
            · exact ⟨by rw [(load_image_from_imgst_frame _ _ _ _).2], i, off, sz,
                by rw [(load_image_from_imgst_frame _ _ _ _).1]; exact hm⟩
            · exact ⟨by rw [(load_image_from_imgst_frame _ _ _ _).2], i, off, sz,
                by rw [(load_image_from_imgst_frame _ _ _ _).1]; exact hm⟩
      · exact ⟨rfl, 0, _, _, update_slot_self _ _⟩

theorem insert_blob_frame (buffer : List Nat) (size : Nat) (s : imgst_file) (i : Nat) :
    (insert_blob buffer size s i).2.header = s.header ∧
    ∃ off sz, (insert_blob buffer size s i).2.metadata =
      Function.update s.metadata i { s.metadata i with offset := off, size := sz } := by
  unfold insert_blob
  simp only []
  split
  · obtain ⟨hh, off, hm⟩ := write_image_end_of_imgst_frame i RES_ORIG buffer size
      { s with metadata := set_size (set_size (set_offset (set_offset s.metadata i RES_SMALL 0)
        i RES_THUMB 0) i RES_SMALL 0) i RES_THUMB 0 }
    refine ⟨hh, off, Function.update (Function.update (s.metadata i).size RES_SMALL 0) RES_THUMB 0, ?_⟩
    rw [hm]
    simp [set_size, set_offset]
  · exact ⟨rfl, _, _, update_slot_self _ _⟩

theorem insert_commit_frame (env : Env) (buffer : List Nat) (size : Nat) (s : imgst_file) (i : Nat) :
    (insert_commit env buffer size s i).2.header.max_files = s.header.max_files ∧
    ∃ ro, (insert_commit env buffer size s i).2.metadata =
      Function.update s.metadata i { s.metadata i with is_valid := NON_EMPTY, res_orig := ro } := by
  unfold insert_commit
  simp only []
  split
  · exact ⟨rfl, (s.metadata i).res_orig, rfl⟩
  · split
    · refine ⟨by rw [(update_header_frame _).2]; rfl, Function.update (Function.update (s.metadata i).res_orig 1
        (to_uint32 (get_resolution env buffer size).2.1)) 0 (to_uint32 (get_resolution env buffer size).2.2), ?_⟩
      rw [(update_header_frame _).1]
      simp [count_image, mark_valid]
    · refine ⟨by rw [(update_metadata_frame _ _).2, (update_header_frame _).2]; rfl,
        Function.update (Function.update (s.metadata i).res_orig 1
        (to_uint32 (get_resolution env buffer size).2.1)) 0 (to_uint32 (get_resolution env buffer size).2.2), ?_⟩
      rw [(update_metadata_frame _ _).1, (update_header_frame _).1]
      simp [count_image, mark_valid]

theorem do_insert_at_keys (env : Env) (buffer : List Nat) (size : Nat) (img_id : List Nat)
    (s : imgst_file) (i : Nat) :
    (do_insert_at env buffer size img_id s i).2.header.max_files = s.header.max_files ∧
    (∀ k, k ≠ i → (do_insert_at env buffer size img_id s i).2.metadata k = s.metadata k) ∧
    ((do_insert_at env buffer size img_id s i).2.metadata i).img_id =
      strncpy (s.metadata i).img_id img_id MAX_IMG_ID ∧
    (((do_insert_at env buffer size img_id s i).2.metadata i).is_valid = (s.metadata i).is_valid ∨
      (((do_insert_at env buffer size img_id s i).2.metadata i).is_valid = NON_EMPTY ∧
        (do_name_and_content_dedup (insert_candidate env buffer size img_id s i) i).1 = ERR_NONE)) := by
  obtain ⟨_, hdh, off, sz, hdm⟩ :=
    do_name_and_content_dedup_frame (insert_candidate env buffer size img_id s i) i
  obtain ⟨hbh, off2, sz2, hbm⟩ := insert_blob_frame buffer size
    (do_name_and_content_dedup (insert_candidate env buffer size img_id s i) i).2 i
  obtain ⟨hch, ro, hcm⟩ := insert_commit_frame env buffer size
    (insert_blob buffer size
      (do_name_and_content_dedup (insert_candidate env buffer size img_id s i) i).2 i).2 i
  have hid := insert_candidate_img_id env buffer size img_id s i
  have hva := insert_candidate_is_valid env buffer size img_id s i i
  unfold do_insert_at
  simp only []
  split
  · refine ⟨by rw [hdh]; rfl, fun k hk => ?_, ?_, Or.inl ?_⟩
    · rw [hdm, Function.update_noteq hk, insert_candidate_other _ _ _ _ _ _ _ hk]
    · rw [hdm]; simpa using hid
    · rw [hdm]; simpa using hva
  · split
    · refine ⟨by rw [hbh, hdh]; rfl, fun k hk => ?_, ?_, Or.inl ?_⟩
      · rw [hbm, Function.update_noteq hk, hdm, Function.update_noteq hk,
          insert_candidate_other _ _ _ _ _ _ _ hk]
      · rw [hbm, hdm]; simpa using hid
      · rw [hbm, hdm]; simpa using hva
    · rename_i hd _
      refine ⟨by rw [hch, hbh, hdh]; rfl, fun k hk => ?_, ?_, Or.inr ⟨?_, ?_⟩⟩
      · rw [hcm, Function.update_noteq hk, hbm, Function.update_noteq hk, hdm,
          Function.update_noteq hk, insert_candidate_other _ _ _ _ _ _ _ hk]
      · rw [hcm, hbm, hdm]; simpa using hid
      · rw [hcm]; simp
      · simpa using hd

theorem do_name_and_content_dedup_none (s : imgst_file) (index : Nat)
    (h : (do_name_and_content_dedup s index).1 = ERR_NONE) (j : Nat)
    (hj : j < s.header.max_files) (hne : j ≠ index) (hv : (s.metadata j).is_valid = NON_EMPTY) :
    strncmp (s.metadata j).img_id (s.metadata index).img_id MAX_IMGST_NAME ≠ 0 := by
  intro hs
  by_cases hi : index < s.header.max_files
  · rw [do_name_and_content_dedup_duplicate s index j hi hj hne hv hs] at h
    cases h
  · unfold do_name_and_content_dedup at h
    rw [if_pos (by omega)] at h
    cases h

theorem do_delete_keys (img_id : List Nat) (s : imgst_file) :
    (do_delete img_id s).2.header.max_files = s.header.max_files ∧
    ∀ k, ((do_delete img_id s).2.metadata k).img_id = (s.metadata k).img_id ∧
      (((do_delete img_id s).2.metadata k).is_valid = (s.metadata k).is_valid ∨
        ((do_delete img_id s).2.metadata k).is_valid = EMPTY) := by
  unfold do_delete
  split
  · exact ⟨rfl, fun k => ⟨rfl, Or.inl rfl⟩⟩
  · split
    · exact ⟨rfl, fun k => ⟨rfl, Or.inl rfl⟩⟩
    · rename_i index _
      have hk : ∀ k, (((invalidate s index).metadata) k).img_id = (s.metadata k).img_id ∧
          ((((invalidate s index).metadata) k).is_valid = (s.metadata k).is_valid ∨
          (((invalidate s index).metadata) k).is_valid = EMPTY) := by
        intro k
        by_cases h : k = index
        · subst h; simp [invalidate]
        · simp [invalidate, Function.update_noteq h]
      simp only []
      split
      · refine ⟨by rw [(update_metadata_frame _ _).2]; rfl, fun k => ?_⟩
        rw [(update_metadata_frame _ _).1]
        exact hk k
      · have hmx : (update_header (uncount_image (update_metadata (invalidate s index) index).2)).2.header.max_files
            = s.header.max_files := by
          rw [(update_header_frame _).2]
          simp only [uncount_image]
          rw [(update_metadata_frame _ _).2]
          rfl
        refine ⟨hmx, fun k => ?_⟩
        rw [(update_header_frame _).1]
        simp only [uncount_image]
        rw [(update_metadata_frame _ _).1]
        exact hk k

/-! ## Identifiers of the NON_EMPTY slots -/

theorem update_offset_size_keys (md : Nat → img_metadata) (i : Nat) (off sz : Nat → Nat) (k : Nat) :
    ((Function.update md i { md i with offset := off, size := sz }) k).is_valid = (md k).is_valid ∧
    ((Function.update md i { md i with offset := off, size := sz }) k).img_id = (md k).img_id := by
  by_cases h : k = i
  · subst h; simp
  · simp [Function.update_noteq h]

theorem do_create_metadata (io : Option (List Bool)) (s0 : imgst_file)
    (h : (do_create io s0).1 = ERR_NONE) (k : Nat) :
    ((do_create io s0).2.metadata k).is_valid = EMPTY := by
  unfold do_create at h ⊢
  cases io with
  | none => simp at h
  | some faults =>
    simp only [] at h ⊢
    split
    · rename_i hne
      rw [if_pos hne] at h
      simp at h
    · rfl

theorem do_create_max_files (io : Option (List Bool)) (s0 : imgst_file) :
    (do_create io s0).2.header.max_files = s0.header.max_files := by
  unfold do_create
  cases io with
  | none => rfl
  | some faults =>
    simp only []
    split <;> rfl

/-- In every reachable store the NON_EMPTY slots lie below `max_files` and
any two of them carry identifiers that `strncmp` tells apart within the
first `MAX_IMGST_NAME` bytes. -/
theorem reachable_ids (env : Env) (s : imgst_file) (h : Reachable env s) :
    (∀ i, (s.metadata i).is_valid = NON_EMPTY → i < s.header.max_files) ∧
    (∀ i j, i ≠ j → (s.metadata i).is_valid = NON_EMPTY → (s.metadata j).is_valid = NON_EMPTY →
      strncmp (s.metadata i).img_id (s.metadata j).img_id MAX_IMGST_NAME ≠ 0) := by
  induction h with
  | create io s0 hc =>
    have hm := do_create_metadata io s0 hc
    constructor
    · intro i hi; rw [hm i] at hi; cases hi
    · intro i j _ hi; rw [hm i] at hi; cases hi
  | insert buffer size img_id s _ ih =>
    obtain ⟨ih1, ih2⟩ := ih
    unfold do_insert
    split
    · exact ⟨ih1, ih2⟩
    · split
      · rename_i i hfi
        obtain ⟨_, hi, hpi, _⟩ := first_index_eq_some hfi
        have hvi : (s.metadata i).is_valid = 0 := by simpa using hpi
        obtain ⟨hmax, hother, hid, hval⟩ := do_insert_at_keys env buffer size img_id s i
        have hnew : ((do_insert_at env buffer size img_id s i).2.metadata i).is_valid = NON_EMPTY →
            ∀ j, j ≠ i → (s.metadata j).is_valid = NON_EMPTY →
              strncmp (s.metadata j).img_id
                ((do_insert_at env buffer size img_id s i).2.metadata i).img_id MAX_IMGST_NAME ≠ 0 := by
          intro hv j hji hvj
          rcases hval with hval | ⟨_, hd⟩
          · rw [hval, hvi] at hv; cases hv
          · have := do_name_and_content_dedup_none _ i hd j
              (by rw [insert_candidate_header]; exact ih1 j hvj) hji
              (by rw [insert_candidate_is_valid]; exact hvj)
            rw [insert_candidate_other _ _ _ _ _ _ _ hji, insert_candidate_img_id] at this
            rw [hid]
            exact this
        constructor
        · intro k hk
          rw [hmax]
          by_cases hki : k = i
          · subst hki; omega
          · rw [hother k hki] at hk; exact ih1 k hk
        · intro a b hab ha hb
          by_cases hai : a = i
          · subst hai
            have hba : b ≠ a := fun h => hab h.symm
            rw [hother b hba] at hb ⊢
            intro hs
            exact hnew ha b hba hb (strncmp_symm _ _ _ hs)
          · by_cases hbi : b = i
            · subst hbi
              rw [hother a hai] at ha ⊢
              exact hnew hb a hai ha
            · rw [hother a hai] at ha ⊢
              rw [hother b hbi] at hb ⊢
              exact ih2 a b hab ha hb
      · exact ⟨ih1, ih2⟩
  | delete img_id s _ ih =>
    obtain ⟨ih1, ih2⟩ := ih
    obtain ⟨hmax, hk⟩ := do_delete_keys img_id s
    have hv : ∀ k, ((do_delete img_id s).2.metadata k).is_valid = NON_EMPTY →
        (s.metadata k).is_valid = NON_EMPTY := by
      intro k h
      rcases (hk k).2 with h1 | h1
      · rw [← h1]; exact h
      · rw [h1] at h; cases h
    constructor
    · intro k h; rw [hmax]; exact ih1 k (hv k h)
    · intro a b hab ha hb
      rw [(hk a).1, (hk b).1]
      exact ih2 a b hab (hv a ha) (hv b hb)
  | read img_id resolution s _ ih =>
    obtain ⟨ih1, ih2⟩ := ih
    obtain ⟨hh, i, off, sz, hm⟩ := do_read_frame env img_id resolution s
    rw [hm, hh]
    constructor
    · intro k h
      rw [(update_offset_size_keys _ _ _ _ k).1] at h
      exact ih1 k h
    · intro a b hab ha hb
      rw [(update_offset_size_keys _ _ _ _ a).1] at ha
      rw [(update_offset_size_keys _ _ _ _ b).1] at hb
      rw [(update_offset_size_keys _ _ _ _ a).2, (update_offset_size_keys _ _ _ _ b).2]
      exact ih2 a b hab ha hb
  | resize res index s _ ih =>
    obtain ⟨ih1, ih2⟩ := ih
    obtain ⟨hh, off, sz, hm⟩ := lazily_resize_frame env res s index
    rw [hm, hh]
    constructor
    · intro k h
      rw [(update_offset_size_keys _ _ _ _ k).1] at h
      exact ih1 k h
    · intro a b hab ha hb
      rw [(update_offset_size_keys _ _ _ _ a).1] at ha
      rw [(update_offset_size_keys _ _ _ _ b).1] at hb
      rw [(update_offset_size_keys _ _ _ _ a).2, (update_offset_size_keys _ _ _ _ b).2]
      exact ih2 a b hab ha hb

/-- C9. Id uniqueness invariant: in every store reachable from `do_create` by
`do_insert` and `do_delete` (and by `do_read` and `lazily_resize` as well), any
two distinct NON_EMPTY slots `i` and `j` have identifiers that differ when
compared as byte strings over the 127 bytes of the identifier capacity. -/
theorem reachable_ids_unique (env : Env) (s : imgst_file) (h : Reachable env s) (i j : Nat)
    (_hi : i < s.header.max_files) (_hj : j < s.header.max_files) (hij : i ≠ j)
    (hvi : (s.metadata i).is_valid = NON_EMPTY) (hvj : (s.metadata j).is_valid = NON_EMPTY) :
    strncmp (s.metadata i).img_id (s.metadata j).img_id MAX_IMG_ID ≠ 0 := fun hs =>
  (reachable_ids env s h).2 i j hij hvi hvj (strncmp_mono _ _ _ _ (by decide) hs)

set_option maxRecDepth 100000 in
/-- C9, at a concrete input: the two slots of the store that holds "pic1" and "pic2". -/
theorem reachable_ids_unique_witness :
    Reachable sample_env two_store ∧
    (0 < two_store.header.max_files ∧ 1 < two_store.header.max_files ∧ (0 : Nat) ≠ 1 ∧
      (two_store.metadata 0).is_valid = NON_EMPTY ∧ (two_store.metadata 1).is_valid = NON_EMPTY) ∧
    strncmp (two_store.metadata 0).img_id (two_store.metadata 1).img_id MAX_IMG_ID ≠ 0 :=
  ⟨Reachable.insert _ _ _ _ (Reachable.insert _ _ _ _ (created_store_reachable _ 2)),
    by decide,
    reachable_ids_unique sample_env two_store
      (Reachable.insert _ _ _ _ (Reachable.insert _ _ _ _ (created_store_reachable _ 2))) 0 1
      (by decide) (by decide) (by decide) (by decide) (by decide)⟩

/-! ## Effect of the writes on the file -/

theorem put_at (f : FILE) (buf : List Nat) (k : Nat) :
    (f.put buf).at k =
      if f.pos ≤ k ∧ k < f.pos + buf.length then buf.getD (k - f.pos) 0 else f.at k := by
  unfold FILE.put FILE.at
  simp only []
  by_cases hin : f.pos ≤ k ∧ k < f.pos + buf.length
  · rw [if_pos hin, if_pos (lt_max_iff.mpr (Or.inr hin.2))]
  · rw [if_neg hin]
    by_cases hk : k < f.len
    · rw [if_pos hk, if_pos (lt_max_iff.mpr (Or.inl hk))]
    · rw [if_neg hk]
      split <;> rfl

theorem fwrite_at_outside (ptr : List Nat) (size nmemb : Nat) (f : FILE) (k : Nat)
    (hk : k < f.pos ∨ f.pos + size * nmemb ≤ k) :
    (fwrite ptr size nmemb f).2.at k = f.at k := by
  have hlen : (ptr.take (size * nmemb)).length ≤ size * nmemb := List.length_take_le _ _
  have hput : (f.put (ptr.take (size * nmemb))).at k = f.at k := by
    rw [put_at, if_neg (by omega)]
  unfold fwrite
  split
  · rfl
  · split
    · rfl
    · exact hput
    · exact hput

theorem fwrite_len_inside (ptr : List Nat) (size nmemb : Nat) (f : FILE)
    (h : f.pos + size * nmemb ≤ f.len) : (fwrite ptr size nmemb f).2.len = f.len := by
  have hlen : (ptr.take (size * nmemb)).length ≤ size * nmemb := List.length_take_le _ _
  have hput : (f.put (ptr.take (size * nmemb))).len = f.len := by
    unfold FILE.put
    simp only []
    exact max_eq_left (by omega)
  unfold fwrite
  split
  · rfl
  · split
    · rfl
    · exact hput
    · exact hput

theorem fseek_set_at (f : FILE) (offset : Int) (k : Nat) : (fseek_set f offset).at k = f.at k := by
  unfold fseek_set
  split <;> rfl

theorem fseek_set_len (f : FILE) (offset : Int) : (fseek_set f offset).len = f.len := by
  unfold fseek_set
  split <;> rfl

theorem fseek_set_pos (f : FILE) (n : Nat) : (fseek_set f (n : Int)).pos = n := by
  unfold fseek_set
  rw [if_neg (by omega)]
  simp

theorem to_int_of_lt (n : Nat) (h : n < 2 ^ 31) : to_int n = (n : Int) := by
  unfold to_int
  have h1 : n % 2 ^ 32 = n := Nat.mod_eq_of_lt (by omega)
  rw [h1, if_pos h]

theorem update_metadata_file (s : imgst_file) (index : Nat) :
    (update_metadata s index).2.file =
      (fwrite (metadata_bytes (s.metadata index)) sizeof_img_metadata 1
        (fseek_set s.file (to_int (sizeof_imgst_header + index * sizeof_img_metadata)))).2 := by
  unfold update_metadata
  simp only []
  split <;> rfl

theorem update_header_file (s : imgst_file) :
    (update_header s).2.file = (fwrite (header_bytes s.header) sizeof_imgst_header 1 (rewind s.file)).2 := by
  unfold update_header
  simp only []
  split <;> rfl

/-- The function `update_metadata` writes inside the metadata table, for an
index below a capacity of at most `MAX_MAX_FILES`. -/
theorem update_metadata_blobs (s : imgst_file) (index n : Nat) (hi : index < n)
    (hn : n ≤ MAX_MAX_FILES) :
    (∀ k, sizeof_imgst_header + n * sizeof_img_metadata ≤ k →
      (update_metadata s index).2.file.at k = s.file.at k) ∧
    (sizeof_imgst_header + n * sizeof_img_metadata ≤ s.file.len →
      (update_metadata s index).2.file.len = s.file.len) := by
  have hsmall : sizeof_imgst_header + index * sizeof_img_metadata < 2 ^ 31 := by
    simp only [sizeof_imgst_header, sizeof_img_metadata, MAX_MAX_FILES] at *
    omega
  rw [update_metadata_file, to_int_of_lt _ hsmall]
  constructor
  · intro k hk
    rw [fwrite_at_outside, fseek_set_at]
    right
    rw [fseek_set_pos]
    simp only [sizeof_imgst_header, sizeof_img_metadata] at *
    omega
  · intro hlen
    rw [fwrite_len_inside, fseek_set_len]
    rw [fseek_set_pos, fseek_set_len]
    simp only [sizeof_imgst_header, sizeof_img_metadata] at *
    omega

/-- The function `update_header` writes inside the header. -/
theorem update_header_blobs (s : imgst_file) :
    (∀ k, sizeof_imgst_header ≤ k → (update_header s).2.file.at k = s.file.at k) ∧
    (sizeof_imgst_header ≤ s.file.len → (update_header s).2.file.len = s.file.len) := by
  rw [update_header_file]
  constructor
  · intro k hk
    rw [fwrite_at_outside]
    · rfl
    · right
      show 0 + sizeof_imgst_header * 1 ≤ k
      omega
  · intro hlen
    rw [fwrite_len_inside]
    · rfl
    · show 0 + sizeof_imgst_header * 1 ≤ s.file.len
      omega

/-! ## Deletion -/

/-- C7. Delete frame: a successful `do_delete` finds the lowest-index slot that
is NON_EMPTY and whose identifier matches the query in the comparison of
`do_delete` (`strncmp` over `MAX_IMGST_NAME` bytes); the metadata array after
the call is the one before with `is_valid` set to EMPTY on that slot, every
other field of the slot and every other slot being what it was; `num_files`
has gone down by exactly 1 and `imgst_version` up by exactly 1 (as a 32-bit
counter), the other header fields are untouched; no byte of the blob region,
from the offset `sizeof(header) + max_files * sizeof(slot)` on, has changed,
and neither has the length of a file that contains the metadata table. -/
theorem do_delete_frame (img_id : List Nat) (s : imgst_file)
    (hmax : s.header.max_files ≤ MAX_MAX_FILES) (hnum : s.header.num_files < 2 ^ 32)
    (hok : (do_delete img_id s).1 = ERR_NONE) :
    ∃ index, index < s.header.max_files ∧
      (s.metadata index).is_valid = NON_EMPTY ∧
      strncmp (s.metadata index).img_id img_id MAX_IMGST_NAME = 0 ∧
      (∀ j, j < index → ¬ ((s.metadata j).is_valid = NON_EMPTY ∧
        strncmp (s.metadata j).img_id img_id MAX_IMGST_NAME = 0)) ∧
      (do_delete img_id s).2.metadata =
        Function.update s.metadata index { s.metadata index with is_valid := EMPTY } ∧
      (do_delete img_id s).2.header =
        { s.header with
          num_files := s.header.num_files - 1
          imgst_version := (s.header.imgst_version + 1) % 2 ^ 32 } ∧
      (do_delete img_id s).2.header.num_files + 1 = s.header.num_files ∧
      (s.header.imgst_version + 1 < 2 ^ 32 →
        (do_delete img_id s).2.header.imgst_version = s.header.imgst_version + 1) ∧
      (∀ k, sizeof_imgst_header + s.header.max_files * sizeof_img_metadata ≤ k →
        (do_delete img_id s).2.file.at k = s.file.at k) ∧
      (sizeof_imgst_header + s.header.max_files * sizeof_img_metadata ≤ s.file.len →
        (do_delete img_id s).2.file.len = s.file.len) := by
  unfold do_delete at hok ⊢
  by_cases h0 : s.header.num_files = 0
  · rw [if_pos h0] at hok; cases hok
  · rw [if_neg h0] at hok ⊢
    cases hfi : first_index (fun i => decide (strncmp (s.metadata i).img_id img_id MAX_IMGST_NAME = 0 ∧
        (s.metadata i).is_valid = NON_EMPTY)) s.header.max_files 0 with
    | none => rw [hfi] at hok; cases hok
    | some index =>
      rw [hfi] at hok
      simp only [] at hok ⊢
      obtain ⟨_, hi, hp, hmin⟩ := first_index_eq_some hfi
      have hp2 : strncmp (s.metadata index).img_id img_id MAX_IMGST_NAME = 0 ∧
          (s.metadata index).is_valid = NON_EMPTY := by simpa using hp
      by_cases hu : (update_metadata (invalidate s index) index).1 ≠ ERR_NONE
      · rw [if_pos hu] at hok; exact absurd hok hu
      · rw [if_neg hu] at hok ⊢
        obtain ⟨hum, huh⟩ := update_metadata_frame (invalidate s index) index
        obtain ⟨hub1, hub2⟩ := update_metadata_blobs (invalidate s index) index
          s.header.max_files (by omega) hmax
        simp only [invalidate] at hub1 hub2 hum huh
        have hdec : to_uint32 (s.header.num_files + (2 ^ 32 - 1)) = s.header.num_files - 1 := by
          unfold to_uint32; omega
        refine ⟨index, by omega, hp2.2, hp2.1, ?_, ?_, ?_, ?_, ?_, ?_, ?_⟩
        · intro j hj hc
          have := hmin j (Nat.zero_le j) hj
          simp only [decide_eq_false_iff_not] at this
          exact this ⟨hc.2, hc.1⟩
        · rw [(update_header_frame _).1]
          simp only [uncount_image, invalidate]
          rw [hum]
        · rw [(update_header_frame _).2]
          simp only [uncount_image, invalidate]
          rw [huh]
          simp only [hdec]
          rfl
        · rw [(update_header_frame _).2]
          simp only [uncount_image, invalidate]
          rw [huh]
          simp only [hdec]
          omega
        · intro hv
          rw [(update_header_frame _).2]
          simp only [uncount_image, invalidate]
          rw [huh]
          simp only [to_uint32]
          exact Nat.mod_eq_of_lt hv
        · intro k hk
          rw [(update_header_blobs _).1 k (by omega)]
          exact hub1 k hk
        · intro hlen
          rw [(update_header_blobs _).2 (by simp only [uncount_image, invalidate]; rw [hub2 hlen]; omega)]
          exact hub2 hlen

set_option maxRecDepth 100000 in
/-- C7, at a concrete input: the deletion of "pic1" from the store that holds
"pic1" and "pic2". -/
theorem do_delete_frame_witness :
    (two_store.header.max_files ≤ MAX_MAX_FILES ∧ two_store.header.num_files < 2 ^ 32 ∧
      (do_delete pic1 two_store).1 = ERR_NONE) ∧
    ∃ index, index < two_store.header.max_files ∧
      (two_store.metadata index).is_valid = NON_EMPTY ∧
      strncmp (two_store.metadata index).img_id pic1 MAX_IMGST_NAME = 0 ∧
      (∀ j, j < index → ¬ ((two_store.metadata j).is_valid = NON_EMPTY ∧
        strncmp (two_store.metadata j).img_id pic1 MAX_IMGST_NAME = 0)) ∧
      (do_delete pic1 two_store).2.metadata =
        Function.update two_store.metadata index { two_store.metadata index with is_valid := EMPTY } ∧
      (do_delete pic1 two_store).2.header =
        { two_store.header with
          num_files := two_store.header.num_files - 1
          imgst_version := (two_store.header.imgst_version + 1) % 2 ^ 32 } ∧
      (do_delete pic1 two_store).2.header.num_files + 1 = two_store.header.num_files ∧
      (two_store.header.imgst_version + 1 < 2 ^ 32 →
        (do_delete pic1 two_store).2.header.imgst_version = two_store.header.imgst_version + 1) ∧
      (∀ k, sizeof_imgst_header + two_store.header.max_files * sizeof_img_metadata ≤ k →
        (do_delete pic1 two_store).2.file.at k = two_store.file.at k) ∧
      (sizeof_imgst_header + two_store.header.max_files * sizeof_img_metadata ≤ two_store.file.len →
        (do_delete pic1 two_store).2.file.len = two_store.file.len) :=
  ⟨⟨by decide, by decide, by decide⟩,
    do_delete_frame pic1 two_store (by decide) (by decide) (by decide)⟩

/-! ## Calls whose writes all go through -/

theorem fseek_set_faults (f : FILE) (offset : Int) : (fseek_set f offset).faults = f.faults := by
  unfold fseek_set
  split <;> rfl

theorem write_image_end_of_imgst_ok (index res : Nat) (buffer : List Nat) (size : Nat) (s : imgst_file)
    (hf : s.file.faults = []) (hs : size ≠ 0) :
    write_image_end_of_imgst index res buffer size s =
      (ERR_NONE, { s with
        file := (fseek_end s.file).put (buffer.take size)
        metadata := set_offset s.metadata index res (to_uint64 (to_int s.file.len)) }) := by
  unfold write_image_end_of_imgst
  simp only []
  rw [fwrite_one_no_faults _ _ (fseek_end s.file) hf hs]
  rfl

theorem update_header_ok (s : imgst_file) (hf : s.file.faults = []) :
    update_header s =
      (ERR_NONE, { s with
        file := (rewind s.file).put ((header_bytes s.header).take sizeof_imgst_header) }) := by
  unfold update_header
  simp only []
  rw [fwrite_one_no_faults _ _ (rewind s.file) hf (by decide)]
  rfl

theorem update_metadata_ok (s : imgst_file) (index : Nat) (hf : s.file.faults = []) :
    update_metadata s index =
      (ERR_NONE, { s with
        file := (fseek_set s.file (to_int (sizeof_imgst_header + index * sizeof_img_metadata))).put
          ((metadata_bytes (s.metadata index)).take sizeof_img_metadata) }) := by
  unfold update_metadata
  simp only []
  rw [fwrite_one_no_faults _ _ _ (by rw [fseek_set_faults]; exact hf) (by decide)]
  rfl

theorem header_bytes_length (h : imgst_header) : (header_bytes h).length = sizeof_imgst_header := by
  simp [header_bytes, array_bytes, int_bytes, MAX_IMGST_NAME, sizeof_imgst_header]

theorem metadata_bytes_length (m : img_metadata) : (metadata_bytes m).length = sizeof_img_metadata := by
  simp [metadata_bytes, array_bytes, int_bytes, MAX_IMG_ID, SHA256_DIGEST_LENGTH, sizeof_img_metadata]

theorem insert_blob_ok (buffer : List Nat) (size : Nat) (s : imgst_file) (i : Nat)
    (h0 : (s.metadata i).offset RES_ORIG = 0) (hf : s.file.faults = []) (hs : size ≠ 0) :
    (insert_blob buffer size s i).1 = ERR_NONE ∧
    (insert_blob buffer size s i).2.header = s.header ∧
    (insert_blob buffer size s i).2.file = (fseek_end s.file).put (buffer.take size) ∧
    (insert_blob buffer size s i).2.metadata =
      set_offset (set_size (set_size (set_offset (set_offset s.metadata i RES_SMALL 0) i RES_THUMB 0)
        i RES_SMALL 0) i RES_THUMB 0) i RES_ORIG (to_uint64 (to_int s.file.len)) := by
  unfold insert_blob
  simp only []
  rw [if_pos h0, write_image_end_of_imgst_ok _ _ _ _ _ (by exact hf) hs]
  exact ⟨rfl, rfl, rfl, rfl⟩

theorem insert_commit_ok (env : Env) (buffer : List Nat) (size : Nat) (s : imgst_file) (i : Nat)
    (xy : Nat × Nat) (hf : s.file.faults = [])
    (hxy : env.vips_jpegload_buffer (buffer.take size) = some xy) :
    (insert_commit env buffer size s i).1 = ERR_NONE ∧
    (insert_commit env buffer size s i).2.header = (count_image (mark_valid s i) i xy.2 xy.1).header ∧
    (insert_commit env buffer size s i).2.metadata = (count_image (mark_valid s i) i xy.2 xy.1).metadata ∧
    (insert_commit env buffer size s i).2.file.faults = [] ∧
    (insert_commit env buffer size s i).2.file =
      (update_metadata (update_header (count_image (mark_valid s i) i xy.2 xy.1)).2 i).2.file := by
  have hg : get_resolution env buffer size = (ERR_NONE, xy.2, xy.1) := by
    unfold get_resolution
    rw [hxy]
  have hh := update_header_ok (count_image (mark_valid s i) i xy.2 xy.1) hf
  have hm := update_metadata_ok (update_header (count_image (mark_valid s i) i xy.2 xy.1)).2 i
    (by rw [hh]; exact hf)
  unfold insert_commit
  simp only []
  rw [hg]
  simp only [ne_eq, not_true_eq_false, if_false]
  rw [if_neg (by rw [hh]; simp)]
  refine ⟨by rw [hm], ?_, ?_, ?_, rfl⟩
  · rw [(update_metadata_frame _ _).2, (update_header_frame _).2]
  · rw [(update_metadata_frame _ _).1, (update_header_frame _).1]
  · rw [hm]
    simp only [FILE.put, fseek_set_faults]
    rw [hh]
    exact hf

/-- The two updates that end a successful `do_insert` or `do_delete` leave the
blob region as it is. -/
theorem update_header_metadata_blobs (s : imgst_file) (index n : Nat) (hi : index < n)
    (hn : n ≤ MAX_MAX_FILES) :
    (∀ k, sizeof_imgst_header + n * sizeof_img_metadata ≤ k →
      (update_metadata (update_header s).2 index).2.file.at k = s.file.at k) ∧
    (sizeof_imgst_header + n * sizeof_img_metadata ≤ s.file.len →
      (update_metadata (update_header s).2 index).2.file.len = s.file.len) := by
  obtain ⟨h1, h2⟩ := update_metadata_blobs (update_header s).2 index n hi hn
  obtain ⟨h3, h4⟩ := update_header_blobs s
  constructor
  · intro k hk
    rw [h1 k hk, h3 k (by omega)]
  · intro hlen
    rw [h2 (by rw [h4 (by omega)]; exact hlen), h4 (by omega)]

/-! ## A store of capacity 1 -/

theorem dedup_single (s : imgst_file) (h1 : s.header.max_files = 1) :
    do_name_and_content_dedup s 0 =
      (ERR_NONE, { s with metadata := set_offset s.metadata 0 RES_ORIG 0 }) := by
  unfold do_name_and_content_dedup
  rw [h1, if_neg (by omega)]
  simp [dedup_loop]

/-- Insertion in a store of capacity 1 whose slot is EMPTY, when the device
accepts every write and the JPEG library decodes the buffer. -/
theorem do_insert_single (env : Env) (buffer : List Nat) (size : Nat) (img_id : List Nat)
    (s : imgst_file) (h1 : s.header.max_files = 1) (h0 : s.header.num_files = 0)
    (hv : (s.metadata 0).is_valid = 0) (hf : s.file.faults = []) (hs : size ≠ 0)
    (hlen : sizeof_imgst_header + sizeof_img_metadata ≤ s.file.len)
    (hj : (env.vips_jpegload_buffer (buffer.take size)).isSome = true) :
    (do_insert env buffer size img_id s).1 = ERR_NONE ∧
    (do_insert env buffer size img_id s).2.header.max_files = 1 ∧
    (do_insert env buffer size img_id s).2.header.num_files = 1 ∧
    (do_insert env buffer size img_id s).2.file.faults = [] ∧
    (do_insert env buffer size img_id s).2.file.len = s.file.len + (buffer.take size).length ∧
    ((do_insert env buffer size img_id s).2.metadata 0).is_valid = NON_EMPTY ∧
    ((do_insert env buffer size img_id s).2.metadata 0).img_id =
      strncpy (s.metadata 0).img_id img_id MAX_IMG_ID ∧
    ((do_insert env buffer size img_id s).2.metadata 0).offset RES_ORIG =
      to_uint64 (to_int s.file.len) := by
  have hfi : first_index (fun i => decide ((s.metadata i).is_valid = 0)) 1 0 = some 0 := by
    simp [first_index, hv]
  obtain ⟨xy, hxy⟩ := Option.isSome_iff_exists.mp hj
  obtain ⟨sd, hsd, hsdf, hsdh, hsdm⟩ : ∃ sd,
      do_name_and_content_dedup (insert_candidate env buffer size img_id s 0) 0 = (ERR_NONE, sd) ∧
      sd.file = s.file ∧ sd.header = s.header ∧
      sd.metadata = set_offset (insert_candidate env buffer size img_id s 0).metadata 0 RES_ORIG 0 :=
    ⟨_, dedup_single _ (by rw [insert_candidate_header]; exact h1), rfl, rfl, rfl⟩
  obtain ⟨hb1, hb2, hb3, hb4⟩ := insert_blob_ok buffer size sd 0
    (by rw [hsdm]; simp [set_offset]) (by rw [hsdf]; exact hf) hs
  obtain ⟨hc1, hc2, hc3, hc4, hc5⟩ := insert_commit_ok env buffer size (insert_blob buffer size sd 0).2 0 xy
    (by rw [hb3]; exact (by rw [hsdf]; exact hf)) hxy
  have hres : do_insert env buffer size img_id s =
      insert_commit env buffer size (insert_blob buffer size sd 0).2 0 := by
    unfold do_insert
    rw [if_neg (by omega), h1, hfi]
    simp only [do_insert_at]
    rw [hsd]
    simp only [ne_eq, not_true_eq_false, if_false]
    rw [if_neg (by rw [hb1]; simp)]
  have hblob := update_header_metadata_blobs
    (count_image (mark_valid (insert_blob buffer size sd 0).2 0) 0 xy.2 xy.1) 0 1 (by omega) (by decide)
  have hlen1 : (insert_blob buffer size sd 0).2.file.len = s.file.len + (buffer.take size).length := by
    rw [hb3, hsdf]
    simp [FILE.put, fseek_end]
  rw [hres]
  refine ⟨hc1, ?_, ?_, hc4, ?_, ?_, ?_, ?_⟩
  · rw [hc2]; simp only [count_image, mark_valid]; rw [hb2, hsdh]; exact h1
  · rw [hc2]; simp only [count_image, mark_valid]; rw [hb2, hsdh, h0]; rfl
  · rw [hc5, hblob.2]
    · exact hlen1
    · show sizeof_imgst_header + 1 * sizeof_img_metadata ≤ (insert_blob buffer size sd 0).2.file.len
      rw [hlen1]; omega
  · rw [hc3]; simp [count_image, mark_valid]
  · rw [hc3]; simp only [count_image, mark_valid]; rw [hb4, hsdm]
    simp [set_size, set_offset, insert_candidate]
  · rw [hc3]; simp only [count_image, mark_valid]; rw [hb4, hsdm, hsdf]
    simp [set_size, set_offset, RES_ORIG]

/-- Deletion of the image of a store of capacity 1, when the device accepts
every write. -/
theorem do_delete_single (img_id : List Nat) (s : imgst_file)
    (h1 : s.header.max_files = 1) (h0 : s.header.num_files = 1)
    (hv : (s.metadata 0).is_valid = NON_EMPTY)
    (hid : strncmp (s.metadata 0).img_id img_id MAX_IMGST_NAME = 0)
    (hf : s.file.faults = [])
    (hlen : sizeof_imgst_header + sizeof_img_metadata ≤ s.file.len) :
    (do_delete img_id s).1 = ERR_NONE ∧
    (do_delete img_id s).2.header.max_files = 1 ∧
    (do_delete img_id s).2.header.num_files = 0 ∧
    (do_delete img_id s).2.file.faults = [] ∧
    (do_delete img_id s).2.file.len = s.file.len ∧
    ((do_delete img_id s).2.metadata 0).is_valid = EMPTY := by
  have hfi : first_index (fun i => decide (strncmp (s.metadata i).img_id img_id MAX_IMGST_NAME = 0 ∧
      (s.metadata i).is_valid = NON_EMPTY)) 1 0 = some 0 := by
    simp [first_index, hv, hid]
  have hu := update_metadata_ok (invalidate s 0) 0 hf
  have hub := update_metadata_blobs (invalidate s 0) 0 1 (by omega) (by decide)
  have hf2 : (update_metadata (invalidate s 0) 0).2.file.faults = [] := by
    rw [hu]
    simp only [FILE.put, fseek_set_faults]
    exact hf
  have hh := update_header_ok (uncount_image (update_metadata (invalidate s 0) 0).2) hf2
  have hhb := update_header_blobs (uncount_image (update_metadata (invalidate s 0) 0).2)
  have hres : do_delete img_id s = update_header (uncount_image (update_metadata (invalidate s 0) 0).2) := by
    unfold do_delete
    rw [if_neg (by omega), h1, hfi]
    simp only []
    rw [if_neg (by rw [hu]; simp)]
  rw [hres]
  refine ⟨by rw [hh], ?_, ?_, ?_, ?_, ?_⟩
  · rw [(update_header_frame _).2]; simp only [uncount_image]
    rw [(update_metadata_frame _ _).2]; exact h1
  · rw [(update_header_frame _).2]; simp only [uncount_image]
    rw [(update_metadata_frame _ _).2]; simp only [invalidate]; rw [h0]; rfl
  · rw [hh]; simp only [FILE.put, rewind]; exact hf2
  · have hl : (update_metadata (invalidate s 0) 0).2.file.len = s.file.len :=
      hub.2 (by simpa [invalidate] using hlen)
    rw [hhb.2 (by simp only [uncount_image]; rw [hl]; omega)]
    exact hl
  · rw [(update_header_frame _).1]; simp only [uncount_image]
    rw [(update_metadata_frame _ _).1]; simp [invalidate]

/-! ## The original offset in a file of 4 GiB -/

set_option maxRecDepth 100000 in
/-- C10, at a failing input. A store of capacity 1 receives an image of
`2^32 - 280` bytes, which is then deleted: the file is `2^32` bytes long. The
next image goes to the end of the file, and the NON_EMPTY slot that describes
it has the original offset 0, below `sizeof(header) + max_files * sizeof(slot)`. -/
theorem original_offset_wraps :
    Reachable sample_env wrapped_store ∧
    emptied_store.file.len = 2 ^ 32 ∧
    (wrapped_store.metadata 0).is_valid = NON_EMPTY ∧
    (wrapped_store.metadata 0).offset RES_ORIG = 0 ∧
    ¬ (sizeof_imgst_header + wrapped_store.header.max_files * sizeof_img_metadata ≤
      (wrapped_store.metadata 0).offset RES_ORIG) := by
  have hlenc : (created_store 1).file.len = 280 := by decide
  have hbig : (big_jpeg.take (2 ^ 32 - 280)).length = 2 ^ 32 - 280 := by
    simp only [big_jpeg, List.length_take, List.length_replicate, min_self]
  obtain ⟨_, a2, a3, a4, a5, a6, a7, _⟩ := do_insert_single sample_env big_jpeg (2 ^ 32 - 280) pic1
    (created_store 1) (by decide) (by decide) (by decide) (by decide) (by decide)
    (by rw [hlenc]; decide) (by decide)
  rw [hlenc, hbig] at a5
  obtain ⟨_, b2, b3, b4, b5, b6⟩ := do_delete_single pic1 grown_store a2 a3 a6
    (by unfold grown_store; rw [a7]; decide) a4
    (by unfold grown_store; rw [a5]; decide)
  have hlen : emptied_store.file.len = 2 ^ 32 := by
    unfold emptied_store
    rw [b5]
    unfold grown_store
    rw [a5]
    decide
  obtain ⟨_, c2, _, _, _, c6, _, c8⟩ := do_insert_single sample_env jpeg_a 4 pic2 emptied_store
    b2 b3 b6 b4 (by decide) (by rw [hlen]; decide) (by decide)
  have hoff : (wrapped_store.metadata 0).offset RES_ORIG = 0 := by
    unfold wrapped_store
    rw [c8, hlen]
    decide
  refine ⟨Reachable.insert _ _ _ _ (Reachable.delete _ _ (Reachable.insert _ _ _ _
    (created_store_reachable _ 1))), hlen, c6, hoff, ?_⟩
  rw [hoff]
  unfold wrapped_store
  rw [c2]
  decide

set_option maxRecDepth 100000 in
/-- An image of `2^32` bytes inserted in an empty store of capacity 1: the
call succeeds and the NON_EMPTY slot records the size `(uint32_t) size`, which is 0. -/
theorem insert_four_gib :
    (do_insert sample_env four_gib_jpeg (2 ^ 32) pic1 (created_store 1)).1 = ERR_NONE ∧
    ((do_insert sample_env four_gib_jpeg (2 ^ 32) pic1 (created_store 1)).2.metadata 0).is_valid
      = NON_EMPTY ∧
    ((do_insert sample_env four_gib_jpeg (2 ^ 32) pic1 (created_store 1)).2.metadata 0).size RES_ORIG
      = 0 := by
  decide

/-- Deletion of an identifier that no NON_EMPTY slot matches in the comparison
of `do_delete` (`strncmp` over `MAX_IMGST_NAME` bytes): `ERR_FILE_NOT_FOUND`,
and the store is the one that was given. -/
theorem do_delete_not_found (img_id : List Nat) (s : imgst_file)
    (h : ∀ i, i < s.header.max_files → (s.metadata i).is_valid = NON_EMPTY →
      strncmp (s.metadata i).img_id img_id MAX_IMGST_NAME ≠ 0) :
    do_delete img_id s = (ERR_FILE_NOT_FOUND, s) := by
  unfold do_delete
  by_cases h0 : s.header.num_files = 0
  · rw [if_pos h0]
  · rw [if_neg h0]
    have hnone : first_index
        (fun i => decide (strncmp (s.metadata i).img_id img_id MAX_IMGST_NAME = 0 ∧
          (s.metadata i).is_valid = NON_EMPTY)) s.header.max_files 0 = none := by
      rw [first_index_eq_none]
      intro j _ hj
      have := h j (by omega)
      simp only [decide_eq_false_iff_not, not_and]
      intro h1 h2
      exact this h2 h1
    rw [hnone]

/-! ## Creation of a store -/

theorem fwrite_fst (ptr : List Nat) (size nmemb : Nat) (f : FILE) :
    (fwrite ptr size nmemb f).1 = 0 ∨ (fwrite ptr size nmemb f).1 = nmemb := by
  unfold fwrite
  split
  · left; rfl
  · split
    · left; rfl
    · right; rfl
    · right; rfl

theorem fwrite_ok_file (ptr : List Nat) (size nmemb : Nat) (f : FILE)
    (h : (fwrite ptr size nmemb f).1 ≠ 0) :
    (fwrite ptr size nmemb f).2.len = (f.put (ptr.take (size * nmemb))).len ∧
    (fwrite ptr size nmemb f).2.pos = (f.put (ptr.take (size * nmemb))).pos ∧
    (fwrite ptr size nmemb f).2.faults = f.faults.tail ∧
    ∀ k, (fwrite ptr size nmemb f).2.at k = (f.put (ptr.take (size * nmemb))).at k := by
  unfold fwrite at h ⊢
  split
  · rename_i h0
    rw [if_pos h0] at h
    exact absurd rfl h
  · rename_i h0
    rw [if_neg h0] at h
    split
    · rename_i rest hf
      rw [hf] at h
      exact absurd rfl h
    · rename_i rest hf
      exact ⟨rfl, rfl, by rw [hf]; rfl, fun k => rfl⟩
    · rename_i hf
      exact ⟨rfl, rfl, by simp [put_faults, hf], fun k => rfl⟩

theorem table_bytes_length (md : Nat → img_metadata) (n : Nat) :
    (table_bytes md n).length = n * sizeof_img_metadata := by
  induction n with
  | zero => rfl
  | succ n ih =>
    unfold table_bytes
    rw [List.length_append, ih, metadata_bytes_length]
    ring

set_option maxRecDepth 100000 in
theorem table_bytes_empty (n : Nat) :
    table_bytes (fun _ => { zero_metadata with is_valid := EMPTY }) n
      = List.replicate (n * sizeof_img_metadata) 0 := by
  induction n with
  | zero => rfl
  | succ n ih =>
    unfold table_bytes
    rw [ih]
    have h : metadata_bytes { zero_metadata with is_valid := EMPTY } = List.replicate sizeof_img_metadata 0 := by
      decide
    rw [h, show (n + 1) * sizeof_img_metadata = n * sizeof_img_metadata + sizeof_img_metadata by ring,
      List.replicate_add]
theorem getD_replicate_zero (n k : Nat) : (List.replicate n 0).getD k 0 = 0 := by
  rw [List.getD_eq_getElem?_getD, List.getElem?_replicate]
  split <;> rfl

/-- The store that a successful `do_create` leaves, when `fopen` has returned a
stream on an empty file with the outcomes `faults`. -/
theorem do_create_ok (io : Option (List Bool)) (s0 : imgst_file)
    (hok : (do_create io s0).1 = ERR_NONE) :
    (do_create io s0).2.header = imgst_header.mk (CAT_TXT ++ List.replicate 12 0) 0 0
      s0.header.max_files s0.header.res_resized s0.header.unused_32 s0.header.unused_64 ∧
    (do_create io s0).2.metadata = (fun _ => { zero_metadata with is_valid := EMPTY }) ∧
    (do_create io s0).2.file.len = sizeof_imgst_header + s0.header.max_files * sizeof_img_metadata ∧
    (∀ k, k < sizeof_imgst_header →
      (do_create io s0).2.file.at k = (header_bytes (do_create io s0).2.header).getD k 0) ∧
    (∀ k, sizeof_imgst_header ≤ k → (do_create io s0).2.file.at k = 0) := by
  cases io with
  | none => simp [do_create] at hok
  | some faults =>
    unfold do_create at hok ⊢
    simp only [] at hok ⊢
    split at hok
    · simp at hok
    · rename_i hsum
      rw [if_neg hsum]
      have hname : (strncpy s0.header.imgst_name CAT_TXT MAX_IMGST_NAME).take MAX_IMGST_NAME ++ [0]
          = CAT_TXT ++ List.replicate 12 0 := rfl
      rw [hname] at hsum ⊢
      generalize hh : imgst_header.mk (CAT_TXT ++ List.replicate 12 0) 0 0
        s0.header.max_files s0.header.res_resized s0.header.unused_32 s0.header.unused_64 = hdr at hsum ⊢
      have h1 := fwrite_fst (header_bytes hdr) sizeof_imgst_header 1 (fopen_wb faults)
      have h2 := fwrite_fst (table_bytes (fun _ => { zero_metadata with is_valid := EMPTY }) s0.header.max_files)
        sizeof_img_metadata s0.header.max_files
        (fwrite (header_bytes hdr) sizeof_imgst_header 1 (fopen_wb faults)).2
      have hr1 : (fwrite (header_bytes hdr) sizeof_imgst_header 1 (fopen_wb faults)).1 ≠ 0 := by
        intro h0
        rw [h0] at hsum
        rcases h2 with h2 | h2 <;> rw [h2] at hsum <;> omega
      obtain ⟨hl1, hp1, _, ha1⟩ := fwrite_ok_file _ _ _ _ hr1
      have htake : (header_bytes hdr).take (sizeof_imgst_header * 1) = header_bytes hdr := by
        apply List.take_of_length_le
        rw [header_bytes_length]
        decide
      rw [htake] at hl1 hp1 ha1
      have hlen1 : (fwrite (header_bytes hdr) sizeof_imgst_header 1 (fopen_wb faults)).2.len
          = sizeof_imgst_header := by
        rw [hl1]
        simp [FILE.put, fopen_wb, header_bytes_length]
      have hpos1 : (fwrite (header_bytes hdr) sizeof_imgst_header 1 (fopen_wb faults)).2.pos
          = sizeof_imgst_header := by
        rw [hp1]
        simp [FILE.put, fopen_wb, header_bytes_length]
      have hat1 : ∀ k, (fwrite (header_bytes hdr) sizeof_imgst_header 1 (fopen_wb faults)).2.at k
          = if k < sizeof_imgst_header then (header_bytes hdr).getD k 0 else 0 := by
        intro k
        rw [ha1, put_at]
        simp only [fopen_wb, header_bytes_length, Nat.zero_le, true_and, Nat.zero_add, Nat.sub_zero]
        split
        · rfl
        · simp [FILE.at]
      refine ⟨rfl, rfl, ?_⟩
      simp only []
      rw [table_bytes_empty]
      by_cases hm0 : s0.header.max_files = 0
      · have hr2 : fwrite (List.replicate (s0.header.max_files * sizeof_img_metadata) 0) sizeof_img_metadata
            s0.header.max_files (fwrite (header_bytes hdr) sizeof_imgst_header 1 (fopen_wb faults)).2
            = (0, (fwrite (header_bytes hdr) sizeof_imgst_header 1 (fopen_wb faults)).2) := by
          unfold fwrite
          rw [if_pos (Or.inr hm0)]
        rw [hr2]
        refine ⟨by rw [hlen1, hm0]; rfl, fun k hk => ?_, fun k hk => ?_⟩
        · rw [hat1, if_pos hk]
        · rw [hat1, if_neg (by omega)]
      · rw [table_bytes_empty] at h2 hsum
        have hr2 : (fwrite (List.replicate (s0.header.max_files * sizeof_img_metadata) 0) sizeof_img_metadata
            s0.header.max_files (fwrite (header_bytes hdr) sizeof_imgst_header 1 (fopen_wb faults)).2).1 ≠ 0 := by
          intro h0
          rw [h0] at hsum
          rcases h1 with h1 | h1 <;> rw [h1] at hsum <;> omega
        obtain ⟨hl2, _, _, ha2⟩ := fwrite_ok_file _ _ _ _ hr2
        have htk : (List.replicate (s0.header.max_files * sizeof_img_metadata) 0).take
            (sizeof_img_metadata * s0.header.max_files)
            = List.replicate (s0.header.max_files * sizeof_img_metadata) 0 := by
          apply List.take_of_length_le
          rw [List.length_replicate, Nat.mul_comm]
        rw [htk] at hl2 ha2
        refine ⟨?_, fun k hk => ?_, fun k hk => ?_⟩
        · rw [hl2]
          unfold FILE.put
          simp only [List.length_replicate]
          rw [hlen1, hpos1]
          exact max_eq_right (by omega)
        · rw [ha2, put_at, if_neg (by rw [hpos1]; omega), hat1, if_pos hk]
        · rw [ha2, put_at, hpos1]
          split
          · exact getD_replicate_zero _ _
          · rw [hat1, if_neg (by omega)]

/-- The store that `do_create` leaves in memory and the file as the stream
presents it: whenever `do_create` returns ERR_NONE, whatever
the capacity and the resolutions found in the header it is given, the store
has the version 0 and no image, its name is "EPFL ImgStore binary" followed
by NUL bytes up to 32 bytes, `max_files` and `res_resized` are the ones given,
every slot is EMPTY, and the file is exactly `sizeof(header) + max_files *
sizeof(slot)` bytes long: the header as it is in memory, then zero bytes, which
are the records of `max_files` EMPTY slots. -/
theorem do_create_postcondition (io : Option (List Bool)) (s0 : imgst_file)
    (hok : (do_create io s0).1 = ERR_NONE) :
    (do_create io s0).2.header.imgst_version = 0 ∧
    (do_create io s0).2.header.num_files = 0 ∧
    (do_create io s0).2.header.imgst_name = CAT_TXT ++ List.replicate 12 0 ∧
    (do_create io s0).2.header.max_files = s0.header.max_files ∧
    (do_create io s0).2.header.res_resized = s0.header.res_resized ∧
    (∀ i, ((do_create io s0).2.metadata i).is_valid = EMPTY) ∧
    (do_create io s0).2.file.len = sizeof_imgst_header + s0.header.max_files * sizeof_img_metadata ∧
    (∀ k, k < sizeof_imgst_header →
      (do_create io s0).2.file.at k = (header_bytes (do_create io s0).2.header).getD k 0) ∧
    (∀ k, sizeof_imgst_header ≤ k → (do_create io s0).2.file.at k = 0) := by
  obtain ⟨hh, hm, hl, hb1, hb2⟩ := do_create_ok io s0 hok
  refine ⟨by rw [hh], by rw [hh], by rw [hh], by rw [hh], by rw [hh], fun i => by rw [hm], hl, hb1, hb2⟩

/-- The creation of a store of capacity 3 with the default resolutions. -/
theorem do_create_postcondition_witness :
    (do_create (some []) (blank_store 3)).1 = ERR_NONE ∧
    (do_create (some []) (blank_store 3)).2.header.imgst_version = 0 ∧
    (do_create (some []) (blank_store 3)).2.header.num_files = 0 ∧
    (do_create (some []) (blank_store 3)).2.header.imgst_name = CAT_TXT ++ List.replicate 12 0 ∧
    (do_create (some []) (blank_store 3)).2.header.max_files = (blank_store 3).header.max_files ∧
    (do_create (some []) (blank_store 3)).2.header.res_resized = (blank_store 3).header.res_resized ∧
    (∀ i, ((do_create (some []) (blank_store 3)).2.metadata i).is_valid = EMPTY) ∧
    (do_create (some []) (blank_store 3)).2.file.len =
      sizeof_imgst_header + (blank_store 3).header.max_files * sizeof_img_metadata ∧
    (∀ k, k < sizeof_imgst_header → (do_create (some []) (blank_store 3)).2.file.at k =
      (header_bytes (do_create (some []) (blank_store 3)).2.header).getD k 0) ∧
    (∀ k, sizeof_imgst_header ≤ k → (do_create (some []) (blank_store 3)).2.file.at k = 0) :=
  ⟨do_create_no_faults _, do_create_postcondition (some []) (blank_store 3) (do_create_no_faults _)⟩

/-! ## The options of the command `create` -/

theorem parse_create_args_nil (atouint32 atouint16 : List Nat → Nat) (a : create_args) :
    parse_create_args atouint32 atouint16 [] a = (ERR_NONE, a) := rfl

theorem parse_create_args_cons (atouint32 atouint16 : List Nat → Nat) (opt : List Nat)
    (rest : List (List Nat)) (a : create_args) :
    parse_create_args atouint32 atouint16 (opt :: rest) a =
    if strcmp opt opt_max_files = 0 then
      match rest with
      | v :: rest1 =>
        let a1 := { a with max_files := atouint32 v }
        if a1.max_files = 0 ∨ a1.max_files > MAX_MAX_FILES then (ERR_MAX_FILES, a1)
        else parse_create_args atouint32 atouint16 rest1 a1
      | [] => (ERR_NOT_ENOUGH_ARGUMENTS, a)
    else if strcmp opt opt_thumb_res = 0 then
      match rest with
      | x :: y :: rest2 =>
        let a1 := { a with thumb_res_x := atouint16 x, thumb_res_y := atouint16 y }
        if a1.thumb_res_x = 0 ∨ a1.thumb_res_x > 128 ∨ a1.thumb_res_y = 0 ∨ a1.thumb_res_y > 128 then
          (ERR_RESOLUTIONS, a1)
        else parse_create_args atouint32 atouint16 rest2 a1
      | _ => (ERR_NOT_ENOUGH_ARGUMENTS, a)
    else if strcmp opt opt_small_res = 0 then
      match rest with
      | x :: y :: rest2 =>
        let a1 := { a with small_res_x := atouint16 x, small_res_y := atouint16 y }
        if a1.small_res_x = 0 ∨ a1.small_res_x > 512 ∨ a1.small_res_y = 0 ∨ a1.small_res_y > 512 then
          (ERR_RESOLUTIONS, a1)
        else parse_create_args atouint32 atouint16 rest2 a1
      | _ => (ERR_NOT_ENOUGH_ARGUMENTS, a)
    else (ERR_INVALID_ARGUMENT, a) := by
  cases rest with
  | nil => rfl
  | cons x r1 =>
    cases r1 with
    | nil => rfl
    | cons y r2 => rfl

theorem parse_create_args_append (atouint32 atouint16 : List Nat → Nat) (r : List (List Nat)) :
    ∀ (n : Nat) (p : List (List Nat)) (a b : create_args), p.length ≤ n →
      parse_create_args atouint32 atouint16 p a = (ERR_NONE, b) →
      parse_create_args atouint32 atouint16 (p ++ r) a = parse_create_args atouint32 atouint16 r b := by
  intro n
  induction n with
  | zero =>
    intro p a b hp h
    have : p = [] := List.length_eq_zero.mp (by omega)
    subst this
    rw [parse_create_args_nil] at h
    cases h
    rfl
  | succ n ih =>
    intro p a b hp h
    cases p with
    | nil =>
      rw [parse_create_args_nil] at h
      cases h
      rfl
    | cons opt rest =>
      rw [List.cons_append, parse_create_args_cons _ _ opt (rest ++ r) a]
      rw [parse_create_args_cons _ _ opt rest a] at h
      by_cases h1 : strcmp opt opt_max_files = 0
      · rw [if_pos h1] at h ⊢
        cases rest with
        | nil => simp at h
        | cons v rest1 =>
          simp only [List.cons_append] at h ⊢
          split at h
          · simp at h
          · rename_i hv
            rw [if_neg hv]
            exact ih rest1 _ _ (by simp only [List.length_cons] at hp; omega) h
      · rw [if_neg h1] at h ⊢
        by_cases h2 : strcmp opt opt_thumb_res = 0
        · rw [if_pos h2] at h ⊢
          cases rest with
          | nil => simp at h
          | cons x rest1 =>
            cases rest1 with
            | nil => simp at h
            | cons y rest2 =>
              simp only [List.cons_append] at h ⊢
              split at h
              · simp at h
              · rename_i hv
                rw [if_neg hv]
                exact ih rest2 _ _ (by simp only [List.length_cons] at hp; omega) h
        · rw [if_neg h2] at h ⊢
          by_cases h3 : strcmp opt opt_small_res = 0
          · rw [if_pos h3] at h ⊢
            cases rest with
            | nil => simp at h
            | cons x rest1 =>
              cases rest1 with
              | nil => simp at h
              | cons y rest2 =>
                simp only [List.cons_append] at h ⊢
                split at h
                · simp at h
                · rename_i hv
                  rw [if_neg hv]
                  exact ih rest2 _ _ (by simp only [List.length_cons] at hp; omega) h
          · rw [if_neg h3] at h
            simp at h

theorem do_create_res_resized (io : Option (List Bool)) (s0 : imgst_file) :
    (do_create io s0).2.header.res_resized = s0.header.res_resized := by
  unfold do_create
  cases io with
  | none => rfl
  | some faults =>
    simp only []
    split <;> rfl

theorem do_create_cmd_refused (atouint32 atouint16 : List Nat → Nat) (io : Option (List Bool))
    (room : Option Nat)
    (cmd filename : List Nat) (p r : List (List Nat)) (b : create_args) (e : error_code)
    (hp : parse_create_args atouint32 atouint16 p default_create_args = (ERR_NONE, b))
    (hr : (parse_create_args atouint32 atouint16 r b).1 = e) (he : e ≠ ERR_NONE) :
    do_create_cmd atouint32 atouint16 io room (cmd :: filename :: (p ++ r)) = (e, none, none) := by
  unfold do_create_cmd
  rw [if_neg (by simp)]
  simp only [List.drop_succ_cons, List.drop_zero]
  rw [parse_create_args_append atouint32 atouint16 r p.length p _ b (le_refl _) hp]
  rw [if_pos (by rw [hr]; exact he), hr]

/-- The command `create` without any option, when `fopen` succeeds and no call
of `fwrite` reports a failure: `do_create_cmd` returns `ERR_NONE`, the store is
the one that `do_create` leaves and the file is the one that `do_close` leaves. -/
theorem do_create_cmd_default (atouint32 atouint16 : List Nat → Nat) (room : Option Nat)
    (cmd filename : List Nat) :
    do_create_cmd atouint32 atouint16 (some []) room [cmd, filename] =
      (ERR_NONE, some (do_create (some []) (new_store default_create_args)).2,
        some (do_close (do_create (some []) (new_store default_create_args)).2 room)) := by
  have hok := do_create_no_faults (new_store default_create_args)
  unfold do_create_cmd
  rw [if_neg (by simp)]
  simp only [List.drop_succ_cons, List.drop_zero, List.drop_nil, parse_create_args_nil]
  rw [if_neg (by simp), if_neg (by rw [hok]; simp)]

/-- Claim C20 (create argument validation).  After the name of the command, the
name of the file and any options `p` that the loop of `do_create_cmd` accepts,
an option `-max_files` whose value is 0 or above 100000 makes `do_create_cmd`
return `ERR_MAX_FILES`, an option `-thumb_res` with an axis that is 0 or above
128 and an option `-small_res` with an axis that is 0 or above 512 make it
return `ERR_RESOLUTIONS`, whatever arguments `r` follow; in these cases neither
`do_create` nor `do_close` is called, so no file is created.  With no option at
all, when `fopen` succeeds and no call of `fwrite` reports a failure,
`do_create_cmd` returns `ERR_NONE` and the store `t` that it has created has 10
slots, all EMPTY, the thumbnail resolution 64 x 64 and the small resolution
256 x 256, no image and the version 0; its file holds the 64 bytes of this
header and the `10 * 216` zero bytes of the 10 slots, and this file of 2224
bytes is the file that `do_close` leaves on a device that holds all the bytes. -/
theorem do_create_cmd_validation (atouint32 atouint16 : List Nat → Nat) (io : Option (List Bool))
    (room : Option Nat)
    (cmd filename : List Nat) (p r : List (List Nat)) (b : create_args)
    (hp : parse_create_args atouint32 atouint16 p default_create_args = (ERR_NONE, b)) :
    (∀ v, atouint32 v = 0 ∨ atouint32 v > MAX_MAX_FILES →
      do_create_cmd atouint32 atouint16 io room (cmd :: filename :: (p ++ opt_max_files :: v :: r))
        = (ERR_MAX_FILES, none, none)) ∧
    (∀ x y, atouint16 x = 0 ∨ atouint16 x > 128 ∨ atouint16 y = 0 ∨ atouint16 y > 128 →
      do_create_cmd atouint32 atouint16 io room
          (cmd :: filename :: (p ++ opt_thumb_res :: x :: y :: r))
        = (ERR_RESOLUTIONS, none, none)) ∧
    (∀ x y, atouint16 x = 0 ∨ atouint16 x > 512 ∨ atouint16 y = 0 ∨ atouint16 y > 512 →
      do_create_cmd atouint32 atouint16 io room
          (cmd :: filename :: (p ++ opt_small_res :: x :: y :: r))
        = (ERR_RESOLUTIONS, none, none)) ∧
    ∃ t, do_create_cmd atouint32 atouint16 (some []) room [cmd, filename] =
        (ERR_NONE, some t, some (do_close t room)) ∧
      t.header.max_files = 10 ∧
      t.header.res_resized 0 = 64 ∧ t.header.res_resized 1 = 64 ∧
      t.header.res_resized 2 = 256 ∧ t.header.res_resized 3 = 256 ∧
      t.header.num_files = 0 ∧ t.header.imgst_version = 0 ∧
      t.header.imgst_name = CAT_TXT ++ List.replicate 12 0 ∧
      (∀ i, (t.metadata i).is_valid = EMPTY) ∧
      t.file.len = sizeof_imgst_header + 10 * sizeof_img_metadata ∧
      (∀ k, k < sizeof_imgst_header → t.file.at k = (header_bytes t.header).getD k 0) ∧
      (∀ k, sizeof_imgst_header ≤ k → t.file.at k = 0) ∧
      do_close t none = t.file ∧
      (do_close t none).len = 2224 := by
  have hm : strcmp opt_max_files opt_max_files = 0 := by decide
  have ht1 : ¬ strcmp opt_thumb_res opt_max_files = 0 := by decide
  have ht2 : strcmp opt_thumb_res opt_thumb_res = 0 := by decide
  have hs1 : ¬ strcmp opt_small_res opt_max_files = 0 := by decide
  have hs2 : ¬ strcmp opt_small_res opt_thumb_res = 0 := by decide
  have hs3 : strcmp opt_small_res opt_small_res = 0 := by decide
  refine ⟨fun v hv => ?_, fun x y hv => ?_, fun x y hv => ?_, ?_⟩
  · refine do_create_cmd_refused atouint32 atouint16 io room cmd filename p _ b ERR_MAX_FILES hp ?_
      (by decide)
    rw [parse_create_args_cons, if_pos hm]
    simp only []
    rw [if_pos hv]
  · refine do_create_cmd_refused atouint32 atouint16 io room cmd filename p _ b ERR_RESOLUTIONS hp ?_
      (by decide)
    rw [parse_create_args_cons, if_neg ht1, if_pos ht2]
    simp only []
    rw [if_pos hv]
  · refine do_create_cmd_refused atouint32 atouint16 io room cmd filename p _ b ERR_RESOLUTIONS hp ?_
      (by decide)
    rw [parse_create_args_cons, if_neg hs1, if_neg hs2, if_pos hs3]
    simp only []
    rw [if_pos hv]
  · obtain ⟨hh, hmd, hl, hb1, hb2⟩ := do_create_ok (some []) (new_store default_create_args)
      (do_create_no_faults _)
    have hlen : (do_create (some []) (new_store default_create_args)).2.file.len =
        sizeof_imgst_header + 10 * sizeof_img_metadata := hl
    refine ⟨(do_create (some []) (new_store default_create_args)).2,
      do_create_cmd_default atouint32 atouint16 room cmd filename,
      by rw [hh]; rfl, by rw [hh]; rfl, by rw [hh]; rfl, by rw [hh]; rfl, by rw [hh]; rfl,
      by rw [hh], by rw [hh], by rw [hh], fun i => by rw [hmd], hlen, hb1, hb2, rfl, ?_⟩
    show (do_create (some []) (new_store default_create_args)).2.file.len = 2224
    rw [hlen]
    rfl

theorem sample_atouint_digits : sample_atouint [51, 50] = 32 ∧ sample_atouint [48] = 0 := by decide

/-- The theorem `do_create_cmd_validation` with the conversion `sample_atouint`:
the command `create s -thumb_res 32 32 -max_files 0` is refused and creates no
file, and the command `create s` creates a store of 10 slots whose file is 2224
bytes long. -/
theorem do_create_cmd_validation_witness :
    parse_create_args sample_atouint sample_atouint [opt_thumb_res, [51, 50], [51, 50]]
        default_create_args
      = (ERR_NONE, { default_create_args with thumb_res_x := 32, thumb_res_y := 32 }) ∧
    do_create_cmd sample_atouint sample_atouint (some []) none
        ([99, 114, 101, 97, 116, 101] :: [115] ::
          ([opt_thumb_res, [51, 50], [51, 50]] ++ opt_max_files :: [48] :: []))
      = (ERR_MAX_FILES, none, none) ∧
    ∃ t, do_create_cmd sample_atouint sample_atouint (some []) none [[99, 114, 101, 97, 116, 101], [115]] =
        (ERR_NONE, some t, some (do_close t none)) ∧
      t.header.max_files = 10 ∧
      t.header.res_resized 0 = 64 ∧ t.header.res_resized 1 = 64 ∧
      t.header.res_resized 2 = 256 ∧ t.header.res_resized 3 = 256 ∧
      t.header.num_files = 0 ∧ t.header.imgst_version = 0 ∧
      t.header.imgst_name = CAT_TXT ++ List.replicate 12 0 ∧
      (∀ i, (t.metadata i).is_valid = EMPTY) ∧
      t.file.len = sizeof_imgst_header + 10 * sizeof_img_metadata ∧
      (∀ k, k < sizeof_imgst_header → t.file.at k = (header_bytes t.header).getD k 0) ∧
      (∀ k, sizeof_imgst_header ≤ k → t.file.at k = 0) ∧
      do_close t none = t.file ∧
      (do_close t none).len = 2224 :=
  ⟨by decide,
    (do_create_cmd_validation sample_atouint sample_atouint (some []) none
      [99, 114, 101, 97, 116, 101] [115]
      [opt_thumb_res, [51, 50], [51, 50]] []
      { default_create_args with thumb_res_x := 32, thumb_res_y := 32 } (by decide)).1 [48]
      (by decide),
    (do_create_cmd_validation sample_atouint sample_atouint (some []) none
      [99, 114, 101, 97, 116, 101] [115]
      [opt_thumb_res, [51, 50], [51, 50]] []
      { default_create_args with thumb_res_x := 32, thumb_res_y := 32 } (by decide)).2.2.2⟩

/-! ## Blob immutability -/

theorem blobs_kept_refl (n : Nat) (f : FILE) : blobs_kept n f f := ⟨le_refl _, fun _ _ _ => rfl⟩

theorem blobs_kept_trans {n : Nat} {f g h : FILE} (h1 : blobs_kept n f g) (h2 : blobs_kept n g h) :
    blobs_kept n f h :=
  ⟨le_trans h1.1 h2.1, fun k hk hl => by rw [h2.2 k hk (lt_of_lt_of_le hl h1.1), h1.2 k hk hl]⟩

theorem fwrite_len_le (ptr : List Nat) (size nmemb : Nat) (f : FILE) :
    f.len ≤ (fwrite ptr size nmemb f).2.len := by
  have hput : f.len ≤ (f.put (ptr.take (size * nmemb))).len := le_max_left _ _
  unfold fwrite
  split
  · exact le_refl _
  · split
    · exact le_refl _
    · exact hput
    · exact hput

/-- A write that ends at or before the offset `n`, or starts at or after the
end of the file, keeps the bytes that the file has from `n` on. -/
theorem fwrite_blobs_kept (ptr : List Nat) (size nmemb : Nat) (f : FILE) (n : Nat)
    (h : f.pos + size * nmemb ≤ n ∨ f.len ≤ f.pos) :
    blobs_kept n f (fwrite ptr size nmemb f).2 := by
  refine ⟨fwrite_len_le _ _ _ _, fun k hk hl => ?_⟩
  apply fwrite_at_outside
  rcases h with h | h
  · right; omega
  · left; omega

theorem update_metadata_blobs_kept (s0 s : imgst_file) (f : FILE) (hf : f = s.file) (index : Nat)
    (hi : index < s0.header.max_files) (hn : s0.header.max_files ≤ MAX_MAX_FILES) :
    blobs_kept (blob_start s0) f (update_metadata s index).2.file := by
  subst hf
  refine ⟨?_, fun k hk _ => (update_metadata_blobs s index s0.header.max_files hi hn).1 k hk⟩
  rw [update_metadata_file]
  exact le_trans (le_of_eq (fseek_set_len _ _).symm) (fwrite_len_le _ _ _ _)

theorem update_header_blobs_kept (s0 s : imgst_file) (f : FILE) (hf : f = s.file) :
    blobs_kept (blob_start s0) f (update_header s).2.file := by
  subst hf
  refine ⟨?_, fun k hk _ => (update_header_blobs s).1 k (le_trans (Nat.le_add_right _ _) hk)⟩
  rw [update_header_file]
  exact fwrite_len_le _ _ _ (rewind s.file)

theorem fread_file (size : Nat) (f : FILE) :
    (fread size f).2.2.len = f.len ∧ (fread size f).2.2.faults = f.faults ∧
    ∀ k, (fread size f).2.2.at k = f.at k := by
  unfold fread
  split
  · exact ⟨rfl, rfl, fun _ => rfl⟩
  · split
    · exact ⟨rfl, rfl, fun _ => rfl⟩
    · exact ⟨rfl, rfl, fun _ => rfl⟩

theorem load_image_from_imgst_file (index resolution image_size : Nat) (s : imgst_file) :
    (load_image_from_imgst index resolution image_size s).2.2.file.len = s.file.len ∧
    (load_image_from_imgst index resolution image_size s).2.2.file.faults = s.file.faults ∧
    ∀ k, (load_image_from_imgst index resolution image_size s).2.2.file.at k = s.file.at k := by
  obtain ⟨h1, h2, h3⟩ := fread_file image_size
    (fseek_set s.file (to_long ((s.metadata index).offset resolution)))
  have h : (load_image_from_imgst index resolution image_size s).2.2.file =
      (fread image_size (fseek_set s.file (to_long ((s.metadata index).offset resolution)))).2.2 := by
    unfold load_image_from_imgst
    simp only []
    split <;> rfl
  rw [h]
  exact ⟨by rw [h1, fseek_set_len], by rw [h2, fseek_set_faults],
    fun k => by rw [h3, fseek_set_at]⟩

theorem load_image_from_imgst_blobs_kept (index resolution image_size n : Nat) (s : imgst_file) :
    blobs_kept n s.file (load_image_from_imgst index resolution image_size s).2.2.file :=
  ⟨le_of_eq (load_image_from_imgst_file _ _ _ _).1.symm,
    fun k _ _ => (load_image_from_imgst_file _ _ _ _).2.2 k⟩

theorem write_image_end_of_imgst_file (index res : Nat) (buffer : List Nat) (size : Nat)
    (s : imgst_file) :
    (write_image_end_of_imgst index res buffer size s).2.file =
      (fwrite buffer size 1 (fseek_end s.file)).2 := by
  unfold write_image_end_of_imgst
  simp only []
  split <;> rfl

theorem write_image_end_of_imgst_blobs_kept (index res : Nat) (buffer : List Nat) (size n : Nat)
    (s : imgst_file) :
    blobs_kept n s.file (write_image_end_of_imgst index res buffer size s).2.file := by
  rw [write_image_end_of_imgst_file]
  exact fwrite_blobs_kept buffer size 1 (fseek_end s.file) n (Or.inr (le_refl _))

theorem lazily_resize_blobs_kept (env : Env) (res : Int) (s : imgst_file) (index : Nat)
    (hn : s.header.max_files ≤ MAX_MAX_FILES) :
    blobs_kept (blob_start s) s.file (lazily_resize env res s index).2.file := by
  have hl := load_image_from_imgst_blobs_kept index RES_ORIG ((s.metadata index).size RES_ORIG)
    (blob_start s) s
  unfold lazily_resize
  split
  · exact blobs_kept_refl _ _
  · rename_i hidx
    have hi : index < s.header.max_files := by
      by_contra hc
      exact hidx (Or.inr (Or.inr (Nat.le_of_not_lt hc)))
    split
    · exact blobs_kept_refl _ _
    · simp only []
      split
      · exact hl
      · split
        · exact hl
        · split
          · exact hl
          · rename_i buffer _
            have hw := write_image_end_of_imgst_blobs_kept index res.toNat buffer buffer.length
              (blob_start s) (load_image_from_imgst index RES_ORIG ((s.metadata index).size RES_ORIG) s).2.2
            split
            · exact blobs_kept_trans hl hw
            · refine blobs_kept_trans (blobs_kept_trans hl hw) ?_
              refine update_metadata_blobs_kept s _ _ ?_ index hi hn
              rfl

theorem do_read_blobs_kept (env : Env) (img_id : List Nat) (resolution : Int) (s : imgst_file)
    (hn : s.header.max_files ≤ MAX_MAX_FILES) :
    blobs_kept (blob_start s) s.file (do_read env img_id resolution s).2.2.file := by
  unfold do_read
  split
  · exact blobs_kept_refl _ _
  · split
    · exact blobs_kept_refl _ _
    · split
      · rename_i i _
        have hz : ∀ z : error_code × imgst_file,
            (z = lazily_resize env resolution s i ∨ z = (ERR_NONE, s)) →
            blobs_kept (blob_start s) s.file z.2.file := by
          intro z hz
          rcases hz with hz | hz
          · rw [hz]; exact lazily_resize_blobs_kept env resolution s i hn
          · rw [hz]; exact blobs_kept_refl _ _
        simp only []
        split
        · have h1 := hz _ (Or.inl rfl)
          split
          · exact h1
          · split
            · exact blobs_kept_trans h1 (load_image_from_imgst_blobs_kept _ _ _ _ _)
            · exact blobs_kept_trans h1 (load_image_from_imgst_blobs_kept _ _ _ _ _)
        · have h1 := hz _ (Or.inr rfl)
          split
          · exact h1
          · split
            · exact blobs_kept_trans h1 (load_image_from_imgst_blobs_kept _ _ _ _ _)
            · exact blobs_kept_trans h1 (load_image_from_imgst_blobs_kept _ _ _ _ _)
      · exact blobs_kept_refl _ _

theorem insert_blob_blobs_kept (buffer : List Nat) (size : Nat) (s : imgst_file) (i n : Nat) :
    blobs_kept n s.file (insert_blob buffer size s i).2.file := by
  unfold insert_blob
  simp only []
  split
  · have h := write_image_end_of_imgst_blobs_kept i RES_ORIG buffer size n
      (imgst_file.mk s.file s.header (set_size (set_size (set_offset (set_offset s.metadata i RES_SMALL 0)
        i RES_THUMB 0) i RES_SMALL 0) i RES_THUMB 0))
    exact h
  · exact blobs_kept_refl _ _

theorem insert_commit_blobs_kept (env : Env) (buffer : List Nat) (size : Nat) (s0 s : imgst_file)
    (i : Nat) (hi : i < s0.header.max_files) (hn : s0.header.max_files ≤ MAX_MAX_FILES) :
    blobs_kept (blob_start s0) s.file (insert_commit env buffer size s i).2.file := by
  unfold insert_commit
  simp only []
  have hh : blobs_kept (blob_start s0) s.file (update_header
    (count_image (mark_valid s i) i (get_resolution env buffer size).2.1
      (get_resolution env buffer size).2.2)).2.file := update_header_blobs_kept s0 _ _ rfl
  split
  · exact blobs_kept_refl _ _
  · split
    · exact hh
    · refine blobs_kept_trans hh ?_
      exact update_metadata_blobs_kept s0 _ _ rfl i hi hn

theorem do_insert_blobs_kept (env : Env) (buffer : List Nat) (size : Nat) (img_id : List Nat)
    (s : imgst_file) (hn : s.header.max_files ≤ MAX_MAX_FILES) :
    blobs_kept (blob_start s) s.file (do_insert env buffer size img_id s).2.file := by
  unfold do_insert
  split
  · exact blobs_kept_refl _ _
  · split
    · rename_i i hfi
      have hi : i < s.header.max_files := by
        have := (first_index_eq_some hfi).2.1
        rwa [Nat.zero_add] at this
      obtain ⟨hdf, hdh, _⟩ := do_name_and_content_dedup_frame (insert_candidate env buffer size img_id s i) i
      have hb := insert_blob_blobs_kept buffer size
        (do_name_and_content_dedup (insert_candidate env buffer size img_id s i) i).2 i (blob_start s)
      rw [hdf, insert_candidate_file] at hb
      have hc := insert_commit_blobs_kept env buffer size s (insert_blob buffer size
        (do_name_and_content_dedup (insert_candidate env buffer size img_id s i) i).2 i).2 i hi hn
      unfold do_insert_at
      simp only []
      split
      · rw [hdf, insert_candidate_file]
        exact blobs_kept_refl _ _
      · split
        · exact hb
        · exact blobs_kept_trans hb hc
    · exact blobs_kept_refl _ _

theorem do_delete_blobs_kept (img_id : List Nat) (s : imgst_file)
    (hn : s.header.max_files ≤ MAX_MAX_FILES) :
    blobs_kept (blob_start s) s.file (do_delete img_id s).2.file := by
  unfold do_delete
  split
  · exact blobs_kept_refl _ _
  · split
    · exact blobs_kept_refl _ _
    · rename_i index hfi
      have hi : index < s.header.max_files := by
        have := (first_index_eq_some hfi).2.1
        rwa [Nat.zero_add] at this
      have hu : blobs_kept (blob_start s) s.file (update_metadata (invalidate s index) index).2.file :=
        update_metadata_blobs_kept s (invalidate s index) _ rfl index hi hn
      simp only []
      split
      · exact hu
      · refine blobs_kept_trans hu ?_
        exact update_header_blobs_kept s _ _ rfl

theorem do_insert_max_files (env : Env) (buffer : List Nat) (size : Nat) (img_id : List Nat)
    (s : imgst_file) : (do_insert env buffer size img_id s).2.header.max_files = s.header.max_files := by
  unfold do_insert
  split
  · rfl
  · split
    · exact (do_insert_at_keys env buffer size img_id s _).1
    · rfl

/-- C14. Blob immutability (append-only): in a store whose capacity is at most
`MAX_MAX_FILES`, each of `do_insert`, `do_delete`, `do_read` and `lazily_resize`,
whatever it returns, leaves a file that is at least as long as before and in
which every byte that was at an offset at or after `sizeof(header) + max_files *
sizeof(slot)` has kept its value: header and slot writes end before that
offset and blob writes start at the old end of the file. The capacity, hence
that offset, is the same after the call. -/
theorem blob_immutability (env : Env) (s : imgst_file) (hn : s.header.max_files ≤ MAX_MAX_FILES) :
    (∀ buffer size img_id,
      blobs_kept (blob_start s) s.file (do_insert env buffer size img_id s).2.file ∧
      (do_insert env buffer size img_id s).2.header.max_files = s.header.max_files) ∧
    (∀ img_id,
      blobs_kept (blob_start s) s.file (do_delete img_id s).2.file ∧
      (do_delete img_id s).2.header.max_files = s.header.max_files) ∧
    (∀ img_id resolution,
      blobs_kept (blob_start s) s.file (do_read env img_id resolution s).2.2.file ∧
      (do_read env img_id resolution s).2.2.header.max_files = s.header.max_files) ∧
    (∀ res index,
      blobs_kept (blob_start s) s.file (lazily_resize env res s index).2.file ∧
      (lazily_resize env res s index).2.header.max_files = s.header.max_files) :=
  ⟨fun buffer size img_id =>
      ⟨do_insert_blobs_kept env buffer size img_id s hn, do_insert_max_files env buffer size img_id s⟩,
    fun img_id => ⟨do_delete_blobs_kept img_id s hn, (do_delete_keys img_id s).1⟩,
    fun img_id resolution =>
      ⟨do_read_blobs_kept env img_id resolution s hn, by rw [(do_read_frame env img_id resolution s).1]⟩,
    fun res index =>
      ⟨lazily_resize_blobs_kept env res s index hn, by rw [(lazily_resize_frame env res s index).1]⟩⟩

set_option maxRecDepth 100000 in
/-- C14, at a concrete input: the store that holds "pic1" and "pic2". -/
theorem blob_immutability_witness :
    two_store.header.max_files ≤ MAX_MAX_FILES ∧
    (∀ buffer size img_id,
      blobs_kept (blob_start two_store) two_store.file
        (do_insert sample_env buffer size img_id two_store).2.file ∧
      (do_insert sample_env buffer size img_id two_store).2.header.max_files
        = two_store.header.max_files) ∧
    (∀ img_id,
      blobs_kept (blob_start two_store) two_store.file (do_delete img_id two_store).2.file ∧
      (do_delete img_id two_store).2.header.max_files = two_store.header.max_files) ∧
    (∀ img_id resolution,
      blobs_kept (blob_start two_store) two_store.file
        (do_read sample_env img_id resolution two_store).2.2.file ∧
      (do_read sample_env img_id resolution two_store).2.2.header.max_files
        = two_store.header.max_files) ∧
    (∀ res index,
      blobs_kept (blob_start two_store) two_store.file
        (lazily_resize sample_env res two_store index).2.file ∧
      (lazily_resize sample_env res two_store index).2.header.max_files
        = two_store.header.max_files) :=
  ⟨by decide, blob_immutability sample_env two_store (by decide)⟩

/-! ## Materialisation of a derived resolution -/

/-- A successful `write_image_end_of_imgst` appends the first `size` bytes of the
buffer to the file and records the old length of the file, converted to
`int`, as the offset. -/
theorem write_image_end_of_imgst_success (index res : Nat) (buffer : List Nat) (size : Nat)
    (s : imgst_file) (h : (write_image_end_of_imgst index res buffer size s).1 = ERR_NONE) :
    (write_image_end_of_imgst index res buffer size s).2.metadata =
      set_offset s.metadata index res (to_uint64 (to_int s.file.len)) ∧
    (write_image_end_of_imgst index res buffer size s).2.header = s.header ∧
    (write_image_end_of_imgst index res buffer size s).2.file.len =
      s.file.len + (buffer.take size).length ∧
    (write_image_end_of_imgst index res buffer size s).2.file.faults = s.file.faults.tail ∧
    ∀ k, (write_image_end_of_imgst index res buffer size s).2.file.at k =
      if s.file.len ≤ k ∧ k < s.file.len + (buffer.take size).length then
        (buffer.take size).getD (k - s.file.len) 0
      else s.file.at k := by
  unfold write_image_end_of_imgst at h ⊢
  simp only [] at h ⊢
  split at h
  · cases h
  · rename_i h1
    rw [if_neg h1]
    have h0 : (fwrite buffer size 1 (fseek_end s.file)).1 ≠ 0 := by
      intro h0
      rw [h0] at h1
      exact h1 (by decide)
    obtain ⟨hl, _, hf, ha⟩ := fwrite_ok_file buffer size 1 (fseek_end s.file) h0
    rw [Nat.mul_one] at hl ha
    refine ⟨rfl, rfl, ?_, hf, fun k => ?_⟩
    · show (fwrite buffer size 1 (fseek_end s.file)).2.len = _
      rw [hl]
      simp [FILE.put, fseek_end]
    · show (fwrite buffer size 1 (fseek_end s.file)).2.at k = _
      rw [ha, put_at]
      rfl

/-- A successful `update_metadata` stores the record of the slot at its place
in the table, for an index below `MAX_MAX_FILES`. -/
theorem update_metadata_success (s : imgst_file) (index : Nat) (hi : index < MAX_MAX_FILES)
    (h : (update_metadata s index).1 = ERR_NONE) :
    (update_metadata s index).2.metadata = s.metadata ∧
    (update_metadata s index).2.header = s.header ∧
    (update_metadata s index).2.file.len =
      max s.file.len (sizeof_imgst_header + index * sizeof_img_metadata + sizeof_img_metadata) ∧
    (update_metadata s index).2.file.faults = s.file.faults.tail ∧
    ∀ k, (update_metadata s index).2.file.at k =
      if sizeof_imgst_header + index * sizeof_img_metadata ≤ k ∧
          k < sizeof_imgst_header + index * sizeof_img_metadata + sizeof_img_metadata then
        (metadata_bytes (s.metadata index)).getD (k - (sizeof_imgst_header + index * sizeof_img_metadata)) 0
      else s.file.at k := by
  have hsmall : sizeof_imgst_header + index * sizeof_img_metadata < 2 ^ 31 := by
    simp only [sizeof_imgst_header, sizeof_img_metadata, MAX_MAX_FILES] at *
    omega
  obtain ⟨hm, hh⟩ := update_metadata_frame s index
  refine ⟨hm, hh, ?_⟩
  rw [update_metadata_file, to_int_of_lt _ hsmall]
  have h0 : (fwrite (metadata_bytes (s.metadata index)) sizeof_img_metadata 1
      (fseek_set s.file ((sizeof_imgst_header + index * sizeof_img_metadata : Nat) : Int))).1 ≠ 0 := by
    intro h0
    unfold update_metadata at h
    simp only [] at h
    rw [to_int_of_lt _ hsmall, h0] at h
    simp at h
  obtain ⟨hl, _, hf, ha⟩ := fwrite_ok_file _ _ _ _ h0
  have htake : (metadata_bytes (s.metadata index)).take (sizeof_img_metadata * 1)
      = metadata_bytes (s.metadata index) := by
    apply List.take_of_length_le
    rw [metadata_bytes_length]
    decide
  rw [htake] at hl ha
  refine ⟨?_, ?_, fun k => ?_⟩
  · rw [hl]
    simp only [FILE.put, fseek_set_pos, fseek_set_len, metadata_bytes_length]
  · rw [hf, fseek_set_faults]
  · rw [ha, put_at, fseek_set_pos, metadata_bytes_length, fseek_set_at]

/-- What a successful `lazily_resize` does for a derived resolution whose offset
is 0 in the slot. -/
theorem lazily_resize_success (env : Env) (res : Nat) (s : imgst_file) (index : Nat)
    (hres : res = RES_THUMB ∨ res = RES_SMALL) (h0 : (s.metadata index).offset res = 0)
    (hmax : s.header.max_files ≤ MAX_MAX_FILES)
    (hok : (lazily_resize env res s index).1 = ERR_NONE) :
    ∃ buffer,
      index < s.header.max_files ∧
      (load_image_from_imgst index RES_ORIG ((s.metadata index).size RES_ORIG) s).1 = ERR_NONE ∧
      env.vips_resize_jpegsave
        (load_image_from_imgst index RES_ORIG ((s.metadata index).size RES_ORIG) s).2.1
        (s.header.res_resized (2 * res)) (s.header.res_resized (2 * res + 1)) = some buffer ∧
      (lazily_resize env res s index).2.metadata =
        set_size (set_offset s.metadata index res (to_uint64 (to_int s.file.len))) index res
          (to_uint32 buffer.length) ∧
      (lazily_resize env res s index).2.header = s.header ∧
      (lazily_resize env res s index).2.file.len =
        max (s.file.len + buffer.length)
          (sizeof_imgst_header + index * sizeof_img_metadata + sizeof_img_metadata) ∧
      ∀ k, (lazily_resize env res s index).2.file.at k =
        if sizeof_imgst_header + index * sizeof_img_metadata ≤ k ∧
            k < sizeof_imgst_header + index * sizeof_img_metadata + sizeof_img_metadata then
          (metadata_bytes ((lazily_resize env res s index).2.metadata index)).getD
            (k - (sizeof_imgst_header + index * sizeof_img_metadata)) 0
        else if s.file.len ≤ k ∧ k < s.file.len + buffer.length then buffer.getD (k - s.file.len) 0
        else s.file.at k := by
  have hcast : ((res : Nat) : Int).toNat = res := Int.toNat_natCast res
  obtain ⟨hlm, hlh⟩ := load_image_from_imgst_frame index RES_ORIG ((s.metadata index).size RES_ORIG) s
  obtain ⟨hll, hlf, hla⟩ := load_image_from_imgst_file index RES_ORIG ((s.metadata index).size RES_ORIG) s
  unfold lazily_resize at hok ⊢
  split at hok
  · cases hok
  · rename_i hc
    rw [if_neg hc]
    have hi : index < s.header.max_files := by
      by_contra hi
      exact hc (Or.inr (Or.inr (Nat.le_of_not_lt hi)))
    split at hok
    · rename_i hc2
      exfalso
      rcases hc2 with hc2 | hc2
      · rcases hres with hres | hres <;> rw [hres] at hc2 <;> exact absurd hc2 (by decide)
      · rw [hcast] at hc2
        exact hc2 h0
    · rename_i hc2
      rw [if_neg hc2]
      simp only [] at hok ⊢
      split at hok
      · rename_i hl
        exact absurd hok hl
      · rename_i hl
        rw [if_neg hl]
        split at hok
        · cases hok
        · rename_i xy hdec
          try rw [hdec]
          try simp only []
          split at hok
          · cases hok
          · rename_i buffer hbuf
            rw [hcast] at hbuf hok ⊢
            try rw [hbuf]
            try simp only []
            split at hok
            · rename_i hw
              exact absurd hok hw
            · rename_i hw
              rw [if_neg hw]
              have hw1 : (write_image_end_of_imgst index res buffer buffer.length
                  (load_image_from_imgst index RES_ORIG ((s.metadata index).size RES_ORIG) s).2.2).1
                  = ERR_NONE := by
                by_contra hne
                exact hw hne
              obtain ⟨wm, wh, wl, _, wa⟩ := write_image_end_of_imgst_success index res buffer buffer.length _ hw1
              obtain ⟨um, uh, ul, _, ua⟩ := update_metadata_success _ index
                (lt_of_lt_of_le hi hmax) hok
              rw [List.take_length] at wl wa
              refine ⟨buffer, hi, by_contra (fun hne => hl hne), rfl, ?_, ?_, ?_, fun k => ?_⟩
              · rw [um]
                simp only []
                rw [wm, hlm, hll]
              · rw [uh]
                simp only []
                rw [wh, hlh]
              · rw [ul]
                simp only []
                rw [wl, hll]
              · rw [ua, um]
                simp only []
                split
                · rfl
                · rw [wa, hll]
                  split
                  · rfl
                  · exact hla k

theorem to_uint64_to_int_of_lt (n : Nat) (h : n < 2 ^ 31) : to_uint64 (to_int n) = n := by
  rw [to_int_of_lt n h]
  unfold to_uint64
  have h2 : ((n : Int)) % 2 ^ 64 = (n : Int) := Int.emod_eq_of_lt (by omega) (by omega)
  rw [h2]
  exact Int.toNat_natCast n

set_option maxRecDepth 100000 in
/-- C11, at an input where the claim fails: in the store that holds `jpeg_a`
under "pic1", whose slot 0 has no image in the resolution RES_SMALL,
`lazily_resize` succeeds and records the offset 500 in the slot, and the
version of the header is the same after the call as before, in memory and in
the 64 bytes of the header in the file. -/
theorem lazily_resize_keeps_version :
    (half_store.metadata 0).is_valid = NON_EMPTY ∧
    (half_store.metadata 0).offset RES_SMALL = 0 ∧
    (lazily_resize sample_env RES_SMALL half_store 0).1 = ERR_NONE ∧
    ((lazily_resize sample_env RES_SMALL half_store 0).2.metadata 0).offset RES_SMALL = 500 ∧
    (lazily_resize sample_env RES_SMALL half_store 0).2.header.imgst_version
      = half_store.header.imgst_version ∧
    (List.range 64).map (lazily_resize sample_env RES_SMALL half_store 0).2.file.at
      = (List.range 64).map half_store.file.at := by
  decide

/-- C11, amended. For a slot below a capacity of at most `MAX_MAX_FILES`, in a
file that holds the whole slot table, and a derived resolution `res` (RES_THUMB
or RES_SMALL) whose offset is 0 in the slot, a successful `lazily_resize` appends
the resized image at the old end of the file, records in the slot the size of
that image and, as its offset, the old length of the file converted to `int`
(the old length itself below `2^31`), and stores the record of the slot in the
file; the header, with its version, is left as it was, in memory and in the file. -/
theorem lazily_resize_materialises (env : Env) (res : Nat) (s : imgst_file) (index : Nat)
    (hres : res = RES_THUMB ∨ res = RES_SMALL) (h0 : (s.metadata index).offset res = 0)
    (hmax : s.header.max_files ≤ MAX_MAX_FILES) (hlen : blob_start s ≤ s.file.len)
    (hok : (lazily_resize env res s index).1 = ERR_NONE) :
    ∃ buffer,
      env.vips_resize_jpegsave
        (load_image_from_imgst index RES_ORIG ((s.metadata index).size RES_ORIG) s).2.1
        (s.header.res_resized (2 * res)) (s.header.res_resized (2 * res + 1)) = some buffer ∧
      (lazily_resize env res s index).2.metadata =
        set_size (set_offset s.metadata index res (to_uint64 (to_int s.file.len))) index res
          (to_uint32 buffer.length) ∧
      (s.file.len < 2 ^ 31 →
        ((lazily_resize env res s index).2.metadata index).offset res = s.file.len) ∧
      (lazily_resize env res s index).2.header = s.header ∧
      (lazily_resize env res s index).2.file.len = s.file.len + buffer.length ∧
      (∀ k, k < buffer.length →
        (lazily_resize env res s index).2.file.at (s.file.len + k) = buffer.getD k 0) ∧
      (∀ k, k < sizeof_img_metadata →
        (lazily_resize env res s index).2.file.at (sizeof_imgst_header + index * sizeof_img_metadata + k)
          = (metadata_bytes ((lazily_resize env res s index).2.metadata index)).getD k 0) ∧
      (∀ k, k < sizeof_imgst_header → (lazily_resize env res s index).2.file.at k = s.file.at k) := by
  obtain ⟨buffer, hi, _, hbuf, hm, hh, hl, ha⟩ := lazily_resize_success env res s index hres h0 hmax hok
  have hslot : sizeof_imgst_header + index * sizeof_img_metadata + sizeof_img_metadata ≤ s.file.len := by
    unfold blob_start at hlen
    simp only [sizeof_imgst_header, sizeof_img_metadata] at *
    omega
  refine ⟨buffer, hbuf, hm, fun hlt => ?_, hh, ?_, fun k hk => ?_, fun k hk => ?_, fun k hk => ?_⟩
  · rw [hm, to_uint64_to_int_of_lt _ hlt]
    simp [set_size, set_offset]
  · rw [hl]
    exact max_eq_left (by omega)
  · rw [ha, if_neg (by omega), if_pos (by omega)]
    congr 1
    omega
  · rw [ha, if_pos (by omega)]
    congr 1
    omega
  · rw [ha, if_neg (by simp only [sizeof_imgst_header] at *; omega),
      if_neg (by simp only [sizeof_imgst_header, sizeof_img_metadata] at *; omega)]

set_option maxRecDepth 100000 in
/-- C11, amended, at a concrete input: the resolution RES_SMALL of the slot 0 of
the store that holds `jpeg_a` under "pic1". -/
theorem lazily_resize_materialises_witness :
    ((RES_SMALL = RES_THUMB ∨ RES_SMALL = RES_SMALL) ∧ (half_store.metadata 0).offset RES_SMALL = 0 ∧
      half_store.header.max_files ≤ MAX_MAX_FILES ∧ blob_start half_store ≤ half_store.file.len ∧
      (lazily_resize sample_env RES_SMALL half_store 0).1 = ERR_NONE) ∧
    ∃ buffer,
      sample_env.vips_resize_jpegsave
        (load_image_from_imgst 0 RES_ORIG ((half_store.metadata 0).size RES_ORIG) half_store).2.1
        (half_store.header.res_resized (2 * RES_SMALL))
        (half_store.header.res_resized (2 * RES_SMALL + 1)) = some buffer ∧
      (lazily_resize sample_env RES_SMALL half_store 0).2.metadata =
        set_size (set_offset half_store.metadata 0 RES_SMALL (to_uint64 (to_int half_store.file.len)))
          0 RES_SMALL (to_uint32 buffer.length) ∧
      (half_store.file.len < 2 ^ 31 →
        ((lazily_resize sample_env RES_SMALL half_store 0).2.metadata 0).offset RES_SMALL
          = half_store.file.len) ∧
      (lazily_resize sample_env RES_SMALL half_store 0).2.header = half_store.header ∧
      (lazily_resize sample_env RES_SMALL half_store 0).2.file.len = half_store.file.len + buffer.length ∧
      (∀ k, k < buffer.length →
        (lazily_resize sample_env RES_SMALL half_store 0).2.file.at (half_store.file.len + k)
          = buffer.getD k 0) ∧
      (∀ k, k < sizeof_img_metadata →
        (lazily_resize sample_env RES_SMALL half_store 0).2.file.at
            (sizeof_imgst_header + 0 * sizeof_img_metadata + k)
          = (metadata_bytes ((lazily_resize sample_env RES_SMALL half_store 0).2.metadata 0)).getD k 0) ∧
      (∀ k, k < sizeof_imgst_header →
        (lazily_resize sample_env RES_SMALL half_store 0).2.file.at k = half_store.file.at k) :=
  ⟨⟨by decide, by decide, by decide, by decide, by decide⟩,
    lazily_resize_materialises sample_env RES_SMALL half_store 0 (by decide) (by decide) (by decide)
      (by decide) (by decide)⟩

/-! ## Reading a derived resolution twice -/

/-- The function `lazily_resize` does nothing and returns ERR_NONE for the
original resolution and for a resolution whose offset in the slot is not 0,
when the resolution and the index are valid. -/
theorem lazily_resize_no_op (env : Env) (res : Int) (s : imgst_file) (index : Nat)
    (h1 : (RES_THUMB : Int) ≤ res) (h2 : res ≤ RES_ORIG) (hi : index < s.header.max_files)
    (h : res = RES_ORIG ∨ (s.metadata index).offset res.toNat ≠ 0) :
    lazily_resize env res s index = (ERR_NONE, s) := by
  unfold lazily_resize
  rw [if_neg (by
    intro hc
    rcases hc with hc | hc | hc
    · exact absurd h1 (not_le.mpr hc)
    · exact absurd h2 (not_le.mpr hc)
    · exact absurd hi (not_lt.mpr hc)), if_pos h]

set_option maxRecDepth 100000 in
/-- C12, at a failing input. In the store that holds `jpeg_a` under "pic1" and
whose file is `2^32` bytes long, the first `do_read` of "pic1" in the
resolution RES_SMALL returns ERR_NONE, appends the resized image at the offset
`2^32` and records the offset 0; the second one finds the offset 0, appends
the image again, changes the slot and returns other bytes. -/
theorem second_read_small_appends :
    (do_read sample_env pic1 RES_SMALL four_gib_store).1 = ERR_NONE ∧
    (do_read sample_env pic1 RES_SMALL four_gib_store).2.1 = some ([69, 80, 70, 76], 4) ∧
    four_gib_read_store.file.len = 2 ^ 32 + 4 ∧
    (four_gib_read_store.metadata 0).offset RES_SMALL = 0 ∧
    (do_read sample_env pic1 RES_SMALL four_gib_read_store).1 = ERR_NONE ∧
    (do_read sample_env pic1 RES_SMALL four_gib_read_store).2.1 = some ([32, 73, 109, 103], 4) ∧
    (do_read sample_env pic1 RES_SMALL four_gib_read_store).2.2.file.len = 2 ^ 32 + 8 ∧
    ((do_read sample_env pic1 RES_SMALL four_gib_read_store).2.2.metadata 0).offset RES_SMALL = 4 := by
  decide

/-! ## The version counter -/

theorem insert_commit_version (env : Env) (buffer : List Nat) (size : Nat) (s : imgst_file) (i : Nat) :
    (insert_commit env buffer size s i).2.header.imgst_version = s.header.imgst_version ∨
    (insert_commit env buffer size s i).2.header.imgst_version
      = to_uint32 (s.header.imgst_version + 1) := by
  unfold insert_commit
  simp only []
  split
  · left; rfl
  · split
    · right
      rw [(update_header_frame _).2]
      rfl
    · right
      rw [(update_metadata_frame _ _).2, (update_header_frame _).2]
      rfl

theorem do_insert_version (env : Env) (buffer : List Nat) (size : Nat) (img_id : List Nat)
    (s : imgst_file) :
    (do_insert env buffer size img_id s).2.header.imgst_version = s.header.imgst_version ∨
    (do_insert env buffer size img_id s).2.header.imgst_version
      = to_uint32 (s.header.imgst_version + 1) := by
  unfold do_insert
  split
  · left; rfl
  · split
    · rename_i i _
      obtain ⟨_, hdh, _⟩ := do_name_and_content_dedup_frame (insert_candidate env buffer size img_id s i) i
      have hbh := (insert_blob_frame buffer size
        (do_name_and_content_dedup (insert_candidate env buffer size img_id s i) i).2 i).1
      have hc := insert_commit_version env buffer size (insert_blob buffer size
        (do_name_and_content_dedup (insert_candidate env buffer size img_id s i) i).2 i).2 i
      rw [hbh, hdh, insert_candidate_header] at hc
      unfold do_insert_at
      simp only []
      split
      · left; rw [hdh, insert_candidate_header]
      · split
        · left; rw [hbh, hdh, insert_candidate_header]
        · exact hc
    · left; rfl

theorem do_delete_version (img_id : List Nat) (s : imgst_file) :
    (do_delete img_id s).2.header.imgst_version = s.header.imgst_version ∨
    (do_delete img_id s).2.header.imgst_version = to_uint32 (s.header.imgst_version + 1) := by
  unfold do_delete
  split
  · left; rfl
  · split
    · left; rfl
    · simp only []
      split
      · left
        rw [(update_metadata_frame _ _).2]
        rfl
      · right
        rw [(update_header_frame _).2]
        simp only [uncount_image]
        rw [(update_metadata_frame _ _).2]
        rfl

theorem le_of_eq_or_succ (v w : Nat) (hv : v < 2 ^ 32 - 1) (h : w = v ∨ w = to_uint32 (v + 1)) :
    v ≤ w := by
  rcases h with h | h
  · omega
  · rw [h]
    unfold to_uint32
    rw [Nat.mod_eq_of_lt (by omega)]
    omega

set_option maxRecDepth 100000 in
/-- C18, at an input where the claim fails: the store `deleted_store` has seen
two insertions and a deletion, and its version is 3; `do_gbcollect` returns
ERR_NONE and leaves a store whose version is 1, in memory and in the file. -/
theorem gbcollect_restarts_version :
    ((do_open (some deleted_store.file)).toOption.map (fun o => o.header.imgst_version)) = some 3 ∧
    (do_gbcollect sample_env (some deleted_store.file) (some [])).1 = ERR_NONE ∧
    (do_gbcollect sample_env (some deleted_store.file) (some [])).2.2.map
      (fun t => t.header.imgst_version) = some 1 ∧
    ((do_open (do_gbcollect sample_env (some deleted_store.file) (some [])).2.1).toOption.map
      (fun o => o.header.imgst_version)) = some 1 := by
  decide

/-- C18, amended. The version counter is monotonic across the operations on an
open store: for a version below `2^32 - 1`, the version after `do_insert` and
after `do_delete` is the version before or that version plus one, hence at least
the version before, and `do_read` and `lazily_resize` leave the version as it
is, whatever the calls return. -/
theorem version_monotonic (env : Env) (s : imgst_file) (hv : s.header.imgst_version < 2 ^ 32 - 1) :
    (∀ buffer size img_id,
      s.header.imgst_version ≤ (do_insert env buffer size img_id s).2.header.imgst_version ∧
      (do_insert env buffer size img_id s).2.header.imgst_version ≤ s.header.imgst_version + 1) ∧
    (∀ img_id,
      s.header.imgst_version ≤ (do_delete img_id s).2.header.imgst_version ∧
      (do_delete img_id s).2.header.imgst_version ≤ s.header.imgst_version + 1) ∧
    (∀ img_id resolution,
      (do_read env img_id resolution s).2.2.header.imgst_version = s.header.imgst_version) ∧
    (∀ res index,
      (lazily_resize env res s index).2.header.imgst_version = s.header.imgst_version) := by
  have hup : ∀ w, (w = s.header.imgst_version ∨ w = to_uint32 (s.header.imgst_version + 1)) →
      s.header.imgst_version ≤ w ∧ w ≤ s.header.imgst_version + 1 := by
    intro w h
    refine ⟨le_of_eq_or_succ _ _ hv h, ?_⟩
    rcases h with h | h
    · omega
    · rw [h]
      exact Nat.mod_le _ _
  exact ⟨fun buffer size img_id => hup _ (do_insert_version env buffer size img_id s),
    fun img_id => hup _ (do_delete_version img_id s),
    fun img_id resolution => by rw [(do_read_frame env img_id resolution s).1],
    fun res index => by rw [(lazily_resize_frame env res s index).1]⟩

set_option maxRecDepth 100000 in
/-- C18, amended, at a concrete input: the store that holds "pic1" and "pic2". -/
theorem version_monotonic_witness :
    two_store.header.imgst_version < 2 ^ 32 - 1 ∧
    (∀ buffer size img_id,
      two_store.header.imgst_version
        ≤ (do_insert sample_env buffer size img_id two_store).2.header.imgst_version ∧
      (do_insert sample_env buffer size img_id two_store).2.header.imgst_version
        ≤ two_store.header.imgst_version + 1) ∧
    (∀ img_id,
      two_store.header.imgst_version ≤ (do_delete img_id two_store).2.header.imgst_version ∧
      (do_delete img_id two_store).2.header.imgst_version ≤ two_store.header.imgst_version + 1) ∧
    (∀ img_id resolution,
      (do_read sample_env img_id resolution two_store).2.2.header.imgst_version
        = two_store.header.imgst_version) ∧
    (∀ res index,
      (lazily_resize sample_env res two_store index).2.header.imgst_version
        = two_store.header.imgst_version) :=
  ⟨by decide, version_monotonic sample_env two_store (by decide)⟩

/-! ## Garbage collection -/

set_option maxRecDepth 100000 in
/-- C16, at a failing input. The store of capacity 2 in which `jpeg_a` has been
inserted as "pic1", read in the resolution RES_THUMB and deleted has no
NON_EMPTY slot and a file of 504 bytes. When the temporary store is created,
`do_gbcollect` leaves a file of `64 + 2 * 216` bytes. When `fopen` fails in
`do_create`, and when the write of the slot table fails in `do_create`,
`do_gbcollect` returns ERR_NONE all the same: in the first case no file is
left under the name of the store, in the second case a file of 64 bytes. -/
theorem gbcollect_without_temporary_store :
    thumb_deleted_store.header.max_files = 2 ∧
    thumb_deleted_store.file.len = 504 ∧
    (∀ i, i < 2 → (thumb_deleted_store.metadata i).is_valid = EMPTY) ∧
    (do_gbcollect sample_env (some thumb_deleted_store.file) (some [])).1 = ERR_NONE ∧
    (do_gbcollect sample_env (some thumb_deleted_store.file) (some [])).2.1.map (fun f => f.len)
      = some (sizeof_imgst_header + 2 * sizeof_img_metadata) ∧
    (do_gbcollect sample_env (some thumb_deleted_store.file) none).1 = ERR_NONE ∧
    (do_gbcollect sample_env (some thumb_deleted_store.file) none).2.1.map (fun f => f.len) = none ∧
    (do_gbcollect sample_env (some thumb_deleted_store.file) (some [false, true])).1 = ERR_NONE ∧
    (do_gbcollect sample_env (some thumb_deleted_store.file) (some [false, true])).2.1.map
      (fun f => f.len) = some 64 := by
  decide

set_option maxRecDepth 100000 in
/-- C17, at a failing input. In a store of capacity 4, `jpeg_a` is inserted as
"pic1" and as "pic2", "pic1" is read in the resolution RES_SMALL, `jpeg_a` is
inserted as "pic3" and as "pic4", which take over the offsets of "pic1", and
"pic1" is deleted: the file is 936 bytes long and holds one original image and
one small image, which "pic3" and "pic4" share. `do_gbcollect` returns ERR_NONE
and leaves a file of 940 bytes: "pic3" and "pic4" now take over the offsets of
"pic2", which has no small image, and `lazily_resize` writes one small image
for each of them. -/
theorem gbcollect_grows_file :
    Reachable sample_env trio_store ∧
    trio_store.file.len = 936 ∧
    (trio_store.metadata 2).offset RES_SMALL = 932 ∧
    (trio_store.metadata 3).offset RES_SMALL = 932 ∧
    (do_gbcollect sample_env (some trio_store.file) (some [])).1 = ERR_NONE ∧
    (do_gbcollect sample_env (some trio_store.file) (some [])).2.1.map (fun f => f.len) = some 940 ∧
    (do_gbcollect sample_env (some trio_store.file) (some [])).2.2.map
      (fun t => ((t.metadata 1).offset RES_SMALL, (t.metadata 2).offset RES_SMALL)) = some (932, 936) :=
  ⟨Reachable.delete _ _ (Reachable.insert _ _ _ _ (Reachable.insert _ _ _ _ (Reachable.read _ _ _
      (Reachable.insert _ _ _ _ (Reachable.insert _ _ _ _ (created_store_reachable _ 4)))))),
    by decide, by decide, by decide, by decide, by decide, by decide⟩

/-! ## The donor of a deduplicated image -/

theorem strncmp_trans (a b c : List Nat) (n : Nat) :
    strncmp a b n = 0 → strncmp b c n = 0 → strncmp a c n = 0 := by
  induction n generalizing a b c with
  | zero => intro _ _; simp [strncmp]
  | succ n ih =>
    intro h1 h2
    rw [strncmp_succ] at h1 h2 ⊢
    by_cases hab : a.headD 0 = b.headD 0
    · by_cases hbc : b.headD 0 = c.headD 0
      · rw [if_neg (fun h => h hab)] at h1
        rw [if_neg (fun h => h hbc)] at h2
        rw [if_neg (fun h => h (hab.trans hbc))]
        by_cases hz : a.headD 0 = 0
        · rw [if_pos hz]
        · rw [if_neg hz] at h1
          rw [if_neg (by rw [← hab]; exact hz)] at h2
          rw [if_neg hz]
          exact ih _ _ _ h1 h2
      · rw [if_pos hbc] at h2
        exfalso; apply hbc; omega
    · rw [if_pos hab] at h1
      exfalso; apply hab; omega

theorem compare_sha_symm (a b : List Nat) : compare_sha a b = 0 → compare_sha b a = 0 :=
  strncmp_symm _ _ _

theorem compare_sha_trans (a b c : List Nat) :
    compare_sha a b = 0 → compare_sha b c = 0 → compare_sha a c = 0 :=
  strncmp_trans _ _ _ _

/-- Once `index_duplicate` is set, the loop of `do_name_and_content_dedup`
changes neither it nor the metadata. -/
theorem dedup_loop_some (index n i d : Nat) (md : Nat → img_metadata) :
    (dedup_loop index n i (some d) md).2 = (some d, md) := by
  induction n generalizing i with
  | zero => rfl
  | succ n ih =>
    unfold dedup_loop
    split
    · split
      · rfl
      · rw [if_neg (by simp)]
        exact ih _
    · exact ih _

/-- The loop of `do_name_and_content_dedup`, started without a duplicate: either
it leaves the metadata as it is, or it copies the offsets and sizes of a
NON_EMPTY slot with the same SHA, the first one that it meets. -/
theorem dedup_loop_donor (index n i : Nat) (md : Nat → img_metadata) :
    (dedup_loop index n i none md).2 = (none, md) ∨
    ∃ d, i ≤ d ∧ d < i + n ∧ d ≠ index ∧ (md d).is_valid = NON_EMPTY ∧
      compare_sha (md d).SHA (md index).SHA = 0 ∧
      (dedup_loop index n i none md).2 = (some d, copy_offsets_sizes md index d) := by
  induction n generalizing i with
  | zero => left; rfl
  | succ n ih =>
    unfold dedup_loop
    split
    · rename_i hv
      split
      · left; rfl
      · split
        · rename_i hs
          right
          exact ⟨i, le_refl _, by omega, hv.1, hv.2, hs.2, dedup_loop_some _ _ _ _ _⟩
        · rcases ih (i + 1) with h | ⟨d, h1, h2, h3, h4, h5, h6⟩
          · left; exact h
          · right; exact ⟨d, by omega, by omega, h3, h4, h5, h6⟩
    · rcases ih (i + 1) with h | ⟨d, h1, h2, h3, h4, h5, h6⟩
      · left; exact h
      · right; exact ⟨d, by omega, by omega, h3, h4, h5, h6⟩

/-- The metadata that `do_name_and_content_dedup` leaves when it returns
ERR_NONE. -/
theorem do_name_and_content_dedup_success (s : imgst_file) (index : Nat)
    (h : (do_name_and_content_dedup s index).1 = ERR_NONE) :
    index < s.header.max_files ∧
    ((do_name_and_content_dedup s index).2.metadata = set_offset s.metadata index RES_ORIG 0 ∨
    ∃ d, d < s.header.max_files ∧ d ≠ index ∧ (s.metadata d).is_valid = NON_EMPTY ∧
      compare_sha (s.metadata d).SHA (s.metadata index).SHA = 0 ∧
      (do_name_and_content_dedup s index).2.metadata = copy_offsets_sizes s.metadata index d) := by
  unfold do_name_and_content_dedup at h ⊢
  split at h
  · cases h
  · rename_i hi
    rw [if_neg hi]
    refine ⟨Nat.lt_of_not_le hi, ?_⟩
    simp only [] at h ⊢
    split at h
    · rename_i he
      exact absurd h he
    · rename_i he
      rw [if_neg he]
      rcases dedup_loop_donor index s.header.max_files 0 s.metadata with hd | ⟨d, _, h2, h3, h4, h5, h6⟩
      · left
        rw [hd]
        simp
      · right
        refine ⟨d, by omega, h3, h4, h5, ?_⟩
        rw [h6]
        simp

theorem insert_candidate_slot (env : Env) (buffer : List Nat) (size : Nat) (img_id : List Nat)
    (s : imgst_file) (i : Nat) :
    ((insert_candidate env buffer size img_id s i).metadata i).SHA = env.SHA256 (buffer.take size) ∧
    ((insert_candidate env buffer size img_id s i).metadata i).size RES_ORIG = to_uint32 size := by
  simp [insert_candidate, set_size]

theorem write_image_end_of_imgst_metadata (index res : Nat) (buffer : List Nat) (size : Nat)
    (s : imgst_file) :
    (write_image_end_of_imgst index res buffer size s).2.metadata = s.metadata ∨
    (write_image_end_of_imgst index res buffer size s).2.metadata =
      set_offset s.metadata index res (to_uint64 (to_int s.file.len)) := by
  unfold write_image_end_of_imgst
  simp only []
  split
  · left; rfl
  · right; rfl

/-- The slot `i` after `insert_blob`: when the original offset found is 0 the
offsets of the derived resolutions are reset to 0, otherwise they are the ones
found; the SHA and the original size are the ones found. -/
theorem insert_blob_slot (buffer : List Nat) (size : Nat) (s : imgst_file) (i : Nat) :
    ((insert_blob buffer size s i).2.metadata i).SHA = (s.metadata i).SHA ∧
    ((insert_blob buffer size s i).2.metadata i).size RES_ORIG = (s.metadata i).size RES_ORIG ∧
    ∀ res, res = RES_THUMB ∨ res = RES_SMALL →
      ((s.metadata i).offset RES_ORIG = 0 ∧
        ((insert_blob buffer size s i).2.metadata i).offset res = 0) ∨
      ((s.metadata i).offset RES_ORIG ≠ 0 ∧
        ((insert_blob buffer size s i).2.metadata i).offset res = (s.metadata i).offset res) := by
  unfold insert_blob
  simp only []
  split
  · rename_i h0
    rcases write_image_end_of_imgst_metadata i RES_ORIG buffer size
      (imgst_file.mk s.file s.header (set_size (set_size (set_offset (set_offset s.metadata i RES_SMALL 0)
        i RES_THUMB 0) i RES_SMALL 0) i RES_THUMB 0)) with h | h
    · rw [h]
      refine ⟨by simp [set_size, set_offset], by simp [set_size, set_offset, RES_ORIG, RES_SMALL, RES_THUMB],
        fun res hres => Or.inl ⟨h0, ?_⟩⟩
      rcases hres with hres | hres <;> rw [hres] <;>
        simp [set_size, set_offset, RES_ORIG, RES_SMALL, RES_THUMB]
    · rw [h]
      refine ⟨by simp [set_size, set_offset], by simp [set_size, set_offset, RES_ORIG, RES_SMALL, RES_THUMB],
        fun res hres => Or.inl ⟨h0, ?_⟩⟩
      rcases hres with hres | hres <;> rw [hres] <;>
        simp [set_size, set_offset, RES_ORIG, RES_SMALL, RES_THUMB]
  · rename_i h0
    exact ⟨rfl, rfl, fun _ _ => Or.inr ⟨h0, rfl⟩⟩

/-- The slot `i` after `do_insert_at`: either its validity flag is the one
found, or the slot is NON_EMPTY, holds the SHA of the image and, for the
original size and the offsets of the derived resolutions, either the size
given and 0, or the values of a NON_EMPTY slot `d` with the same SHA (the offsets
possibly reset to 0). -/
theorem do_insert_at_slot (env : Env) (buffer : List Nat) (size : Nat) (img_id : List Nat)
    (s : imgst_file) (i : Nat) :
    ((do_insert_at env buffer size img_id s i).2.metadata i).is_valid = (s.metadata i).is_valid ∨
    (((do_insert_at env buffer size img_id s i).2.metadata i).is_valid = NON_EMPTY ∧
      i < s.header.max_files ∧
      ((do_insert_at env buffer size img_id s i).2.metadata i).SHA = env.SHA256 (buffer.take size) ∧
      ((((do_insert_at env buffer size img_id s i).2.metadata i).size RES_ORIG = to_uint32 size ∧
          ∀ res, res = RES_THUMB ∨ res = RES_SMALL →
            ((do_insert_at env buffer size img_id s i).2.metadata i).offset res = 0) ∨
        ∃ d, d < s.header.max_files ∧ d ≠ i ∧ (s.metadata d).is_valid = NON_EMPTY ∧
          compare_sha (s.metadata d).SHA (env.SHA256 (buffer.take size)) = 0 ∧
          ((do_insert_at env buffer size img_id s i).2.metadata i).size RES_ORIG
            = (s.metadata d).size RES_ORIG ∧
          ∀ res, res = RES_THUMB ∨ res = RES_SMALL →
            ((do_insert_at env buffer size img_id s i).2.metadata i).offset res = 0 ∨
            ((do_insert_at env buffer size img_id s i).2.metadata i).offset res
              = (s.metadata d).offset res)) := by
  obtain ⟨_, hdh, off, sz, hdm⟩ :=
    do_name_and_content_dedup_frame (insert_candidate env buffer size img_id s i) i
  obtain ⟨hbh, off2, sz2, hbm⟩ := insert_blob_frame buffer size
    (do_name_and_content_dedup (insert_candidate env buffer size img_id s i) i).2 i
  obtain ⟨hch, ro, hcm⟩ := insert_commit_frame env buffer size
    (insert_blob buffer size
      (do_name_and_content_dedup (insert_candidate env buffer size img_id s i) i).2 i).2 i
  obtain ⟨hb1, hb2, hb3⟩ := insert_blob_slot buffer size
    (do_name_and_content_dedup (insert_candidate env buffer size img_id s i) i).2 i
  obtain ⟨hs1, hs2⟩ := insert_candidate_slot env buffer size img_id s i
  have hva := insert_candidate_is_valid env buffer size img_id s i i
  unfold do_insert_at
  simp only []
  split
  · left
    rw [hdm]; simpa using hva
  · rename_i hd
    have hd1 : (do_name_and_content_dedup (insert_candidate env buffer size img_id s i) i).1 = ERR_NONE := by
      by_contra hne
      exact hd hne
    obtain ⟨hi, hcases⟩ := do_name_and_content_dedup_success _ i hd1
    rw [insert_candidate_header] at hi
    split
    · left
      rw [hbm, hdm]; simpa using hva
    · right
      refine ⟨by rw [hcm]; simp, hi, ?_, ?_⟩
      · rw [hcm]
        simp only [Function.update_same]
        rw [hb1]
        rcases hcases with hc | ⟨d, _, _, _, _, hc⟩
        · rw [hc]
          simpa [set_offset] using hs1
        · rw [hc]
          simpa [copy_offsets_sizes] using hs1
      · rcases hcases with hc | ⟨d, hd2, hd3, hd4, hd5, hc⟩
        · left
          constructor
          · rw [hcm]
            simp only [Function.update_same]
            rw [hb2, hc]
            simpa [set_offset] using hs2
          · intro res hres
            rw [hcm]
            simp only [Function.update_same]
            rcases hb3 res hres with ⟨_, h⟩ | ⟨h, _⟩
            · exact h
            · exfalso
              apply h
              rw [hc]
              simp [set_offset]
        · right
          have hother := insert_candidate_other env buffer size img_id s i d hd3
          rw [insert_candidate_header] at hd2
          rw [hother] at hd4 hd5
          rw [hs1] at hd5
          refine ⟨d, hd2, hd3, hd4, hd5, ?_, fun res hres => ?_⟩
          · rw [hcm]
            simp only [Function.update_same]
            rw [hb2, hc]
            simp [copy_offsets_sizes, hother]
          · rw [hcm]
            simp only [Function.update_same]
            rcases hb3 res hres with ⟨_, h⟩ | ⟨_, h⟩
            · left; exact h
            · right
              rw [h, hc]
              simp [copy_offsets_sizes, hother]

/-! ## Sharing of the derived resolutions -/

theorem derived_ok_same (s t : imgst_file) (h : derived_ok s) (hm : t.metadata = s.metadata)
    (hl : s.file.len ≤ t.file.len) : derived_ok t := by
  refine ⟨fun i res hv hres hnz => ?_, fun i j res hij hvi hvj hres he hnz => ?_⟩
  · rw [hm] at hv hnz ⊢
    exact lt_of_lt_of_le (h.1 i res hv hres hnz) hl
  · rw [hm] at hvi hvj he hnz ⊢
    exact h.2 i j res hij hvi hvj hres he hnz

theorem derived_ok_invalidate (s t : imgst_file) (h : derived_ok s) (index : Nat)
    (hm : t.metadata = Function.update s.metadata index { s.metadata index with is_valid := EMPTY })
    (hl : s.file.len ≤ t.file.len) : derived_ok t := by
  have hk : ∀ k, (t.metadata k).is_valid = NON_EMPTY →
      (s.metadata k).is_valid = NON_EMPTY ∧ t.metadata k = s.metadata k := by
    intro k hv
    rw [hm] at hv ⊢
    by_cases hki : k = index
    · subst hki
      rw [Function.update_same] at hv
      have hv0 : EMPTY = NON_EMPTY := hv
      exact absurd hv0 (by decide)
    · rw [Function.update_noteq hki] at hv ⊢
      exact ⟨hv, rfl⟩
  refine ⟨fun i res hv hres hnz => ?_, fun i j res hij hvi hvj hres he hnz => ?_⟩
  · obtain ⟨hv1, he1⟩ := hk i hv
    rw [he1] at hnz ⊢
    exact lt_of_lt_of_le (h.1 i res hv1 hres hnz) hl
  · obtain ⟨hv1, he1⟩ := hk i hvi
    obtain ⟨hv2, he2⟩ := hk j hvj
    rw [he1, he2] at he
    rw [he1] at hnz
    rw [he1, he2]
    exact h.2 i j res hij hv1 hv2 hres he hnz

theorem derived_ok_materialise (s t : imgst_file) (h : derived_ok s) (index res : Nat) (sz : Nat → Nat)
    (hres : res = RES_THUMB ∨ res = RES_SMALL)
    (hm : t.metadata = Function.update s.metadata index
      { s.metadata index with offset := Function.update (s.metadata index).offset res s.file.len, size := sz })
    (hl : s.file.len < t.file.len) : derived_ok t := by
  have hother : ∀ k, k ≠ index → t.metadata k = s.metadata k := by
    intro k hk
    rw [hm, Function.update_noteq hk]
  have hv : ∀ k, (t.metadata k).is_valid = (s.metadata k).is_valid := by
    intro k
    by_cases hk : k = index
    · subst hk; rw [hm]; simp
    · rw [hother k hk]
  have hsha : ∀ k, (t.metadata k).SHA = (s.metadata k).SHA := by
    intro k
    by_cases hk : k = index
    · subst hk; rw [hm]; simp
    · rw [hother k hk]
  have hoff : ∀ k r, (k ≠ index ∨ r ≠ res) → (t.metadata k).offset r = (s.metadata k).offset r := by
    intro k r hkr
    by_cases hk : k = index
    · subst hk
      rcases hkr with hkr | hkr
      · exact absurd rfl hkr
      · rw [hm]; simp [Function.update_noteq hkr]
    · rw [hother k hk]
  have hnew : (t.metadata index).offset res = s.file.len := by
    rw [hm]; simp
  refine ⟨fun i r hvi hr hnz => ?_, fun i j r hij hvi hvj hr he hnz => ?_⟩
  · by_cases hc : i = index ∧ r = res
    · obtain ⟨rfl, rfl⟩ := hc
      rw [hnew]; exact hl
    · have hc2 : i ≠ index ∨ r ≠ res := by
        by_contra hcc
        push_neg at hcc
        exact hc hcc
      rw [hoff i r hc2] at hnz ⊢
      rw [hv] at hvi
      exact lt_trans (h.1 i r hvi hr hnz) hl
  · rw [hv] at hvi hvj
    rw [hsha, hsha]
    by_cases hc : r = res
    · subst hc
      by_cases hi : i = index
      · subst hi
        rw [hnew, hoff j r (Or.inl (Ne.symm hij))] at he
        rw [hnew] at hnz
        have := h.1 j r hvj hr (by rw [← he]; exact hnz)
        omega
      · by_cases hj : j = index
        · subst hj
          rw [hnew, hoff i r (Or.inl hi)] at he
          rw [hoff i r (Or.inl hi)] at hnz
          have := h.1 i r hvi hr hnz
          omega
        · rw [hoff i r (Or.inl hi), hoff j r (Or.inl hj)] at he
          rw [hoff i r (Or.inl hi)] at hnz
          exact h.2 i j r hij hvi hvj hr he hnz
    · rw [hoff i r (Or.inr hc), hoff j r (Or.inr hc)] at he
      rw [hoff i r (Or.inr hc)] at hnz
      exact h.2 i j r hij hvi hvj hr he hnz

theorem derived_ok_insert (s t : imgst_file) (h : derived_ok s) (c : Nat)
    (hc : (s.metadata c).is_valid ≠ NON_EMPTY)
    (hother : ∀ k, k ≠ c → t.metadata k = s.metadata k)
    (hslot : (t.metadata c).is_valid = NON_EMPTY → ∀ res, res = RES_THUMB ∨ res = RES_SMALL →
      (t.metadata c).offset res = 0 ∨
      ∃ d, d ≠ c ∧ (s.metadata d).is_valid = NON_EMPTY ∧
        compare_sha (s.metadata d).SHA (t.metadata c).SHA = 0 ∧
        (t.metadata c).offset res = (s.metadata d).offset res)
    (hl : s.file.len ≤ t.file.len) : derived_ok t := by
  refine ⟨fun i r hvi hr hnz => ?_, fun i j r hij hvi hvj hr he hnz => ?_⟩
  · by_cases hi : i = c
    · subst hi
      rcases hslot hvi r hr with h0 | ⟨d, hd1, hd2, _, hd4⟩
      · exact absurd h0 hnz
      · rw [hd4] at hnz ⊢
        exact lt_of_lt_of_le (h.1 d r hd2 hr hnz) hl
    · rw [hother i hi] at hvi hnz ⊢
      exact lt_of_lt_of_le (h.1 i r hvi hr hnz) hl
  · by_cases hi : i = c
    · subst hi
      have hj : j ≠ i := Ne.symm hij
      rw [hother j hj] at hvj he ⊢
      rcases hslot hvi r hr with h0 | ⟨d, hd1, hd2, hd3, hd4⟩
      · exact absurd h0 hnz
      · rw [hd4] at he hnz
        by_cases hdj : d = j
        · subst hdj
          exact compare_sha_symm _ _ hd3
        · exact compare_sha_trans _ _ _ (compare_sha_symm _ _ hd3) (h.2 d j r hdj hd2 hvj hr he hnz)
    · by_cases hj : j = c
      · subst hj
        rw [hother i hi] at hvi he hnz ⊢
        rcases hslot hvj r hr with h0 | ⟨d, hd1, hd2, hd3, hd4⟩
        · rw [h0] at he
          exact absurd he hnz
        · rw [hd4] at he
          by_cases hdi : d = i
          · subst hdi
            exact hd3
          · exact compare_sha_trans _ _ _ (h.2 i d r (Ne.symm hdi) hvi hd2 hr he hnz) hd3
      · rw [hother i hi] at hvi he hnz ⊢
        rw [hother j hj] at hvj he ⊢
        exact h.2 i j r hij hvi hvj hr he hnz


theorem fwrite_ok_size (ptr : List Nat) (size nmemb : Nat) (f : FILE)
    (h : (fwrite ptr size nmemb f).1 ≠ 0) : size ≠ 0 := by
  intro hs
  apply h
  unfold fwrite
  rw [if_pos (Or.inl hs)]

theorem write_image_end_of_imgst_failure (index res : Nat) (buffer : List Nat) (size : Nat)
    (s : imgst_file) (h : (write_image_end_of_imgst index res buffer size s).1 ≠ ERR_NONE) :
    (write_image_end_of_imgst index res buffer size s).2.metadata = s.metadata := by
  unfold write_image_end_of_imgst at h ⊢
  simp only [] at h ⊢
  split
  · rfl
  · rename_i h1
    rw [if_neg h1] at h
    exact absurd rfl h

theorem write_image_end_of_imgst_size (index res : Nat) (buffer : List Nat) (size : Nat)
    (s : imgst_file) (h : (write_image_end_of_imgst index res buffer size s).1 = ERR_NONE) :
    size ≠ 0 := by
  unfold write_image_end_of_imgst at h
  simp only [] at h
  split at h
  · cases h
  · rename_i h1
    apply fwrite_ok_size buffer size 1 (fseek_end s.file)
    intro h0
    rw [h0] at h1
    exact h1 (by decide)

theorem update_metadata_len_le (s : imgst_file) (index : Nat) :
    s.file.len ≤ (update_metadata s index).2.file.len := by
  rw [update_metadata_file]
  exact le_trans (le_of_eq (fseek_set_len _ _).symm) (fwrite_len_le _ _ _ _)

/-- The metadata after `lazily_resize`: either the one found, or the one found
with, in the slot `index`, the length that the file had (converted to `int`) as
the offset of a derived resolution; the file is then longer than it was. -/
theorem lazily_resize_shape (env : Env) (res : Int) (s : imgst_file) (index : Nat) :
    (lazily_resize env res s index).2.metadata = s.metadata ∨
    ∃ r sz, (r = RES_THUMB ∨ r = RES_SMALL) ∧
      (lazily_resize env res s index).2.metadata = Function.update s.metadata index
        { s.metadata index with
          offset := Function.update (s.metadata index).offset r (to_uint64 (to_int s.file.len)),
          size := sz } ∧
      s.file.len < (lazily_resize env res s index).2.file.len := by
  obtain ⟨hlm, _⟩ := load_image_from_imgst_frame index RES_ORIG ((s.metadata index).size RES_ORIG) s
  obtain ⟨hll, _, _⟩ := load_image_from_imgst_file index RES_ORIG ((s.metadata index).size RES_ORIG) s
  unfold lazily_resize
  split
  · left; rfl
  · rename_i hc
    split
    · left; rfl
    · rename_i hc2
      have hr : res.toNat = RES_THUMB ∨ res.toNat = RES_SMALL := by
        simp only [RES_THUMB, RES_SMALL, RES_ORIG] at hc hc2 ⊢
        push_neg at hc hc2
        omega
      simp only []
      split
      · left; exact hlm
      · split
        · left; exact hlm
        · split
          · left; exact hlm
          · rename_i buffer _
            split
            · rename_i hw
              left
              rw [write_image_end_of_imgst_failure _ _ _ _ _ hw, hlm]
            · rename_i hw
              right
              have hw1 : (write_image_end_of_imgst index res.toNat buffer buffer.length
                  (load_image_from_imgst index RES_ORIG ((s.metadata index).size RES_ORIG) s).2.2).1
                  = ERR_NONE := by
                by_contra hne
                exact hw hne
              obtain ⟨wm, _, wl, _, _⟩ := write_image_end_of_imgst_success index res.toNat buffer
                buffer.length _ hw1
              have hsz := write_image_end_of_imgst_size index res.toNat buffer buffer.length _ hw1
              rw [List.take_length] at wl
              refine ⟨res.toNat, Function.update (s.metadata index).size res.toNat (to_uint32 buffer.length),
                hr, ?_, ?_⟩
              · rw [(update_metadata_frame _ _).1]
                simp only []
                rw [wm, hlm, hll]
                simp [set_size, set_offset]
              · refine lt_of_lt_of_le ?_ (update_metadata_len_le _ _)
                simp only []
                rw [wl, hll]
                omega

theorem do_read_shape (env : Env) (img_id : List Nat) (resolution : Int) (s : imgst_file) :
    (do_read env img_id resolution s).2.2.metadata = s.metadata ∨
    ∃ index r sz, (r = RES_THUMB ∨ r = RES_SMALL) ∧
      (do_read env img_id resolution s).2.2.metadata = Function.update s.metadata index
        { s.metadata index with
          offset := Function.update (s.metadata index).offset r (to_uint64 (to_int s.file.len)),
          size := sz } ∧
      s.file.len < (do_read env img_id resolution s).2.2.file.len := by
  unfold do_read
  split
  · left; rfl
  · split
    · left; rfl
    · split
      · rename_i i _
        have hz : ∀ z : error_code × imgst_file,
            (z = lazily_resize env resolution s i ∨ z = (ERR_NONE, s)) →
            z.2.metadata = s.metadata ∨
            ∃ index r sz, (r = RES_THUMB ∨ r = RES_SMALL) ∧
              z.2.metadata = Function.update s.metadata index
                { s.metadata index with
                  offset := Function.update (s.metadata index).offset r (to_uint64 (to_int s.file.len)),
                  size := sz } ∧
              s.file.len < z.2.file.len := by
          intro z hz
          rcases hz with hz | hz
          · rw [hz]
            rcases lazily_resize_shape env resolution s i with h | ⟨r, sz, h1, h2, h3⟩
            · left; exact h
            · right; exact ⟨i, r, sz, h1, h2, h3⟩
          · rw [hz]; left; rfl
        have hload : ∀ (z : imgst_file) (a b c : Nat),
            (z.metadata = s.metadata ∨
            ∃ index r sz, (r = RES_THUMB ∨ r = RES_SMALL) ∧
              z.metadata = Function.update s.metadata index
                { s.metadata index with
                  offset := Function.update (s.metadata index).offset r (to_uint64 (to_int s.file.len)),
                  size := sz } ∧
              s.file.len < z.file.len) →
            ((load_image_from_imgst a b c z).2.2.metadata = s.metadata ∨
            ∃ index r sz, (r = RES_THUMB ∨ r = RES_SMALL) ∧
              (load_image_from_imgst a b c z).2.2.metadata = Function.update s.metadata index
                { s.metadata index with
                  offset := Function.update (s.metadata index).offset r (to_uint64 (to_int s.file.len)),
                  size := sz } ∧
              s.file.len < (load_image_from_imgst a b c z).2.2.file.len) := by
          intro z a b c h
          rw [(load_image_from_imgst_frame a b c z).1, (load_image_from_imgst_file a b c z).1]
          exact h
        simp only []
        split
        · have h1 := hz _ (Or.inl rfl)
          split
          · exact h1
          · split
            · exact hload _ _ _ _ h1
            · exact hload _ _ _ _ h1
        · have h1 := hz _ (Or.inr rfl)
          split
          · exact h1
          · split
            · exact hload _ _ _ _ h1
            · exact hload _ _ _ _ h1
      · left; rfl

theorem do_delete_shape (img_id : List Nat) (s : imgst_file) :
    (do_delete img_id s).2.metadata = s.metadata ∨
    ∃ index, (do_delete img_id s).2.metadata =
      Function.update s.metadata index { s.metadata index with is_valid := EMPTY } := by
  unfold do_delete
  split
  · left; rfl
  · split
    · left; rfl
    · rename_i index _
      right
      refine ⟨index, ?_⟩
      simp only []
      split
      · rw [(update_metadata_frame _ _).1]
        rfl
      · rw [(update_header_frame _).1]
        simp only [uncount_image]
        rw [(update_metadata_frame _ _).1]
        rfl

theorem do_insert_shape (env : Env) (buffer : List Nat) (size : Nat) (img_id : List Nat)
    (s : imgst_file) :
    do_insert env buffer size img_id s = (ERR_FULL_IMGSTORE, s) ∨
    ∃ c, c < s.header.max_files ∧ (s.metadata c).is_valid = 0 ∧
      (∀ j, j < c → (s.metadata j).is_valid ≠ 0) ∧
      s.header.num_files < s.header.max_files ∧
      do_insert env buffer size img_id s = do_insert_at env buffer size img_id s c := by
  unfold do_insert
  split
  · left; rfl
  · rename_i hfull
    split
    · rename_i c hfi
      right
      obtain ⟨_, h2, h3, h4⟩ := first_index_eq_some hfi
      refine ⟨c, by rwa [Nat.zero_add] at h2, by simpa using h3, fun j hj => ?_, Nat.lt_of_not_le hfull, rfl⟩
      have := h4 j (Nat.zero_le _) hj
      simpa using this
    · left; rfl

/-- In every reachable store of capacity at most `MAX_MAX_FILES` whose file is
shorter than `2^31` bytes, the derived resolutions of the NON_EMPTY slots are
inside the file and are shared only between slots with the same SHA. -/
theorem reachable_derived_ok (env : Env) (s : imgst_file) (h : Reachable env s) :
    s.header.max_files ≤ MAX_MAX_FILES → s.file.len < 2 ^ 31 → derived_ok s := by
  induction h with
  | create io s0 hok =>
    intro _ _
    have hv : ∀ k, ¬ ((do_create io s0).2.metadata k).is_valid = NON_EMPTY := by
      intro k hk
      rw [do_create_metadata io s0 hok k] at hk
      exact absurd hk (by decide)
    exact ⟨fun i _ hi => absurd hi (hv i), fun i _ _ _ hi => absurd hi (hv i)⟩
  | insert buffer size img_id s _ ih =>
    intro hmax hlen
    have hmx : s.header.max_files ≤ MAX_MAX_FILES := by
      rw [← do_insert_max_files env buffer size img_id s]; exact hmax
    have hk := do_insert_blobs_kept env buffer size img_id s hmx
    have hj := ih hmx (lt_of_le_of_lt hk.1 hlen)
    rcases do_insert_shape env buffer size img_id s with hfull | ⟨c, _, hv, _, _, he⟩
    · rw [hfull]; exact hj
    · refine derived_ok_insert s _ hj c (by rw [hv]; decide) ?_ ?_ hk.1
      · rw [he]
        exact (do_insert_at_keys env buffer size img_id s c).2.1
      · rw [he]
        intro hvalid res hres
        rcases do_insert_at_slot env buffer size img_id s c with h1 | ⟨_, _, hsha, hcases⟩
        · rw [h1, hv] at hvalid
          exact absurd hvalid (by decide)
        · rcases hcases with ⟨_, h0⟩ | ⟨d, _, hd2, hd3, hd4, _, hd6⟩
          · left; exact h0 res hres
          · rcases hd6 res hres with h0 | hd
            · left; exact h0
            · right
              exact ⟨d, hd2, hd3, by rw [hsha]; exact hd4, hd⟩
  | delete img_id s _ ih =>
    intro hmax hlen
    have hmx : s.header.max_files ≤ MAX_MAX_FILES := by
      rw [← (do_delete_keys img_id s).1]; exact hmax
    have hk := do_delete_blobs_kept img_id s hmx
    have hj := ih hmx (lt_of_le_of_lt hk.1 hlen)
    rcases do_delete_shape img_id s with h | ⟨index, h⟩
    · exact derived_ok_same s _ hj h hk.1
    · exact derived_ok_invalidate s _ hj index h hk.1
  | read img_id resolution s _ ih =>
    intro hmax hlen
    have hmx : s.header.max_files ≤ MAX_MAX_FILES := by
      rw [← (do_read_frame env img_id resolution s).1]; exact hmax
    have hk := do_read_blobs_kept env img_id resolution s hmx
    have hl : s.file.len < 2 ^ 31 := lt_of_le_of_lt hk.1 hlen
    have hj := ih hmx hl
    rcases do_read_shape env img_id resolution s with h | ⟨index, r, sz, hr, h, hlt⟩
    · exact derived_ok_same s _ hj h hk.1
    · rw [to_uint64_to_int_of_lt _ hl] at h
      exact derived_ok_materialise s _ hj index r sz hr h hlt
  | resize res index s _ ih =>
    intro hmax hlen
    have hmx : s.header.max_files ≤ MAX_MAX_FILES := by
      rw [← (lazily_resize_frame env res s index).1]; exact hmax
    have hk := lazily_resize_blobs_kept env res s index hmx
    have hl : s.file.len < 2 ^ 31 := lt_of_le_of_lt hk.1 hlen
    have hj := ih hmx hl
    rcases lazily_resize_shape env res s index with h | ⟨r, sz, hr, h, hlt⟩
    · exact derived_ok_same s _ hj h hk.1
    · rw [to_uint64_to_int_of_lt _ hl] at h
      exact derived_ok_materialise s _ hj index r sz hr h hlt

set_option maxRecDepth 100000 in
/-- C13, at an input where the claim fails: `jpeg_a` is inserted as "pic1",
"pic1" is read in the resolution RES_SMALL, and `jpeg_a` is inserted as "pic2".
The two NON_EMPTY slots have the same offset 500 for RES_SMALL. -/
theorem derived_offsets_shared :
    Reachable sample_env shared_store ∧
    (shared_store.metadata 0).is_valid = NON_EMPTY ∧
    (shared_store.metadata 1).is_valid = NON_EMPTY ∧
    (shared_store.metadata 0).offset RES_SMALL = 500 ∧
    (shared_store.metadata 1).offset RES_SMALL = 500 :=
  ⟨Reachable.insert _ _ _ _ (Reachable.read _ _ _ (Reachable.insert _ _ _ _
      (created_store_reachable _ 2))),
    by decide, by decide, by decide, by decide⟩

/-- C13, amended. Derived resolutions are shared only between images with the
same SHA: in every store reachable from `do_create` by `do_insert`, `do_read`,
`do_delete` and `lazily_resize`, of capacity at most `MAX_MAX_FILES` and with a
file shorter than `2^31` bytes, two distinct NON_EMPTY slots that have the same
offset, other than 0, for RES_THUMB or for RES_SMALL hold SHA values that
`compare_sha` finds equal. -/
theorem derived_shared_same_sha (env : Env) (s : imgst_file) (h : Reachable env s)
    (hmax : s.header.max_files ≤ MAX_MAX_FILES) (hlen : s.file.len < 2 ^ 31) (i j res : Nat)
    (hij : i ≠ j) (hvi : (s.metadata i).is_valid = NON_EMPTY)
    (hvj : (s.metadata j).is_valid = NON_EMPTY) (hres : res = RES_THUMB ∨ res = RES_SMALL)
    (he : (s.metadata i).offset res = (s.metadata j).offset res)
    (hnz : (s.metadata i).offset res ≠ 0) :
    compare_sha (s.metadata i).SHA (s.metadata j).SHA = 0 :=
  (reachable_derived_ok env s h hmax hlen).2 i j res hij hvi hvj hres he hnz

set_option maxRecDepth 100000 in
/-- C13, amended, at a concrete input: the two slots of `shared_store`. -/
theorem derived_shared_same_sha_witness :
    (Reachable sample_env shared_store ∧ shared_store.header.max_files ≤ MAX_MAX_FILES ∧
      shared_store.file.len < 2 ^ 31 ∧ (0 : Nat) ≠ 1 ∧
      (shared_store.metadata 0).is_valid = NON_EMPTY ∧
      (shared_store.metadata 1).is_valid = NON_EMPTY ∧
      (RES_SMALL = RES_THUMB ∨ RES_SMALL = RES_SMALL) ∧
      (shared_store.metadata 0).offset RES_SMALL = (shared_store.metadata 1).offset RES_SMALL ∧
      (shared_store.metadata 0).offset RES_SMALL ≠ 0) ∧
    compare_sha (shared_store.metadata 0).SHA (shared_store.metadata 1).SHA = 0 :=
  ⟨⟨Reachable.insert _ _ _ _ (Reachable.read _ _ _ (Reachable.insert _ _ _ _
      (created_store_reachable _ 2))),
      by decide, by decide, by decide, by decide, by decide, by decide, by decide, by decide⟩,
    derived_shared_same_sha sample_env shared_store
      (Reachable.insert _ _ _ _ (Reachable.read _ _ _ (Reachable.insert _ _ _ _
        (created_store_reachable _ 2))))
      (by decide) (by decide) 0 1 RES_SMALL (by decide) (by decide) (by decide) (by decide)
      (by decide) (by decide)⟩

/-! ## Reading an original image -/

theorem to_long_of_lt (n : Nat) (h : n < 2 ^ 63) : to_long n = (n : Int) := by
  unfold to_long
  have h1 : n % 2 ^ 64 = n := Nat.mod_eq_of_lt (by omega)
  rw [h1, if_pos h]

theorem fread_ok (size : Nat) (f : FILE) (h : (fread size f).1 = 1) :
    (fread size f).2.1 = (List.range size).map (fun k => f.at (f.pos + k)) := by
  unfold fread at h ⊢
  split
  · rename_i h0
    rw [if_pos h0] at h
    cases h
  · rename_i h0
    rw [if_neg h0] at h
    split
    · rfl
    · rename_i h1
      rw [if_neg h1] at h
      cases h

/-- A successful `do_read` in the original resolution, when the original
offsets of the NON_EMPTY slots are below `2^63`: it finds a NON_EMPTY slot with
the identifier, returns the bytes of the file at the original offset of that
slot and changes nothing in the store but the position indicator of the stream. -/
theorem do_read_orig (env : Env) (img_id : List Nat) (s : imgst_file)
    (hoff : ∀ k, k < s.header.max_files → (s.metadata k).is_valid = NON_EMPTY →
      (s.metadata k).offset RES_ORIG < 2 ^ 63)
    (hok : (do_read env img_id RES_ORIG s).1 = ERR_NONE) :
    (∃ k, k < s.header.max_files ∧ (s.metadata k).is_valid = NON_EMPTY ∧
      strncmp (s.metadata k).img_id img_id MAX_IMG_ID = 0 ∧
      (do_read env img_id RES_ORIG s).2.1 = some (original_bytes s k, (s.metadata k).size RES_ORIG)) ∧
    (do_read env img_id RES_ORIG s).2.2.metadata = s.metadata ∧
    (do_read env img_id RES_ORIG s).2.2.header = s.header ∧
    (do_read env img_id RES_ORIG s).2.2.file.len = s.file.len ∧
    ∀ j, (do_read env img_id RES_ORIG s).2.2.file.at j = s.file.at j := by
  have hcast : ((RES_ORIG : Nat) : Int).toNat = RES_ORIG := Int.toNat_natCast _
  unfold do_read at hok ⊢
  rw [if_neg (by decide)] at hok ⊢
  split at hok
  · cases hok
  · rename_i hn
    rw [if_neg hn]
    split at hok
    · rename_i k hfi
      obtain ⟨_, hk2, hk3, _⟩ := first_index_eq_some hfi
      rw [Nat.zero_add] at hk2
      simp only [decide_eq_true_eq] at hk3
      have hz : (if (s.metadata k).offset ((RES_ORIG : Nat) : Int).toNat = 0 then
          lazily_resize env RES_ORIG s k else (ERR_NONE, s)) = (ERR_NONE, s) := by
        split
        · exact lazily_resize_no_op env RES_ORIG s k (by decide) (le_refl _) hk2 (Or.inl rfl)
        · rfl
      simp only [] at hok ⊢
      rw [hz] at hok ⊢
      rw [if_neg (by simp)] at hok ⊢
      rw [hcast] at hok ⊢
      obtain ⟨hlm, hlh⟩ := load_image_from_imgst_frame k RES_ORIG ((s.metadata k).size RES_ORIG) s
      obtain ⟨hll, _, hla⟩ := load_image_from_imgst_file k RES_ORIG ((s.metadata k).size RES_ORIG) s
      split at hok
      · rename_i hl
        exact absurd hok hl
      · rename_i hl
        rw [if_neg hl]
        refine ⟨⟨k, hk2, hk3.2, hk3.1, ?_⟩, hlm, hlh, hll, hla⟩
        simp only [Option.some.injEq, Prod.mk.injEq, and_true]
        unfold load_image_from_imgst at hl ⊢
        simp only [] at hl ⊢
        split at hl
        · exact absurd (by simp) hl
        · rename_i h1
          rw [if_neg h1]
          have h1' : (fread ((s.metadata k).size RES_ORIG)
              (fseek_set s.file (to_long ((s.metadata k).offset RES_ORIG)))).1 = 1 := by
            by_contra hne
            exact h1 hne
          simp only []
          rw [fread_ok _ _ h1', to_long_of_lt _ (hoff k hk2 hk3.2), fseek_set_pos]
          unfold original_bytes
          apply List.map_congr_left
          intro j _
          rw [fseek_set_at]
    · cases hok

/-! ## The steps of the garbage collection -/

theorem insert_commit_success (env : Env) (buffer : List Nat) (size : Nat) (s : imgst_file) (i : Nat)
    (hok : (insert_commit env buffer size s i).1 = ERR_NONE) :
    (insert_commit env buffer size s i).2.header.num_files = to_uint32 (s.header.num_files + 1) ∧
    (insert_commit env buffer size s i).2.header.res_resized = s.header.res_resized := by
  unfold insert_commit at hok ⊢
  simp only [] at hok ⊢
  split at hok
  · rename_i hg
    exact absurd hok hg
  · rename_i hg
    rw [if_neg hg]
    split at hok
    · rename_i hh
      exact absurd hok hh
    · rename_i hh
      rw [if_neg hh]
      rw [(update_metadata_frame _ _).2, (update_header_frame _).2]
      exact ⟨rfl, rfl⟩

/-- A successful `do_insert_at` leaves the slot NON_EMPTY and counts the image. -/
theorem do_insert_at_success (env : Env) (buffer : List Nat) (size : Nat) (img_id : List Nat)
    (s : imgst_file) (i : Nat) (hok : (do_insert_at env buffer size img_id s i).1 = ERR_NONE) :
    (do_insert_at env buffer size img_id s i).2.header.num_files = to_uint32 (s.header.num_files + 1) ∧
    (do_insert_at env buffer size img_id s i).2.header.res_resized = s.header.res_resized ∧
    ((do_insert_at env buffer size img_id s i).2.metadata i).is_valid = NON_EMPTY := by
  obtain ⟨_, hdh, _⟩ := do_name_and_content_dedup_frame (insert_candidate env buffer size img_id s i) i
  have hbh := (insert_blob_frame buffer size
    (do_name_and_content_dedup (insert_candidate env buffer size img_id s i) i).2 i).1
  obtain ⟨_, ro, hcm⟩ := insert_commit_frame env buffer size
    (insert_blob buffer size
      (do_name_and_content_dedup (insert_candidate env buffer size img_id s i) i).2 i).2 i
  unfold do_insert_at at hok ⊢
  simp only [] at hok ⊢
  split at hok
  · rename_i hd
    exact absurd hok hd
  · rename_i hd
    rw [if_neg hd]
    split at hok
    · rename_i hb
      exact absurd hok hb
    · rename_i hb
      rw [if_neg hb]
      obtain ⟨h1, h2⟩ := insert_commit_success env buffer size _ i hok
      rw [hbh, hdh, insert_candidate_header] at h1 h2
      refine ⟨h1, h2, ?_⟩
      rw [hcm]
      simp

/-- The function `lazily_resize`, called for a derived resolution, changes
neither the header nor, in any slot, the validity flag, the identifier, the SHA
and the original size. -/
theorem lazily_resize_keys (env : Env) (res : Int) (s : imgst_file) (index : Nat)
    (hres : res = RES_THUMB ∨ res = RES_SMALL) :
    (lazily_resize env res s index).2.header = s.header ∧
    ∀ k, ((lazily_resize env res s index).2.metadata k).is_valid = (s.metadata k).is_valid ∧
      ((lazily_resize env res s index).2.metadata k).img_id = (s.metadata k).img_id ∧
      ((lazily_resize env res s index).2.metadata k).SHA = (s.metadata k).SHA ∧
      ((lazily_resize env res s index).2.metadata k).size RES_ORIG = (s.metadata k).size RES_ORIG := by
  refine ⟨(lazily_resize_frame env res s index).1, fun k => ?_⟩
  obtain ⟨hlm, _⟩ := load_image_from_imgst_frame index RES_ORIG ((s.metadata index).size RES_ORIG) s
  have hne : res.toNat ≠ RES_ORIG := by
    rcases hres with h | h <;> rw [h] <;> decide
  have hchanged : ∀ (v w : Nat),
      ((set_size (set_offset s.metadata index res.toNat v) index res.toNat w) k).is_valid
        = (s.metadata k).is_valid ∧
      ((set_size (set_offset s.metadata index res.toNat v) index res.toNat w) k).img_id
        = (s.metadata k).img_id ∧
      ((set_size (set_offset s.metadata index res.toNat v) index res.toNat w) k).SHA
        = (s.metadata k).SHA ∧
      ((set_size (set_offset s.metadata index res.toNat v) index res.toNat w) k).size RES_ORIG
        = (s.metadata k).size RES_ORIG := by
    intro v w
    by_cases hk : k = index
    · subst hk
      simp [set_size, set_offset, Function.update_noteq (Ne.symm hne)]
    · simp [set_size, set_offset, Function.update_noteq hk]
  unfold lazily_resize
  split
  · exact ⟨rfl, rfl, rfl, rfl⟩
  · split
    · exact ⟨rfl, rfl, rfl, rfl⟩
    · simp only []
      split
      · rw [hlm]; exact ⟨rfl, rfl, rfl, rfl⟩
      · split
        · rw [hlm]; exact ⟨rfl, rfl, rfl, rfl⟩
        · split
          · rw [hlm]; exact ⟨rfl, rfl, rfl, rfl⟩
          · rename_i buffer _
            split
            · rename_i hw
              rw [write_image_end_of_imgst_failure _ _ _ _ _ hw, hlm]
              exact ⟨rfl, rfl, rfl, rfl⟩
            · rename_i hw
              have hw1 : (write_image_end_of_imgst index res.toNat buffer buffer.length
                  (load_image_from_imgst index RES_ORIG ((s.metadata index).size RES_ORIG) s).2.2).1
                  = ERR_NONE := by
                by_contra hne2
                exact hw hne2
              obtain ⟨wm, _, _, _, _⟩ := write_image_end_of_imgst_success index res.toNat buffer
                buffer.length _ hw1
              rw [(update_metadata_frame _ _).1]
              simp only []
              rw [wm, hlm]
              exact hchanged _ _

/-- The calls of `lazily_resize` that follow an insertion in `do_gbcollect` change
neither the header nor the key fields of the slots of the temporary store. -/
theorem gc_resize_keys (env : Env) (original temp : imgst_file) (i : Nat) :
    (gc_resize env original temp i).2.header = temp.header ∧
    ∀ k, ((gc_resize env original temp i).2.metadata k).is_valid = (temp.metadata k).is_valid ∧
      ((gc_resize env original temp i).2.metadata k).img_id = (temp.metadata k).img_id ∧
      ((gc_resize env original temp i).2.metadata k).SHA = (temp.metadata k).SHA ∧
      ((gc_resize env original temp i).2.metadata k).size RES_ORIG = (temp.metadata k).size RES_ORIG := by
  have h1 : ∀ t1 : error_code × imgst_file,
      (t1 = lazily_resize env RES_SMALL temp (to_uint32 (temp.header.num_files + (2 ^ 32 - 1))) ∨
        t1 = (ERR_NONE, temp)) →
      t1.2.header = temp.header ∧
      ∀ k, (t1.2.metadata k).is_valid = (temp.metadata k).is_valid ∧
        (t1.2.metadata k).img_id = (temp.metadata k).img_id ∧
        (t1.2.metadata k).SHA = (temp.metadata k).SHA ∧
        (t1.2.metadata k).size RES_ORIG = (temp.metadata k).size RES_ORIG := by
    intro t1 ht
    rcases ht with ht | ht
    · rw [ht]; exact lazily_resize_keys env RES_SMALL temp _ (Or.inr rfl)
    · rw [ht]; exact ⟨rfl, fun _ => ⟨rfl, rfl, rfl, rfl⟩⟩
  have h2 : ∀ t1 : imgst_file, (t1.header = temp.header ∧
      ∀ k, (t1.metadata k).is_valid = (temp.metadata k).is_valid ∧
        (t1.metadata k).img_id = (temp.metadata k).img_id ∧
        (t1.metadata k).SHA = (temp.metadata k).SHA ∧
        (t1.metadata k).size RES_ORIG = (temp.metadata k).size RES_ORIG) →
      (lazily_resize env RES_THUMB t1 (to_uint32 (t1.header.num_files + (2 ^ 32 - 1)))).2.header
        = temp.header ∧
      ∀ k, ((lazily_resize env RES_THUMB t1
          (to_uint32 (t1.header.num_files + (2 ^ 32 - 1)))).2.metadata k).is_valid
          = (temp.metadata k).is_valid ∧
        ((lazily_resize env RES_THUMB t1
          (to_uint32 (t1.header.num_files + (2 ^ 32 - 1)))).2.metadata k).img_id
          = (temp.metadata k).img_id ∧
        ((lazily_resize env RES_THUMB t1
          (to_uint32 (t1.header.num_files + (2 ^ 32 - 1)))).2.metadata k).SHA
          = (temp.metadata k).SHA ∧
        ((lazily_resize env RES_THUMB t1
          (to_uint32 (t1.header.num_files + (2 ^ 32 - 1)))).2.metadata k).size RES_ORIG
          = (temp.metadata k).size RES_ORIG := by
    intro t1 ht
    obtain ⟨hh, hk⟩ := lazily_resize_keys env RES_THUMB t1
      (to_uint32 (t1.header.num_files + (2 ^ 32 - 1))) (Or.inl rfl)
    refine ⟨by rw [hh]; exact ht.1, fun k => ?_⟩
    obtain ⟨a1, a2, a3, a4⟩ := hk k
    obtain ⟨b1, b2, b3, b4⟩ := ht.2 k
    exact ⟨by rw [a1, b1], by rw [a2, b2], by rw [a3, b3], by rw [a4, b4]⟩
  unfold gc_resize
  simp only []
  by_cases hs : (original.metadata i).offset RES_SMALL ≠ 0
  · rw [if_pos hs]
    have ha := h1 _ (Or.inl rfl)
    split
    · exact ha
    · split
      · exact h2 _ ha
      · exact ha
  · rw [if_neg hs]
    have ha := h1 _ (Or.inr rfl)
    split
    · exact ha
    · split
      · exact h2 _ ha
      · exact ha


theorem slots_before_succ (s : imgst_file) (i : Nat) :
    slots_before s (i + 1) =
      slots_before s i + (if (s.metadata i).is_valid = NON_EMPTY then 1 else 0) := by
  unfold slots_before
  rw [List.range_succ, List.filter_append, List.length_append]
  congr 1
  by_cases h : (s.metadata i).is_valid = NON_EMPTY
  · simp [h]
  · simp [h]

theorem slots_before_le_succ (s : imgst_file) (i : Nat) : slots_before s i ≤ slots_before s (i + 1) := by
  rw [slots_before_succ]
  omega

theorem slots_before_mono (s : imgst_file) (i j : Nat) (h : i ≤ j) :
    slots_before s i ≤ slots_before s j := by
  induction j with
  | zero =>
    have : i = 0 := by omega
    subst this
    exact le_refl _
  | succ j ih =>
    by_cases hij : i = j + 1
    · subst hij; exact le_refl _
    · exact le_trans (ih (by omega)) (slots_before_le_succ s j)

theorem slots_before_le (s : imgst_file) (i : Nat) : slots_before s i ≤ i := by
  induction i with
  | zero => exact le_refl _
  | succ i ih =>
    rw [slots_before_succ]
    split <;> omega

theorem slots_before_lt (s : imgst_file) (k i : Nat) (h : k < i)
    (hv : (s.metadata k).is_valid = NON_EMPTY) : slots_before s k < slots_before s i := by
  have h1 : slots_before s (k + 1) = slots_before s k + 1 := by
    rw [slots_before_succ, if_pos hv]
  have h2 := slots_before_mono s (k + 1) i (by omega)
  omega

theorem slots_before_surj (s : imgst_file) (i d : Nat) (h : d < slots_before s i) :
    ∃ k, k < i ∧ (s.metadata k).is_valid = NON_EMPTY ∧ slots_before s k = d := by
  induction i with
  | zero =>
    have : slots_before s 0 = 0 := rfl
    omega
  | succ i ih =>
    rw [slots_before_succ] at h
    by_cases hd : d < slots_before s i
    · obtain ⟨k, hk1, hk2, hk3⟩ := ih hd
      exact ⟨k, by omega, hk2, hk3⟩
    · by_cases hv : (s.metadata i).is_valid = NON_EMPTY
      · rw [if_pos hv] at h
        exact ⟨i, by omega, hv, by omega⟩
      · rw [if_neg hv] at h
        omega

theorem count_non_empty_eq (s : imgst_file) : count_non_empty s = slots_before s s.header.max_files := rfl

theorem strncmp_refl (a : List Nat) (n : Nat) : strncmp a a n = 0 := by
  induction n generalizing a with
  | zero => simp [strncmp]
  | succ n ih =>
    rw [strncmp_succ, if_neg (fun h => h rfl)]
    split
    · rfl
    · exact ih _

theorem strncmp_strncpy_self (dst x : List Nat) (n : Nat) : strncmp (strncpy dst x n) x n = 0 := by
  apply strncmp_symm
  rw [strncmp_strncpy x dst x n n (le_refl _)]
  exact strncmp_refl x n


/-- A successful `gc_step`: the read and the insertion have succeeded, and the
stores that it leaves are the one that `do_read` leaves and the one that
`gc_resize` leaves. -/
theorem gc_step_success (env : Env) (o t : imgst_file) (i : Nat)
    (hok : (gc_step env o t i).1 = ERR_NONE) :
    (do_read env (o.metadata i).img_id RES_ORIG o).1 = ERR_NONE ∧
    (do_insert env
      ((do_read env (o.metadata i).img_id RES_ORIG o).2.1.getD
        ([], to_uint32 ((o.metadata i).size RES_ORIG))).1
      ((do_read env (o.metadata i).img_id RES_ORIG o).2.1.getD
        ([], to_uint32 ((o.metadata i).size RES_ORIG))).2
      ((do_read env (o.metadata i).img_id RES_ORIG o).2.2.metadata i).img_id t).1 = ERR_NONE ∧
    (gc_step env o t i).2.1 = (do_read env (o.metadata i).img_id RES_ORIG o).2.2 ∧
    (gc_step env o t i).2.2 =
      (gc_resize env (do_read env (o.metadata i).img_id RES_ORIG o).2.2
        (do_insert env
          ((do_read env (o.metadata i).img_id RES_ORIG o).2.1.getD
            ([], to_uint32 ((o.metadata i).size RES_ORIG))).1
          ((do_read env (o.metadata i).img_id RES_ORIG o).2.1.getD
            ([], to_uint32 ((o.metadata i).size RES_ORIG))).2
          ((do_read env (o.metadata i).img_id RES_ORIG o).2.2.metadata i).img_id t).2 i).2 := by
  unfold gc_step at hok ⊢
  simp only [] at hok ⊢
  split at hok
  · rename_i hr
    exact absurd hok hr
  · rename_i hr
    rw [if_neg hr]
    split at hok
    · rename_i hins
      exact absurd hok hins
    · rename_i hins
      rw [if_neg hins]
      exact ⟨by_contra (fun h => hr h), by_contra (fun h => hins h), rfl, rfl⟩

theorem original_bytes_length (s : imgst_file) (i : Nat) :
    (original_bytes s i).length = (s.metadata i).size RES_ORIG := by
  unfold original_bytes
  rw [List.length_map, List.length_range]

theorem original_bytes_congr (s t : imgst_file) (i : Nat) (hm : t.metadata = s.metadata)
    (ha : ∀ j, t.file.at j = s.file.at j) : original_bytes t i = original_bytes s i := by
  unfold original_bytes
  rw [hm]
  apply List.map_congr_left
  intro j _
  exact ha _

/-- One step of the loop of `do_gbcollect` at a NON_EMPTY slot `i` of the
original store `o`, on a store `o1` that has the header, the metadata and the
bytes of `o`: when it succeeds, the temporary store holds the images of the
NON_EMPTY slots below `i + 1`. -/
theorem gc_step_copies (env : Env) (o o1 t : imgst_file) (i : Nat)
    (hmax : o.header.max_files ≤ MAX_MAX_FILES)
    (hid : ∀ k j, k < o.header.max_files → j < o.header.max_files → k ≠ j →
      (o.metadata k).is_valid = NON_EMPTY → (o.metadata j).is_valid = NON_EMPTY →
      strncmp (o.metadata k).img_id (o.metadata j).img_id MAX_IMG_ID ≠ 0)
    (hoff : ∀ k, k < o.header.max_files → (o.metadata k).is_valid = NON_EMPTY →
      (o.metadata k).offset RES_ORIG < 2 ^ 63)
    (hsha : ∀ k, k < o.header.max_files → (o.metadata k).is_valid = NON_EMPTY →
      compare_sha (env.SHA256 (original_bytes o k)) (o.metadata k).SHA = 0)
    (hsame : ∀ k j, k < o.header.max_files → j < o.header.max_files →
      (o.metadata k).is_valid = NON_EMPTY → (o.metadata j).is_valid = NON_EMPTY →
      compare_sha (o.metadata k).SHA (o.metadata j).SHA = 0 →
      (o.metadata k).size RES_ORIG = (o.metadata j).size RES_ORIG)
    (hsize : ∀ k, k < o.header.max_files → (o.metadata k).is_valid = NON_EMPTY →
      (o.metadata k).size RES_ORIG < 2 ^ 32)
    (hi : i < o.header.max_files) (hv : (o.metadata i).is_valid = NON_EMPTY)
    (h1h : o1.header = o.header) (h1m : o1.metadata = o.metadata)
    (h1a : ∀ j, o1.file.at j = o.file.at j)
    (htm : t.header.max_files = o.header.max_files) (hinv : copied_below o t i)
    (hok : (gc_step env o1 t i).1 = ERR_NONE) :
    (gc_step env o1 t i).2.1.header = o.header ∧
    (gc_step env o1 t i).2.1.metadata = o.metadata ∧
    (∀ j, (gc_step env o1 t i).2.1.file.at j = o.file.at j) ∧
    (gc_step env o1 t i).2.2.header.max_files = o.header.max_files ∧
    (gc_step env o1 t i).2.2.header.res_resized = t.header.res_resized ∧
    copied_below o (gc_step env o1 t i).2.2 (i + 1) := by
  obtain ⟨hr, hins, hg1, hg2⟩ := gc_step_success env o1 t i hok
  obtain ⟨⟨k, hk, hvk, hidk, hres⟩, hrm, hrh, _, hra⟩ := do_read_orig env (o1.metadata i).img_id o1
    (by rw [h1h, h1m]; exact hoff) hr
  rw [h1h] at hk
  rw [h1m] at hvk hidk
  have hki : k = i := by
    by_contra hne
    exact hid k i hk hi hne hvk hv hidk
  subst hki
  have hbytes : original_bytes o1 k = original_bytes o k := original_bytes_congr o o1 k h1m h1a
  rw [hres, hrm, h1m, hbytes] at hins hg2
  simp only [Option.getD_some] at hins hg2
  obtain ⟨hzh, hzk⟩ := gc_resize_keys env (do_read env (o.metadata k).img_id RES_ORIG o1).2.2
    (do_insert env (original_bytes o k) ((o.metadata k).size RES_ORIG) (o.metadata k).img_id t).2 k
  obtain ⟨hn, hvalid, hempty, hrel⟩ := hinv
  rcases do_insert_shape env (original_bytes o k) ((o.metadata k).size RES_ORIG)
    (o.metadata k).img_id t with hfull | ⟨c, hc, hvc, hfirst, _, he⟩
  · rw [hfull] at hins
    cases hins
  · rw [htm] at hc
    have hcn : c = slots_before o k := by
      apply le_antisymm
      · by_contra hlt
        exact hfirst (slots_before o k) (Nat.lt_of_not_le hlt) (hempty _ (le_refl _))
      · by_contra hlt
        have := hvalid c (Nat.lt_of_not_le hlt)
        rw [hvc] at this
        exact absurd this (by decide)
    rw [he] at hins hzh hzk hg2
    obtain ⟨hs1, hs2, hs3⟩ := do_insert_at_success env _ _ _ t c hins
    obtain ⟨hk1, hk2, hk3, _⟩ := do_insert_at_keys env (original_bytes o k)
      ((o.metadata k).size RES_ORIG) (o.metadata k).img_id t c
    have hsucc : slots_before o (k + 1) = slots_before o k + 1 := by
      rw [slots_before_succ, if_pos hv]
    have htake : (original_bytes o k).take ((o.metadata k).size RES_ORIG) = original_bytes o k :=
      List.take_of_length_le (le_of_eq (original_bytes_length o k))
    refine ⟨by rw [hg1, hrh, h1h], by rw [hg1, hrm, h1m], fun j => by rw [hg1, hra, h1a],
      by rw [hg2, hzh, hk1, htm], by rw [hg2, hzh, hs2], ?_, ?_, ?_, ?_⟩
    · rw [hg2, hzh, hs1, hn, hsucc]
      unfold to_uint32
      rw [Nat.mod_eq_of_lt]
      have := slots_before_le o k
      simp only [MAX_MAX_FILES] at hmax
      omega
    · intro j hj
      rw [hg2, (hzk j).1]
      by_cases hjc : j = c
      · rw [hjc]; exact hs3
      · rw [hk2 j hjc]
        exact hvalid j (by rw [hsucc] at hj; omega)
    · intro j hj
      rw [hg2, (hzk j).1]
      rw [hsucc] at hj
      rw [hk2 j (by omega)]
      exact hempty j (by omega)
    · intro k' hk' hvk'
      rw [hg2, (hzk _).2.1, (hzk _).2.2.1, (hzk _).2.2.2]
      by_cases hkk : k' = k
      · subst hkk
        rw [← hcn]
        refine ⟨?_, ?_, ?_⟩
        · rw [hk3]
          exact strncmp_strncpy_self _ _ _
        · rcases do_insert_at_slot env (original_bytes o k') ((o.metadata k').size RES_ORIG)
            (o.metadata k').img_id t c with hx | ⟨_, _, hx, _⟩
          · rw [hs3, hvc] at hx
            exact absurd hx (by decide)
          · rw [hx, htake]
            exact hsha k' hi hv
        · rcases do_insert_at_slot env (original_bytes o k') ((o.metadata k').size RES_ORIG)
            (o.metadata k').img_id t c with hx | ⟨_, _, _, hx⟩
          · rw [hs3, hvc] at hx
            exact absurd hx (by decide)
          · rcases hx with ⟨hx, _⟩ | ⟨d, hd1, hd2, hd3, hd4, hd5, _⟩
            · rw [hx]
              unfold to_uint32
              exact Nat.mod_eq_of_lt (hsize k' hi hv)
            · rw [hd5]
              have hdn : d < slots_before o k' := by
                by_contra hge
                have := hempty d (Nat.le_of_not_lt hge)
                rw [hd3] at this
                exact absurd this (by decide)
              obtain ⟨k0, hk01, hk02, hk03⟩ := slots_before_surj o k' d hdn
              obtain ⟨_, hr2, hr3⟩ := hrel k0 hk01 hk02
              rw [hk03] at hr2 hr3
              rw [hr3]
              rw [htake] at hd4
              exact hsame k0 k' (by omega) hi hk02 hv
                (compare_sha_trans _ _ _ (compare_sha_symm _ _ hr2)
                  (compare_sha_trans _ _ _ hd4 (hsha k' hi hv)))
      · have hlt : k' < k := by omega
        have hne : slots_before o k' ≠ c := by
          have := slots_before_lt o k' k hlt hvk'
          omega
        rw [hk2 _ hne]
        exact hrel k' hlt hvk'


theorem copied_below_skip (o t : imgst_file) (i : Nat) (hv : ¬ (o.metadata i).is_valid = NON_EMPTY)
    (h : copied_below o t i) : copied_below o t (i + 1) := by
  have hs : slots_before o (i + 1) = slots_before o i := by
    rw [slots_before_succ, if_neg hv]
    rfl
  obtain ⟨h1, h2, h3, h4⟩ := h
  refine ⟨by rw [hs]; exact h1, by rw [hs]; exact h2, by rw [hs]; exact h3, fun k hk hvk => ?_⟩
  have hki : k ≠ i := by
    intro hki
    rw [hki] at hvk
    exact hv hvk
  exact h4 k (by omega) hvk

/-- The loop of `do_gbcollect` over the slots `i, ..., i + n - 1`: when it
succeeds, the temporary store holds the images of the NON_EMPTY slots below
`i + n`. -/
theorem gc_loop_copies (env : Env) (o : imgst_file)
    (hmax : o.header.max_files ≤ MAX_MAX_FILES)
    (hid : ∀ k j, k < o.header.max_files → j < o.header.max_files → k ≠ j →
      (o.metadata k).is_valid = NON_EMPTY → (o.metadata j).is_valid = NON_EMPTY →
      strncmp (o.metadata k).img_id (o.metadata j).img_id MAX_IMG_ID ≠ 0)
    (hoff : ∀ k, k < o.header.max_files → (o.metadata k).is_valid = NON_EMPTY →
      (o.metadata k).offset RES_ORIG < 2 ^ 63)
    (hsha : ∀ k, k < o.header.max_files → (o.metadata k).is_valid = NON_EMPTY →
      compare_sha (env.SHA256 (original_bytes o k)) (o.metadata k).SHA = 0)
    (hsame : ∀ k j, k < o.header.max_files → j < o.header.max_files →
      (o.metadata k).is_valid = NON_EMPTY → (o.metadata j).is_valid = NON_EMPTY →
      compare_sha (o.metadata k).SHA (o.metadata j).SHA = 0 →
      (o.metadata k).size RES_ORIG = (o.metadata j).size RES_ORIG)
    (hsize : ∀ k, k < o.header.max_files → (o.metadata k).is_valid = NON_EMPTY →
      (o.metadata k).size RES_ORIG < 2 ^ 32) :
    ∀ (n i : Nat) (o1 t : imgst_file), i + n ≤ o.header.max_files →
      o1.header = o.header → o1.metadata = o.metadata → (∀ j, o1.file.at j = o.file.at j) →
      t.header.max_files = o.header.max_files → copied_below o t i →
      (gc_loop env n i o1 t).1 = ERR_NONE →
      (gc_loop env n i o1 t).2.2.header.max_files = o.header.max_files ∧
      (gc_loop env n i o1 t).2.2.header.res_resized = t.header.res_resized ∧
      copied_below o (gc_loop env n i o1 t).2.2 (i + n) := by
  intro n
  induction n with
  | zero =>
    intro i o1 t _ _ _ _ htm hinv _
    exact ⟨htm, rfl, hinv⟩
  | succ n ih =>
    intro i o1 t hin h1h h1m h1a htm hinv hok
    unfold gc_loop at hok ⊢
    by_cases hv : (o1.metadata i).is_valid = NON_EMPTY
    · rw [if_pos hv] at hok ⊢
      simp only [] at hok ⊢
      split at hok
      · rename_i hg
        exact absurd hok hg
      · rename_i hg
        rw [if_neg hg]
        have hg1 : (gc_step env o1 t i).1 = ERR_NONE := by_contra (fun h => hg h)
        rw [h1m] at hv
        obtain ⟨a1, a2, a3, a4, a5, a6⟩ := gc_step_copies env o o1 t i hmax hid hoff hsha hsame hsize
          (by omega) hv h1h h1m h1a htm hinv hg1
        obtain ⟨b1, b2, b3⟩ := ih (i + 1) _ _ (by omega) a1 a2 a3 a4 a6 hok
        refine ⟨b1, by rw [b2, a5], ?_⟩
        rw [show i + (n + 1) = i + 1 + n by omega]
        exact b3
    · rw [if_neg hv] at hok ⊢
      rw [h1m] at hv
      obtain ⟨b1, b2, b3⟩ := ih (i + 1) o1 t (by omega) h1h h1m h1a htm
        (copied_below_skip o t i hv hinv) hok
      refine ⟨b1, b2, ?_⟩
      rw [show i + (n + 1) = i + 1 + n by omega]
      exact b3

theorem do_open_some (f : FILE) :
    do_open (some f) = .error ERR_IO ∨
    (do_open (some f) = .ok (read_store f) ∧ (read_store f).header.max_files ≤ MAX_MAX_FILES) := by
  unfold do_open
  simp only []
  split
  · left; rfl
  · rename_i h
    split
    · left; rfl
    · right
      refine ⟨rfl, ?_⟩
      push_neg at h
      exact h.2


/-- The garbage collection when the temporary store has been created. Let `o` be the
store that `do_open` reads from the file, and suppose that it satisfies these
invariants of the reachable states: its NON_EMPTY slots have identifiers that
`strncmp` tells apart within `MAX_IMG_ID` bytes, original offsets below `2^63`,
original sizes below `2^32`, an SHA that `compare_sha` finds equal to the digest
of the bytes of the original image, and equal original sizes whenever their SHA
are equal. Then, when the temporary store has been created and `do_gbcollect`
returns ERR_NONE, the file left under the name of the store is the file of a
store `t` with the same `max_files` and the same four `res_resized` values,
whose `num_files` is the number `n` of NON_EMPTY slots of `o`, whose slots
below `n` are NON_EMPTY and whose other slots are EMPTY; the image of the
NON_EMPTY slot `k` of `o` is in the slot `slots_before o k`, the number of
NON_EMPTY slots of `o` below `k`, which keeps the order of the slots, with the
same identifier, SHA and original size. -/
theorem gbcollect_rebuilds (env : Env) (f : FILE) (io : Option (List Bool))
    (hcreate : (do_create io (temp_store (read_store f))).1 = ERR_NONE)
    (hid : ∀ k, k < (read_store f).header.max_files → ∀ j, j < (read_store f).header.max_files →
      ((read_store f).metadata k).is_valid = NON_EMPTY →
      ((read_store f).metadata j).is_valid = NON_EMPTY →
      strncmp ((read_store f).metadata k).img_id ((read_store f).metadata j).img_id MAX_IMG_ID = 0 →
      k = j)
    (hoff : ∀ k, k < (read_store f).header.max_files →
      ((read_store f).metadata k).is_valid = NON_EMPTY →
      ((read_store f).metadata k).offset RES_ORIG < 2 ^ 63)
    (hsha : ∀ k, k < (read_store f).header.max_files →
      ((read_store f).metadata k).is_valid = NON_EMPTY →
      compare_sha (env.SHA256 (original_bytes (read_store f) k)) ((read_store f).metadata k).SHA = 0)
    (hsame : ∀ k, k < (read_store f).header.max_files → ∀ j, j < (read_store f).header.max_files →
      ((read_store f).metadata k).is_valid = NON_EMPTY →
      ((read_store f).metadata j).is_valid = NON_EMPTY →
      compare_sha ((read_store f).metadata k).SHA ((read_store f).metadata j).SHA = 0 →
      ((read_store f).metadata k).size RES_ORIG = ((read_store f).metadata j).size RES_ORIG)
    (hsize : ∀ k, k < (read_store f).header.max_files →
      ((read_store f).metadata k).is_valid = NON_EMPTY →
      ((read_store f).metadata k).size RES_ORIG < 2 ^ 32)
    (hok : (do_gbcollect env (some f) io).1 = ERR_NONE) :
    ∃ t, (do_gbcollect env (some f) io).2.2 = some t ∧
      (do_gbcollect env (some f) io).2.1 = some t.file ∧
      t.header.max_files = (read_store f).header.max_files ∧
      (∀ k, k < 4 → t.header.res_resized k = (read_store f).header.res_resized k) ∧
      t.header.num_files = count_non_empty (read_store f) ∧
      (∀ j, j < count_non_empty (read_store f) → (t.metadata j).is_valid = NON_EMPTY) ∧
      (∀ j, count_non_empty (read_store f) ≤ j → (t.metadata j).is_valid = EMPTY) ∧
      (∀ k, k < (read_store f).header.max_files →
        ((read_store f).metadata k).is_valid = NON_EMPTY →
        slots_before (read_store f) k < count_non_empty (read_store f) ∧
        strncmp (t.metadata (slots_before (read_store f) k)).img_id
          ((read_store f).metadata k).img_id MAX_IMG_ID = 0 ∧
        compare_sha (t.metadata (slots_before (read_store f) k)).SHA
          ((read_store f).metadata k).SHA = 0 ∧
        (t.metadata (slots_before (read_store f) k)).size RES_ORIG
          = ((read_store f).metadata k).size RES_ORIG) := by
  obtain ⟨ch, cm, _, _, _⟩ := do_create_ok io (temp_store (read_store f)) hcreate
  have hio : io.isSome = true := by
    cases io with
    | none => simp [do_create] at hcreate
    | some _ => rfl
  have hinv0 : copied_below (read_store f) (do_create io (temp_store (read_store f))).2 0 := by
    refine ⟨by rw [ch]; rfl, fun j hj => ?_, fun j _ => by rw [cm], fun k hk => ?_⟩
    · have : slots_before (read_store f) 0 = 0 := rfl
      omega
    · omega
  rcases do_open_some f with hopen | ⟨hopen, hmax⟩
  · unfold do_gbcollect at hok
    rw [hopen] at hok
    cases hok
  · unfold do_gbcollect at hok ⊢
    rw [hopen] at hok ⊢
    simp only [] at hok ⊢
    split at hok
    · rename_i hg
      exact absurd hok hg
    · rename_i hg
      rw [if_neg hg, hio]
      have hg1 : (gc_loop env (read_store f).header.max_files 0 (read_store f)
          (do_create io (temp_store (read_store f))).2).1 = ERR_NONE := by_contra (fun h => hg h)
      obtain ⟨b1, b2, b3, b4, b5, b6⟩ := gc_loop_copies env (read_store f) hmax
        (fun k j hk hj hne hvk hvj hs => hne (hid k hk j hj hvk hvj hs)) hoff hsha (fun k j hk hj => hsame k hk j hj) hsize
        (read_store f).header.max_files 0 (read_store f) _ (by omega) rfl rfl (fun _ => rfl)
        (by rw [ch]; rfl) hinv0 hg1
      rw [Nat.zero_add] at b3 b4 b5 b6
      refine ⟨_, rfl, rfl, b1, fun k hk => ?_, b3, b4, b5, fun k hk hvk => ?_⟩
      · rw [b2, ch]
        show (if k < 4 then (read_store f).header.res_resized k else 0) = _
        rw [if_pos hk]
      · exact ⟨slots_before_lt _ k _ hk hvk, b6 k hk hvk⟩

set_option maxRecDepth 100000 in
/-- The garbage collection of the store of capacity 4 whose slot 0 is EMPTY and
whose slots 1, 2 and 3 hold `jpeg_a` under "pic2", "pic3" and "pic4". -/
theorem gbcollect_rebuilds_witness :
    ((do_create (some []) (temp_store (read_store trio_store.file))).1 = ERR_NONE ∧
      (∀ k, k < (read_store trio_store.file).header.max_files →
        ∀ j, j < (read_store trio_store.file).header.max_files →
        ((read_store trio_store.file).metadata k).is_valid = NON_EMPTY →
        ((read_store trio_store.file).metadata j).is_valid = NON_EMPTY →
        strncmp ((read_store trio_store.file).metadata k).img_id
          ((read_store trio_store.file).metadata j).img_id MAX_IMG_ID = 0 → k = j) ∧
      (∀ k, k < (read_store trio_store.file).header.max_files →
        ((read_store trio_store.file).metadata k).is_valid = NON_EMPTY →
        ((read_store trio_store.file).metadata k).offset RES_ORIG < 2 ^ 63) ∧
      (∀ k, k < (read_store trio_store.file).header.max_files →
        ((read_store trio_store.file).metadata k).is_valid = NON_EMPTY →
        compare_sha (sample_env.SHA256 (original_bytes (read_store trio_store.file) k))
          ((read_store trio_store.file).metadata k).SHA = 0) ∧
      (∀ k, k < (read_store trio_store.file).header.max_files →
        ∀ j, j < (read_store trio_store.file).header.max_files →
        ((read_store trio_store.file).metadata k).is_valid = NON_EMPTY →
        ((read_store trio_store.file).metadata j).is_valid = NON_EMPTY →
        compare_sha ((read_store trio_store.file).metadata k).SHA
          ((read_store trio_store.file).metadata j).SHA = 0 →
        ((read_store trio_store.file).metadata k).size RES_ORIG
          = ((read_store trio_store.file).metadata j).size RES_ORIG) ∧
      (∀ k, k < (read_store trio_store.file).header.max_files →
        ((read_store trio_store.file).metadata k).is_valid = NON_EMPTY →
        ((read_store trio_store.file).metadata k).size RES_ORIG < 2 ^ 32) ∧
      (do_gbcollect sample_env (some trio_store.file) (some [])).1 = ERR_NONE) ∧
    ∃ t, (do_gbcollect sample_env (some trio_store.file) (some [])).2.2 = some t ∧
      (do_gbcollect sample_env (some trio_store.file) (some [])).2.1 = some t.file ∧
      t.header.max_files = (read_store trio_store.file).header.max_files ∧
      (∀ k, k < 4 → t.header.res_resized k = (read_store trio_store.file).header.res_resized k) ∧
      t.header.num_files = count_non_empty (read_store trio_store.file) ∧
      (∀ j, j < count_non_empty (read_store trio_store.file) → (t.metadata j).is_valid = NON_EMPTY) ∧
      (∀ j, count_non_empty (read_store trio_store.file) ≤ j → (t.metadata j).is_valid = EMPTY) ∧
      (∀ k, k < (read_store trio_store.file).header.max_files →
        ((read_store trio_store.file).metadata k).is_valid = NON_EMPTY →
        slots_before (read_store trio_store.file) k < count_non_empty (read_store trio_store.file) ∧
        strncmp (t.metadata (slots_before (read_store trio_store.file) k)).img_id
          ((read_store trio_store.file).metadata k).img_id MAX_IMG_ID = 0 ∧
        compare_sha (t.metadata (slots_before (read_store trio_store.file) k)).SHA
          ((read_store trio_store.file).metadata k).SHA = 0 ∧
        (t.metadata (slots_before (read_store trio_store.file) k)).size RES_ORIG
          = ((read_store trio_store.file).metadata k).size RES_ORIG) :=
  ⟨⟨by decide, by decide, by decide, by decide, by decide, by decide, by decide⟩,
    gbcollect_rebuilds sample_env trio_store.file (some []) (by decide) (by decide) (by decide)
      (by decide) (by decide) (by decide) (by decide)⟩


/-- The check of the identifier in `do_insert_cmd`: an identifier of length 0
or of length above `MAX_IMG_ID` is refused whatever the files are. -/
theorem do_insert_cmd_refused (env : Env) (disk : List Nat → Option FILE)
    (argv : List (List Nat)) (hargs : 4 ≤ argv.length)
    (hid : strlen (argv.getD 2 []) = 0 ∨ MAX_IMG_ID < strlen (argv.getD 2 [])) :
    do_insert_cmd env disk argv = (ERR_INVALID_IMGID, none) := by
  unfold do_insert_cmd
  rw [if_neg (Nat.not_lt.mpr hargs)]
  simp only []
  rw [if_pos hid]

/-- Claim C21 (image id validation).  On an argument vector with the three
required arguments (`4 ≤ argv.length`, the name of the command included),
`do_insert_cmd` returns `ERR_INVALID_IMGID` whenever the identifier has length
0 or a length above 127, whatever the files of the disk are: no file is read and
no store is opened (the second component, the opened store, is `none`, and the
answer is the same on every disk).  An identifier of length 1 to 127 passes the
check: the command goes on with reading the image file, opening the store and
inserting the image. -/
theorem do_insert_cmd_validation (env : Env) (disk : List Nat → Option FILE)
    (argv : List (List Nat)) (hargs : 4 ≤ argv.length) :
    ((strlen (argv.getD 2 []) = 0 ∨ 127 < strlen (argv.getD 2 [])) →
      ∀ disk2 : List Nat → Option FILE,
        do_insert_cmd env disk2 argv = (ERR_INVALID_IMGID, none)) ∧
    ((1 ≤ strlen (argv.getD 2 []) ∧ strlen (argv.getD 2 []) ≤ 127) →
      do_insert_cmd env disk argv =
        insert_disk_image env disk (argv.getD 1 []) (argv.getD 2 []) (argv.getD 3 [])) := by
  constructor
  · intro hid disk2
    exact do_insert_cmd_refused env disk2 argv hargs hid
  · intro hid
    unfold do_insert_cmd
    rw [if_neg (Nat.not_lt.mpr hargs)]
    simp only []
    have hno : ¬ (strlen (argv.getD 2 []) = 0 ∨ strlen (argv.getD 2 []) > MAX_IMG_ID) := by
      intro h
      rcases h with h | h
      · omega
      · have h2 : 127 < strlen (argv.getD 2 []) := h
        omega
    rw [if_neg hno]

set_option maxRecDepth 100000 in
/-- The theorem `do_insert_cmd_validation` on the command
`insert store "" image`, whose identifier is empty. -/
theorem do_insert_cmd_validation_witness :
    4 ≤ ([[105], [115], [], [106]] : List (List Nat)).length ∧
    do_insert_cmd sample_env (fun _ => some half_store.file) [[105], [115], [], [106]] =
      (ERR_INVALID_IMGID, none) :=
  ⟨by decide,
   (do_insert_cmd_validation sample_env (fun _ => none) [[105], [115], [], [106]] (by decide)).1
     (by decide) (fun _ => some half_store.file)⟩


set_option maxRecDepth 100000 in
/-- Claim C27 (blob append offset) fails on a file of `2^31` bytes.  In
`two_gib_store`, whose file is `2^31` bytes long, `write_image_end_of_imgst`
of the 4 bytes of `jpeg_a` for the slot 0 returns `ERR_NONE` and leaves the file
with the 4 bytes at the offsets `2^31` to `2^31 + 3` and the length
`2^31 + 4`, but the offset it records is `2^64 - 2^31`, not the length `2^31`
that the file had. -/
theorem append_offset_two_gib :
    two_gib_store.file.len = 2 ^ 31 ∧
    (write_image_end_of_imgst 0 RES_ORIG jpeg_a 4 two_gib_store).1 = ERR_NONE ∧
    (write_image_end_of_imgst 0 RES_ORIG jpeg_a 4 two_gib_store).2.file.len = 2 ^ 31 + 4 ∧
    (∀ k, k < 4 →
      (write_image_end_of_imgst 0 RES_ORIG jpeg_a 4 two_gib_store).2.file.at (2 ^ 31 + k) =
        jpeg_a.getD k 0) ∧
    ((write_image_end_of_imgst 0 RES_ORIG jpeg_a 4 two_gib_store).2.metadata 0).offset RES_ORIG =
      2 ^ 64 - 2 ^ 31 ∧
    ((write_image_end_of_imgst 0 RES_ORIG jpeg_a 4 two_gib_store).2.metadata 0).offset RES_ORIG ≠
      two_gib_store.file.len := by
  decide

set_option maxRecDepth 100000 in
/-- Claim C30 (insert atomic on error in memory) fails on bytes that are not a
JPEG.  In `half_store`, which holds "pic1" in the slot 0 and whose slot 1 is
EMPTY, `do_insert` of the two bytes `00 01` under "pic2" returns `ERR_IMGLIB`;
the counters of the header in memory are those before the call, but the slot 1 is NON_EMPTY
afterwards, and `do_read` of "pic2", which returned `ERR_FILE_NOT_FOUND` before
the call, returns `ERR_NONE` and the two bytes after it. -/
theorem failed_insert_is_observable :
    (do_insert sample_env [0, 1] 2 pic2 half_store).1 = ERR_IMGLIB ∧
    (do_insert sample_env [0, 1] 2 pic2 half_store).2.header.num_files =
      half_store.header.num_files ∧
    (do_insert sample_env [0, 1] 2 pic2 half_store).2.header.imgst_version =
      half_store.header.imgst_version ∧
    (half_store.metadata 1).is_valid = EMPTY ∧
    ((do_insert sample_env [0, 1] 2 pic2 half_store).2.metadata 1).is_valid = NON_EMPTY ∧
    (do_read sample_env pic2 RES_ORIG half_store).1 = ERR_FILE_NOT_FOUND ∧
    (do_read sample_env pic2 RES_ORIG (do_insert sample_env [0, 1] 2 pic2 half_store).2).1 =
      ERR_NONE ∧
    (do_read sample_env pic2 RES_ORIG (do_insert sample_env [0, 1] 2 pic2 half_store).2).2.1 =
      some ([0, 1], 2) := by
  decide

set_option maxRecDepth 100000 in
/-- Claim C25 (read and delete address ids over 127 bytes) fails for
`do_delete`.  The store `twin_store` holds `jpeg_a` under `long_id 49` in the
slot 0 and `jpeg_b` under `long_id 50` in the slot 1; the two identifiers agree
on their first 31 bytes and differ in the 32nd.  `do_read` of `long_id 50`
returns the image of the slot 1, but `do_delete` of `long_id 50` returns
`ERR_NONE` after it has invalidated the slot 0: the slot 1, which holds
`long_id 50`, is still NON_EMPTY. -/
theorem do_delete_twin_id :
    (twin_store.metadata 0).is_valid = NON_EMPTY ∧
    (twin_store.metadata 1).is_valid = NON_EMPTY ∧
    strncmp (twin_store.metadata 0).img_id (long_id 49) MAX_IMG_ID = 0 ∧
    strncmp (twin_store.metadata 1).img_id (long_id 50) MAX_IMG_ID = 0 ∧
    strncmp (long_id 49) (long_id 50) 31 = 0 ∧
    strncmp (long_id 49) (long_id 50) MAX_IMG_ID ≠ 0 ∧
    (do_read sample_env (long_id 50) RES_ORIG twin_store).1 = ERR_NONE ∧
    (do_read sample_env (long_id 50) RES_ORIG twin_store).2.1 = some (jpeg_b, 5) ∧
    (do_delete (long_id 50) twin_store).1 = ERR_NONE ∧
    ((do_delete (long_id 50) twin_store).2.metadata 0).is_valid = EMPTY ∧
    ((do_delete (long_id 50) twin_store).2.metadata 1).is_valid = NON_EMPTY := by
  decide

set_option maxRecDepth 100000 in
/-- Claim C28 (no stale derived data on slot reuse) fails on a file of `2^31`
bytes.  In `stale_store` the slot 0 is EMPTY and carries the offset 500 and the
size 4 of the small image of the deleted "pic1", no slot is NON_EMPTY and the
file is `2^31` bytes long.  `do_insert` of `jpeg_b` under "pic2" returns
`ERR_NONE` and fills the slot 0, whose derived offsets and sizes are 0
afterwards, but the original offset of the slot is `2^64 - 2^31`, not the
length `2^31` that the file had before the call.  In `reuse_store`, the same
store with its file of 504 bytes, the original offset of the slot is 504. -/
theorem slot_reuse_two_gib :
    (stale_store.metadata 0).is_valid = EMPTY ∧
    (stale_store.metadata 1).is_valid = EMPTY ∧
    (stale_store.metadata 0).offset RES_SMALL = 500 ∧
    (stale_store.metadata 0).size RES_SMALL = 4 ∧
    stale_store.file.len = 2 ^ 31 ∧
    (do_insert sample_env jpeg_b 5 pic2 stale_store).1 = ERR_NONE ∧
    ((do_insert sample_env jpeg_b 5 pic2 stale_store).2.metadata 0).is_valid = NON_EMPTY ∧
    ((do_insert sample_env jpeg_b 5 pic2 stale_store).2.metadata 0).offset RES_THUMB = 0 ∧
    ((do_insert sample_env jpeg_b 5 pic2 stale_store).2.metadata 0).offset RES_SMALL = 0 ∧
    ((do_insert sample_env jpeg_b 5 pic2 stale_store).2.metadata 0).size RES_THUMB = 0 ∧
    ((do_insert sample_env jpeg_b 5 pic2 stale_store).2.metadata 0).size RES_SMALL = 0 ∧
    ((do_insert sample_env jpeg_b 5 pic2 stale_store).2.metadata 0).offset RES_ORIG =
      2 ^ 64 - 2 ^ 31 ∧
    ((do_insert sample_env jpeg_b 5 pic2 stale_store).2.metadata 0).offset RES_ORIG ≠
      stale_store.file.len ∧
    reuse_store.file.len = 504 ∧
    ((do_insert sample_env jpeg_b 5 pic2 reuse_store).2.metadata 0).offset RES_ORIG = 504 := by
  decide


/-! ## Identifiers compared over 31 bytes by the deduplicator -/

theorem dedup_loop_no_clash (index n i : Nat) (dup : Option Nat) (md : Nat → img_metadata)
    (h : ∀ j, i ≤ j → j < i + n → j ≠ index → (md j).is_valid = NON_EMPTY →
      strncmp (md j).img_id (md index).img_id MAX_IMGST_NAME ≠ 0) :
    (dedup_loop index n i dup md).1 = ERR_NONE := by
  induction n generalizing i dup md with
  | zero => rfl
  | succ n ih =>
    unfold dedup_loop
    split
    · rename_i hv
      rw [if_neg (h i (Nat.le_refl i) (by omega) hv.1 hv.2)]
      split
      · apply ih
        intro j h1 h2 hj hvj
        have hvj2 : (md j).is_valid = NON_EMPTY := by
          simpa [copy_offsets_sizes, Function.update_noteq hj] using hvj
        have := h j (by omega) (by omega) hj hvj2
        simpa [copy_offsets_sizes, Function.update_noteq hj] using this
      · exact ih _ _ _ (fun j h1 h2 hj hvj => h j (by omega) (by omega) hj hvj)
    · exact ih _ _ _ (fun j h1 h2 hj hvj => h j (by omega) (by omega) hj hvj)

theorem do_name_and_content_dedup_no_clash (s : imgst_file) (index : Nat)
    (h : ∀ j, j < s.header.max_files → j ≠ index → (s.metadata j).is_valid = NON_EMPTY →
      strncmp (s.metadata j).img_id (s.metadata index).img_id MAX_IMGST_NAME ≠ 0) :
    (do_name_and_content_dedup s index).1 ≠ ERR_DUPLICATE_ID ∧
    (index < s.header.max_files → (do_name_and_content_dedup s index).1 = ERR_NONE) := by
  have hl := dedup_loop_no_clash index s.header.max_files 0 none s.metadata
    (fun j _ h2 hj hv => h j (by omega) hj hv)
  unfold do_name_and_content_dedup
  split
  · exact ⟨(fun hc => by cases hc), fun hi => by omega⟩
  · simp only []
    rw [if_neg (by rw [hl]; decide)]
    split
    · exact ⟨(fun hc => by cases hc), fun _ => rfl⟩
    · exact ⟨(fun hc => by cases hc), fun _ => rfl⟩

/-- With room in the store, `do_insert` under an identifier that agrees over 31
bytes with the identifier of a NON_EMPTY slot returns `ERR_DUPLICATE_ID`. -/
theorem do_insert_duplicate_prefix (env : Env) (buffer : List Nat) (size : Nat) (Y : List Nat)
    (s : imgst_file) (j : Nat)
    (hroom : s.header.num_files < s.header.max_files)
    (hempty : ∃ i, i < s.header.max_files ∧ (s.metadata i).is_valid = EMPTY)
    (hj : j < s.header.max_files) (hv : (s.metadata j).is_valid = NON_EMPTY)
    (hid : strncmp (s.metadata j).img_id Y MAX_IMGST_NAME = 0) :
    (do_insert env buffer size Y s).1 = ERR_DUPLICATE_ID := by
  obtain ⟨i0, hi0, he⟩ := hempty
  obtain ⟨i, hfi⟩ := first_index_exists (p := fun i => decide ((s.metadata i).is_valid = 0))
    (n := s.header.max_files) (Nat.zero_le i0) (by omega) (by simpa [EMPTY] using he)
  obtain ⟨_, hi, hpi, _⟩ := first_index_eq_some hfi
  have hvi : (s.metadata i).is_valid = 0 := by simpa using hpi
  have hji : j ≠ i := by
    intro hji; subst hji; rw [hvi] at hv; cases hv
  have hd : (do_name_and_content_dedup (insert_candidate env buffer size Y s i) i).1
      = ERR_DUPLICATE_ID := by
    have hi2 : i < (insert_candidate env buffer size Y s i).header.max_files := by
      rw [insert_candidate_header]; omega
    apply do_name_and_content_dedup_duplicate (insert_candidate env buffer size Y s i) i j hi2 hj hji
    · rw [insert_candidate_is_valid]; exact hv
    · rw [insert_candidate_img_id, insert_candidate_other _ _ _ _ _ _ _ hji, strncmp_strncpy _ _ _ _ _
        (by decide)]
      exact hid
  unfold do_insert
  rw [if_neg (by omega), hfi]
  simp only [do_insert_at]
  rw [if_pos (by rw [hd]; decide)]
  exact hd

set_option maxRecDepth 100000 in
/-- Claim C24 as stated fails on a full store: the store of capacity 1 holds a
NON_EMPTY slot with the identifier `long_id 49`, the identifier `long_id 50`
agrees with it on its first 31 bytes and differs in the 32nd, and `do_insert`
under `long_id 50` returns `ERR_FULL_IMGSTORE`, not `ERR_DUPLICATE_ID`. -/
theorem do_insert_prefix_full_store :
    (full_long_store.metadata 0).is_valid = NON_EMPTY ∧
    strncmp (full_long_store.metadata 0).img_id (long_id 49) MAX_IMG_ID = 0 ∧
    strncmp (long_id 49) (long_id 50) 31 = 0 ∧
    strncmp (long_id 49) (long_id 50) 32 ≠ 0 ∧
    (do_insert sample_env jpeg_b 5 (long_id 50) full_long_store).1 = ERR_FULL_IMGSTORE ∧
    (do_insert sample_env jpeg_b 5 (long_id 50) full_long_store).1 ≠ ERR_DUPLICATE_ID := by
  decide

/-- Claim C24, as amended (insert compares ids over 31 bytes only).  When the
store has room (`num_files < max_files` and an EMPTY slot) and the identifier
`Y` agrees over 31 bytes with the identifier of a NON_EMPTY slot `j`, whether or
not the two identifiers differ later, `do_insert` of any bytes under `Y` returns
`ERR_DUPLICATE_ID`.  Conversely, when `Y` differs within its first 31 bytes
from the identifier of every NON_EMPTY slot, the deduplicator, called by
`do_insert` on a candidate slot `i` of the store, does not return
`ERR_DUPLICATE_ID`: it returns `ERR_NONE`. -/
theorem do_insert_compares_31_bytes (env : Env) (buffer : List Nat) (size : Nat) (Y : List Nat)
    (s : imgst_file) :
    (s.header.num_files < s.header.max_files →
      (∃ i, i < s.header.max_files ∧ (s.metadata i).is_valid = EMPTY) →
      ∀ j, j < s.header.max_files → (s.metadata j).is_valid = NON_EMPTY →
        strncmp (s.metadata j).img_id Y 31 = 0 →
        (do_insert env buffer size Y s).1 = ERR_DUPLICATE_ID) ∧
    ((∀ j, j < s.header.max_files → (s.metadata j).is_valid = NON_EMPTY →
        strncmp (s.metadata j).img_id Y 31 ≠ 0) →
      ∀ i, i < s.header.max_files →
        (do_name_and_content_dedup (insert_candidate env buffer size Y s i) i).1 = ERR_NONE ∧
        (do_name_and_content_dedup (insert_candidate env buffer size Y s i) i).1 ≠
          ERR_DUPLICATE_ID) := by
  constructor
  · intro hroom hempty j hj hv hid
    exact do_insert_duplicate_prefix env buffer size Y s j hroom hempty hj hv hid
  · intro h i hi
    have hc := do_name_and_content_dedup_no_clash (insert_candidate env buffer size Y s i) i
      (by
        intro j hj hji hv
        rw [insert_candidate_header] at hj
        rw [insert_candidate_is_valid] at hv
        rw [insert_candidate_img_id, insert_candidate_other _ _ _ _ _ _ _ hji,
          strncmp_strncpy _ _ _ _ _ (by decide)]
        exact h j hj hv)
    exact ⟨hc.2 (by rw [insert_candidate_header]; exact hi), hc.1⟩

set_option maxRecDepth 100000 in
/-- The theorem `do_insert_compares_31_bytes` on `long_store`, the store of
capacity 2 that holds `long_id 49`: `do_insert` under `long_id 50`, which
differs from it in the 32nd byte only, returns `ERR_DUPLICATE_ID`. -/
theorem do_insert_compares_31_bytes_witness :
    (long_store.header.num_files < long_store.header.max_files ∧
      (∃ i, i < long_store.header.max_files ∧ (long_store.metadata i).is_valid = EMPTY) ∧
      0 < long_store.header.max_files ∧ (long_store.metadata 0).is_valid = NON_EMPTY ∧
      strncmp (long_store.metadata 0).img_id (long_id 50) 31 = 0 ∧
      strncmp (long_store.metadata 0).img_id (long_id 50) MAX_IMG_ID ≠ 0) ∧
    (do_insert sample_env jpeg_b 5 (long_id 50) long_store).1 = ERR_DUPLICATE_ID :=
  ⟨⟨by decide, ⟨1, by decide, by decide⟩, by decide, by decide, by decide, by decide⟩,
    (do_insert_compares_31_bytes sample_env jpeg_b 5 (long_id 50) long_store).1 (by decide)
      ⟨1, by decide, by decide⟩ 0 (by decide) (by decide) (by decide)⟩


/-! ## The store after a successful insertion -/

theorem insert_commit_success_version (env : Env) (buffer : List Nat) (size : Nat) (s : imgst_file)
    (i : Nat) (hok : (insert_commit env buffer size s i).1 = ERR_NONE) :
    (insert_commit env buffer size s i).2.header.imgst_version =
      to_uint32 (s.header.imgst_version + 1) := by
  unfold insert_commit at hok ⊢
  simp only [] at hok ⊢
  split at hok
  · rename_i hg
    exact absurd hok hg
  · rename_i hg
    rw [if_neg hg]
    split at hok
    · rename_i hh
      exact absurd hok hh
    · rename_i hh
      rw [if_neg hh]
      rw [(update_metadata_frame _ _).2, (update_header_frame _).2]
      rfl

theorem do_insert_at_success_version (env : Env) (buffer : List Nat) (size : Nat)
    (img_id : List Nat) (s : imgst_file) (i : Nat)
    (hok : (do_insert_at env buffer size img_id s i).1 = ERR_NONE) :
    (do_insert_at env buffer size img_id s i).2.header.imgst_version =
      to_uint32 (s.header.imgst_version + 1) := by
  obtain ⟨_, hdh, _⟩ := do_name_and_content_dedup_frame (insert_candidate env buffer size img_id s i) i
  have hbh := (insert_blob_frame buffer size
    (do_name_and_content_dedup (insert_candidate env buffer size img_id s i) i).2 i).1
  unfold do_insert_at at hok ⊢
  simp only [] at hok ⊢
  split at hok
  · rename_i hd
    exact absurd hok hd
  · rename_i hd
    rw [if_neg hd]
    split at hok
    · rename_i hb
      exact absurd hok hb
    · rename_i hb
      rw [if_neg hb]
      have h1 := insert_commit_success_version env buffer size _ i hok
      rw [hbh, hdh, insert_candidate_header] at h1
      exact h1

/-- The store after a successful insertion.  When `do_insert` returns `ERR_NONE`, the
slot `c` it has filled is the lowest-index slot whose validity flag was EMPTY;
afterwards that slot is NON_EMPTY, its identifier is the one that `strncpy`
leaves for the given identifier and 127 bytes (it compares equal to the given
identifier over 127 bytes), its SHA is the digest of the `size` bytes of the
buffer, and its original size is the size given, as a `uint32_t`, or the
original size of a NON_EMPTY slot `d` with the same SHA; every other slot is the
one it was; `num_files` and `imgst_version` have been incremented by 1, as
`uint32_t` values, that is by exactly 1 when the capacity, resp. the next
version, is below `2^32`. -/
theorem do_insert_postcondition (env : Env) (buffer : List Nat) (size : Nat) (img_id : List Nat)
    (s : imgst_file) (hok : (do_insert env buffer size img_id s).1 = ERR_NONE) :
    ∃ c, c < s.header.max_files ∧ (s.metadata c).is_valid = EMPTY ∧
      (∀ j, j < c → (s.metadata j).is_valid ≠ EMPTY) ∧
      ((do_insert env buffer size img_id s).2.metadata c).is_valid = NON_EMPTY ∧
      ((do_insert env buffer size img_id s).2.metadata c).img_id =
        strncpy (s.metadata c).img_id img_id MAX_IMG_ID ∧
      strncmp ((do_insert env buffer size img_id s).2.metadata c).img_id img_id 127 = 0 ∧
      ((do_insert env buffer size img_id s).2.metadata c).SHA = env.SHA256 (buffer.take size) ∧
      (((do_insert env buffer size img_id s).2.metadata c).size RES_ORIG = to_uint32 size ∨
        ∃ d, d < s.header.max_files ∧ d ≠ c ∧ (s.metadata d).is_valid = NON_EMPTY ∧
          compare_sha (s.metadata d).SHA (env.SHA256 (buffer.take size)) = 0 ∧
          ((do_insert env buffer size img_id s).2.metadata c).size RES_ORIG =
            (s.metadata d).size RES_ORIG) ∧
      (∀ k, k ≠ c → (do_insert env buffer size img_id s).2.metadata k = s.metadata k) ∧
      (do_insert env buffer size img_id s).2.header.num_files =
        to_uint32 (s.header.num_files + 1) ∧
      (do_insert env buffer size img_id s).2.header.imgst_version =
        to_uint32 (s.header.imgst_version + 1) ∧
      (s.header.max_files < 2 ^ 32 →
        (do_insert env buffer size img_id s).2.header.num_files = s.header.num_files + 1) ∧
      (s.header.imgst_version + 1 < 2 ^ 32 →
        (do_insert env buffer size img_id s).2.header.imgst_version =
          s.header.imgst_version + 1) := by
  rcases do_insert_shape env buffer size img_id s with hfull | ⟨c, hc, hvc, hlow, hroom, heq⟩
  · rw [hfull] at hok
    cases hok
  · rw [heq] at hok ⊢
    obtain ⟨hnum, _, hvalid⟩ := do_insert_at_success env buffer size img_id s c hok
    have hver := do_insert_at_success_version env buffer size img_id s c hok
    obtain ⟨_, hother, hid, _⟩ := do_insert_at_keys env buffer size img_id s c
    refine ⟨c, hc, hvc, hlow, hvalid, hid, ?_, ?_, ?_, hother, hnum, hver, ?_, ?_⟩
    · rw [hid]
      exact strncmp_strncpy_self _ _ _
    · rcases do_insert_at_slot env buffer size img_id s c with h | ⟨_, _, hsha, _⟩
      · rw [hvalid, hvc] at h
        cases h
      · exact hsha
    · rcases do_insert_at_slot env buffer size img_id s c with h | ⟨_, _, _, hsz⟩
      · rw [hvalid, hvc] at h
        cases h
      · rcases hsz with ⟨h1, _⟩ | ⟨d, hd, hdc, hvd, hsd, hsize, _⟩
        · exact Or.inl h1
        · exact Or.inr ⟨d, hd, hdc, hvd, hsd, hsize⟩
    · intro hmax
      rw [hnum]
      unfold to_uint32
      exact Nat.mod_eq_of_lt (by omega)
    · intro hv
      rw [hver]
      unfold to_uint32
      exact Nat.mod_eq_of_lt hv

set_option maxRecDepth 100000 in
/-- The theorem `do_insert_postcondition` on the insertion of `jpeg_b` under
"pic2" in `half_store`, which fills the slot 1. -/
theorem do_insert_postcondition_witness :
    (do_insert sample_env jpeg_b 5 pic2 half_store).1 = ERR_NONE ∧
    ∃ c, c < half_store.header.max_files ∧ (half_store.metadata c).is_valid = EMPTY ∧
      (∀ j, j < c → (half_store.metadata j).is_valid ≠ EMPTY) ∧
      ((do_insert sample_env jpeg_b 5 pic2 half_store).2.metadata c).is_valid = NON_EMPTY ∧
      ((do_insert sample_env jpeg_b 5 pic2 half_store).2.metadata c).img_id =
        strncpy (half_store.metadata c).img_id pic2 MAX_IMG_ID ∧
      strncmp ((do_insert sample_env jpeg_b 5 pic2 half_store).2.metadata c).img_id pic2 127 = 0 ∧
      ((do_insert sample_env jpeg_b 5 pic2 half_store).2.metadata c).SHA =
        sample_env.SHA256 (jpeg_b.take 5) ∧
      (((do_insert sample_env jpeg_b 5 pic2 half_store).2.metadata c).size RES_ORIG = to_uint32 5 ∨
        ∃ d, d < half_store.header.max_files ∧ d ≠ c ∧
          (half_store.metadata d).is_valid = NON_EMPTY ∧
          compare_sha (half_store.metadata d).SHA (sample_env.SHA256 (jpeg_b.take 5)) = 0 ∧
          ((do_insert sample_env jpeg_b 5 pic2 half_store).2.metadata c).size RES_ORIG =
            (half_store.metadata d).size RES_ORIG) ∧
      (∀ k, k ≠ c → (do_insert sample_env jpeg_b 5 pic2 half_store).2.metadata k =
        half_store.metadata k) ∧
      (do_insert sample_env jpeg_b 5 pic2 half_store).2.header.num_files =
        to_uint32 (half_store.header.num_files + 1) ∧
      (do_insert sample_env jpeg_b 5 pic2 half_store).2.header.imgst_version =
        to_uint32 (half_store.header.imgst_version + 1) ∧
      (half_store.header.max_files < 2 ^ 32 →
        (do_insert sample_env jpeg_b 5 pic2 half_store).2.header.num_files =
          half_store.header.num_files + 1) ∧
      (half_store.header.imgst_version + 1 < 2 ^ 32 →
        (do_insert sample_env jpeg_b 5 pic2 half_store).2.header.imgst_version =
          half_store.header.imgst_version + 1) :=
  ⟨by decide, do_insert_postcondition sample_env jpeg_b 5 pic2 half_store (by decide)⟩


/-! ## The result of the deduplicator -/

theorem hex_digit_pair (x y : Nat)
    (h1 : hex_digit (x / 16) = hex_digit (y / 16)) (h2 : hex_digit (x % 16) = hex_digit (y % 16)) :
    x = y := by
  unfold hex_digit at h1 h2
  split_ifs at h1 h2 <;> omega

theorem hex_digit_ne_zero (d : Nat) : hex_digit d ≠ 0 := by
  unfold hex_digit
  split_ifs <;> omega

theorem strncmp_hex (la lb : List Nat) (hlen : la.length = lb.length) :
    strncmp ((la.map (fun x => [hex_digit (x / 16), hex_digit (x % 16)])).flatten)
      ((lb.map (fun x => [hex_digit (x / 16), hex_digit (x % 16)])).flatten) (2 * la.length) = 0 ↔
    la = lb := by
  induction la generalizing lb with
  | nil =>
    cases lb with
    | nil => simp [strncmp]
    | cons y lb => simp at hlen
  | cons x la ih =>
    cases lb with
    | nil => simp at hlen
    | cons y lb =>
      have hl : la.length = lb.length := by simpa using hlen
      have ih2 := ih lb hl
      have h2 : 2 * (x :: la).length = 2 * la.length + 1 + 1 := by
        simp only [List.length_cons]; ring
      rw [h2]
      simp only [List.map_cons, List.flatten_cons, List.cons_append, List.nil_append]
      rw [strncmp_succ]
      simp only [List.headD_cons, List.tail_cons]
      by_cases hd1 : hex_digit (x / 16) = hex_digit (y / 16)
      · rw [if_neg (fun h => h hd1), if_neg (hex_digit_ne_zero _), strncmp_succ]
        simp only [List.headD_cons, List.tail_cons]
        by_cases hd2 : hex_digit (x % 16) = hex_digit (y % 16)
        · rw [if_neg (fun h => h hd2), if_neg (hex_digit_ne_zero _), ih2]
          have hxy := hex_digit_pair x y hd1 hd2
          constructor
          · intro h; rw [hxy, h]
          · intro h; exact (List.cons.inj h).2
        · rw [if_pos hd2]
          constructor
          · intro h
            exfalso; apply hd2; omega
          · intro h
            exfalso; apply hd2; rw [(List.cons.inj h).1]
      · rw [if_pos hd1]
        constructor
        · intro h
          exfalso; apply hd1; omega
        · intro h
          exfalso; apply hd1; rw [(List.cons.inj h).1]

/-- The function `compare_sha` returns 0 if and only if the two values are
equal over all their 32 bytes. -/
theorem compare_sha_eq_zero_iff (sha1 sha2 : List Nat) :
    compare_sha sha1 sha2 = 0 ↔ same_sha sha1 sha2 := by
  have hs : ∀ sha : List Nat, sha_to_string sha =
      (((List.range SHA256_DIGEST_LENGTH).map (fun i => sha.getD i 0 % 256)).map
        (fun x => [hex_digit (x / 16), hex_digit (x % 16)])).flatten := by
    intro sha
    unfold sha_to_string
    rw [List.map_map]
    rfl
  unfold compare_sha
  rw [hs sha1, hs sha2]
  have h := strncmp_hex ((List.range SHA256_DIGEST_LENGTH).map (fun i => sha1.getD i 0 % 256))
    ((List.range SHA256_DIGEST_LENGTH).map (fun i => sha2.getD i 0 % 256))
    (by simp)
  have hlen : 2 * ((List.range SHA256_DIGEST_LENGTH).map (fun i => sha1.getD i 0 % 256)).length =
      SHA256_STRING_LENGTH := by
    simp [SHA256_STRING_LENGTH, SHA256_DIGEST_LENGTH]
  rw [hlen] at h
  rw [h, List.map_inj_left]
  constructor
  · intro hh k hk
    exact hh k (List.mem_range.mpr hk)
  · intro hh k hk
    exact hh k (List.mem_range.mp hk)

/-- The loop of `do_name_and_content_dedup` on slots without an identifier
clash: without a slot of the same SHA it leaves the metadata as it is, and
otherwise it copies the offsets and sizes of the first slot `d` of the same SHA. -/
theorem dedup_loop_lowest (index n i : Nat) (md : Nat → img_metadata)
    (hno : ∀ j, i ≤ j → j < i + n → j ≠ index → (md j).is_valid = NON_EMPTY →
      strncmp (md j).img_id (md index).img_id MAX_IMGST_NAME ≠ 0) :
    ((∀ j, i ≤ j → j < i + n → j ≠ index → (md j).is_valid = NON_EMPTY →
        compare_sha (md j).SHA (md index).SHA ≠ 0) →
      dedup_loop index n i none md = (ERR_NONE, none, md)) ∧
    (∀ d, i ≤ d → d < i + n → d ≠ index → (md d).is_valid = NON_EMPTY →
      compare_sha (md d).SHA (md index).SHA = 0 →
      (∀ j, i ≤ j → j < d → j ≠ index → (md j).is_valid = NON_EMPTY →
        compare_sha (md j).SHA (md index).SHA ≠ 0) →
      dedup_loop index n i none md = (ERR_NONE, some d, copy_offsets_sizes md index d)) := by
  induction n generalizing i with
  | zero =>
    refine ⟨fun _ => rfl, ?_⟩
    intro d h1 h2
    omega
  | succ n ih =>
    have ih2 := ih (i + 1) (fun j h1 h2 hj hv => hno j (by omega) (by omega) hj hv)
    constructor
    · intro hsha
      unfold dedup_loop
      split
      · rename_i hv
        rw [if_neg (hno i (Nat.le_refl i) (by omega) hv.1 hv.2),
          if_neg (fun h => hsha i (Nat.le_refl i) (by omega) hv.1 hv.2 h.2)]
        exact ih2.1 (fun j h1 h2 hj hvj => hsha j (by omega) (by omega) hj hvj)
      · exact ih2.1 (fun j h1 h2 hj hvj => hsha j (by omega) (by omega) hj hvj)
    · intro d h1 h2 hd hvd hsd hmin
      unfold dedup_loop
      by_cases hid : i = d
      · subst hid
        rw [if_pos ⟨hd, hvd⟩, if_neg (hno i (Nat.le_refl i) (by omega) hd hvd), if_pos ⟨rfl, hsd⟩]
        have hcode := dedup_loop_no_clash index n (i + 1) (some i) (copy_offsets_sizes md index i)
          (by
            intro j h1 h2 hj hvj
            have hvj2 : (md j).is_valid = NON_EMPTY := by
              simpa [copy_offsets_sizes, Function.update_noteq hj] using hvj
            have := hno j (by omega) (by omega) hj hvj2
            simpa [copy_offsets_sizes, Function.update_noteq hj] using this)
        have hrest := dedup_loop_some index n (i + 1) i (copy_offsets_sizes md index i)
        exact Prod.ext hcode hrest
      · have hlt : i < d := by omega
        have hrec := ih2.2 d (by omega) (by omega) hd hvd hsd
          (fun j h1 h2 hj hvj => hmin j (by omega) h2 hj hvj)
        split
        · rename_i hv
          rw [if_neg (hno i (Nat.le_refl i) (by omega) hv.1 hv.2),
            if_neg (fun h => hmin i (Nat.le_refl i) hlt hv.1 hv.2 h.2)]
          exact hrec
        · exact hrec

/-- Claim C23 (deduplicator result).  For a candidate index below `max_files`
such that no other NON_EMPTY slot holds an identifier that compares equal,
over 31 bytes, to the identifier of the candidate, `do_name_and_content_dedup`
returns `ERR_NONE` and leaves the file and the header as they were; (a) when
`d` is the lowest index of another NON_EMPTY slot whose SHA equals the SHA of
the candidate over all 32 bytes, the metadata are the ones given with the
offsets and the sizes of the slot `d` copied into the candidate slot, and such
a lowest index exists as soon as there is such a slot; (b) when there is no such
slot, the metadata are the ones given with the original offset of the candidate
set to 0.  In both cases every slot other than the candidate is the one given. -/
theorem do_name_and_content_dedup_result (s : imgst_file) (index : Nat)
    (hindex : index < s.header.max_files)
    (hno : ∀ j, j < s.header.max_files → j ≠ index → (s.metadata j).is_valid = NON_EMPTY →
      strncmp (s.metadata j).img_id (s.metadata index).img_id MAX_IMGST_NAME ≠ 0) :
    (do_name_and_content_dedup s index).1 = ERR_NONE ∧
    (do_name_and_content_dedup s index).2.file = s.file ∧
    (do_name_and_content_dedup s index).2.header = s.header ∧
    (∀ k, k ≠ index → (do_name_and_content_dedup s index).2.metadata k = s.metadata k) ∧
    (∀ d, d < s.header.max_files → d ≠ index → (s.metadata d).is_valid = NON_EMPTY →
      same_sha (s.metadata d).SHA (s.metadata index).SHA →
      (∀ j, j < d → j ≠ index → (s.metadata j).is_valid = NON_EMPTY →
        ¬ same_sha (s.metadata j).SHA (s.metadata index).SHA) →
      (do_name_and_content_dedup s index).2.metadata = copy_offsets_sizes s.metadata index d ∧
      ((do_name_and_content_dedup s index).2.metadata index).offset = (s.metadata d).offset ∧
      ((do_name_and_content_dedup s index).2.metadata index).size = (s.metadata d).size) ∧
    ((∃ e, e < s.header.max_files ∧ e ≠ index ∧ (s.metadata e).is_valid = NON_EMPTY ∧
        same_sha (s.metadata e).SHA (s.metadata index).SHA) →
      ∃ d, d < s.header.max_files ∧ d ≠ index ∧ (s.metadata d).is_valid = NON_EMPTY ∧
        same_sha (s.metadata d).SHA (s.metadata index).SHA ∧
        (∀ j, j < d → j ≠ index → (s.metadata j).is_valid = NON_EMPTY →
          ¬ same_sha (s.metadata j).SHA (s.metadata index).SHA) ∧
        (do_name_and_content_dedup s index).2.metadata = copy_offsets_sizes s.metadata index d) ∧
    ((∀ j, j < s.header.max_files → j ≠ index → (s.metadata j).is_valid = NON_EMPTY →
        ¬ same_sha (s.metadata j).SHA (s.metadata index).SHA) →
      (do_name_and_content_dedup s index).2.metadata = set_offset s.metadata index RES_ORIG 0 ∧
      ((do_name_and_content_dedup s index).2.metadata index).offset RES_ORIG = 0) := by
  obtain ⟨hfile, hheader, off, sz, hmd⟩ := do_name_and_content_dedup_frame s index
  obtain ⟨hnone, hsome⟩ := dedup_loop_lowest index s.header.max_files 0 s.metadata
    (fun j _ h2 hj hv => hno j (by omega) hj hv)
  have hdonor : ∀ d, d < s.header.max_files → d ≠ index → (s.metadata d).is_valid = NON_EMPTY →
      same_sha (s.metadata d).SHA (s.metadata index).SHA →
      (∀ j, j < d → j ≠ index → (s.metadata j).is_valid = NON_EMPTY →
        ¬ same_sha (s.metadata j).SHA (s.metadata index).SHA) →
      (do_name_and_content_dedup s index).2.metadata = copy_offsets_sizes s.metadata index d := by
    intro d hd hdi hvd hsd hmin
    have hl := hsome d (Nat.zero_le d) (by omega) hdi hvd ((compare_sha_eq_zero_iff _ _).mpr hsd)
      (fun j _ h2 hj hvj hc => hmin j h2 hj hvj ((compare_sha_eq_zero_iff _ _).mp hc))
    unfold do_name_and_content_dedup
    rw [if_neg (by omega)]
    simp only []
    rw [hl]
    rw [if_neg (fun h => h rfl), if_neg (by simp)]
  refine ⟨(do_name_and_content_dedup_no_clash s index hno).2 hindex, hfile, hheader, ?_, ?_, ?_, ?_⟩
  · intro k hk
    rw [hmd, Function.update_noteq hk]
  · intro d hd hdi hvd hsd hmin
    have h := hdonor d hd hdi hvd hsd hmin
    refine ⟨h, ?_, ?_⟩
    · rw [h]; simp [copy_offsets_sizes]
    · rw [h]; simp [copy_offsets_sizes]
  · intro hex
    have hex2 : ∃ e, e < s.header.max_files ∧ e ≠ index ∧ (s.metadata e).is_valid = NON_EMPTY ∧
        compare_sha (s.metadata e).SHA (s.metadata index).SHA = 0 := by
      obtain ⟨e, h1, h2, h3, h4⟩ := hex
      exact ⟨e, h1, h2, h3, (compare_sha_eq_zero_iff _ _).mpr h4⟩
    have hfind := Nat.find_spec hex2
    have hmin := fun j (hj : j < Nat.find hex2) => Nat.find_min hex2 hj
    refine ⟨Nat.find hex2, hfind.1, hfind.2.1, hfind.2.2.1,
      (compare_sha_eq_zero_iff _ _).mp hfind.2.2.2, ?_, ?_⟩
    · intro j hj hji hvj hsj
      exact hmin j hj ⟨by omega, hji, hvj, (compare_sha_eq_zero_iff _ _).mpr hsj⟩
    · apply hdonor _ hfind.1 hfind.2.1 hfind.2.2.1 ((compare_sha_eq_zero_iff _ _).mp hfind.2.2.2)
      intro j hj hji hvj hsj
      exact hmin j hj ⟨by omega, hji, hvj, (compare_sha_eq_zero_iff _ _).mpr hsj⟩
  · intro hnod
    have hl := hnone (fun j _ h2 hj hvj hc =>
      hnod j (by omega) hj hvj ((compare_sha_eq_zero_iff _ _).mp hc))
    have h : (do_name_and_content_dedup s index).2.metadata =
        set_offset s.metadata index RES_ORIG 0 := by
      unfold do_name_and_content_dedup
      rw [if_neg (by omega)]
      simp only []
      rw [hl]
      rw [if_neg (fun h => h rfl), if_pos rfl]
    refine ⟨h, ?_⟩
    rw [h]
    simp [set_offset]

set_option maxRecDepth 100000 in
/-- The theorem `do_name_and_content_dedup_result` on `candidate_store` and
the candidate slot 1, which holds the image of the slot 0 under another
identifier: the offsets and sizes of the slot 0 are copied into the slot 1. -/
theorem do_name_and_content_dedup_result_witness :
    1 < candidate_store.header.max_files ∧
    (∀ j, j < candidate_store.header.max_files → j ≠ 1 →
      (candidate_store.metadata j).is_valid = NON_EMPTY →
      strncmp (candidate_store.metadata j).img_id (candidate_store.metadata 1).img_id
        MAX_IMGST_NAME ≠ 0) ∧
    (candidate_store.metadata 0).is_valid = NON_EMPTY ∧
    same_sha (candidate_store.metadata 0).SHA (candidate_store.metadata 1).SHA ∧
    (do_name_and_content_dedup candidate_store 1).1 = ERR_NONE ∧
    (do_name_and_content_dedup candidate_store 1).2.metadata =
      copy_offsets_sizes candidate_store.metadata 1 0 ∧
    ((do_name_and_content_dedup candidate_store 1).2.metadata 1).offset =
      (candidate_store.metadata 0).offset :=
  ⟨by decide, by decide, by decide, by decide,
    (do_name_and_content_dedup_result candidate_store 1 (by decide) (by decide)).1,
    ((do_name_and_content_dedup_result candidate_store 1 (by decide) (by decide)).2.2.2.2.1 0
      (by decide) (by decide) (by decide) (by decide)
      (fun j hj => absurd hj (Nat.not_lt_zero j))).1,
    ((do_name_and_content_dedup_result candidate_store 1 (by decide) (by decide)).2.2.2.2.1 0
      (by decide) (by decide) (by decide) (by decide)
      (fun j hj => absurd hj (Nat.not_lt_zero j))).2.1⟩


/-! ## The slot of an image after the garbage collection -/

/-- After a successful `do_gbcollect` for which the temporary store has been
created, the image of each NON_EMPTY slot `k` of the store read from the file is
in the slot `slots_before o k` of the new store. -/
theorem gbcollect_slot (env : Env) (f : FILE) (io : Option (List Bool))
    (hcreate : (do_create io (temp_store (read_store f))).1 = ERR_NONE)
    (hid : ∀ k, k < (read_store f).header.max_files → ∀ j, j < (read_store f).header.max_files →
      ((read_store f).metadata k).is_valid = NON_EMPTY →
      ((read_store f).metadata j).is_valid = NON_EMPTY →
      strncmp ((read_store f).metadata k).img_id ((read_store f).metadata j).img_id MAX_IMG_ID = 0 →
      k = j)
    (hoff : ∀ k, k < (read_store f).header.max_files →
      ((read_store f).metadata k).is_valid = NON_EMPTY →
      ((read_store f).metadata k).offset RES_ORIG < 2 ^ 63)
    (hsha : ∀ k, k < (read_store f).header.max_files →
      ((read_store f).metadata k).is_valid = NON_EMPTY →
      compare_sha (env.SHA256 (original_bytes (read_store f) k)) ((read_store f).metadata k).SHA = 0)
    (hsame : ∀ k, k < (read_store f).header.max_files → ∀ j, j < (read_store f).header.max_files →
      ((read_store f).metadata k).is_valid = NON_EMPTY →
      ((read_store f).metadata j).is_valid = NON_EMPTY →
      compare_sha ((read_store f).metadata k).SHA ((read_store f).metadata j).SHA = 0 →
      ((read_store f).metadata k).size RES_ORIG = ((read_store f).metadata j).size RES_ORIG)
    (hsize : ∀ k, k < (read_store f).header.max_files →
      ((read_store f).metadata k).is_valid = NON_EMPTY →
      ((read_store f).metadata k).size RES_ORIG < 2 ^ 32)
    (hok : (do_gbcollect env (some f) io).1 = ERR_NONE) :
    ∃ t, (do_gbcollect env (some f) io).2.2 = some t ∧
      (∀ k, k < (read_store f).header.max_files →
        ((read_store f).metadata k).is_valid = NON_EMPTY →
        (t.metadata (slots_before (read_store f) k)).is_valid = NON_EMPTY ∧
        strncmp (t.metadata (slots_before (read_store f) k)).img_id
          ((read_store f).metadata k).img_id MAX_IMG_ID = 0 ∧
        compare_sha (t.metadata (slots_before (read_store f) k)).SHA
          ((read_store f).metadata k).SHA = 0 ∧
        (t.metadata (slots_before (read_store f) k)).size RES_ORIG
          = ((read_store f).metadata k).size RES_ORIG) := by
  obtain ⟨ch, cm, _, _, _⟩ := do_create_ok io (temp_store (read_store f)) hcreate
  have hinv0 : copied_below (read_store f) (do_create io (temp_store (read_store f))).2 0 := by
    refine ⟨by rw [ch]; rfl, fun j hj => ?_, fun j _ => by rw [cm], fun k hk => ?_⟩
    · have : slots_before (read_store f) 0 = 0 := rfl
      omega
    · omega
  rcases do_open_some f with hopen | ⟨hopen, hmax⟩
  · unfold do_gbcollect at hok
    rw [hopen] at hok
    cases hok
  · unfold do_gbcollect at hok ⊢
    rw [hopen] at hok ⊢
    simp only [] at hok ⊢
    split at hok
    · rename_i hg
      exact absurd hok hg
    · rename_i hg
      rw [if_neg hg]
      have hg1 : (gc_loop env (read_store f).header.max_files 0 (read_store f)
          (do_create io (temp_store (read_store f))).2).1 = ERR_NONE := by_contra (fun h => hg h)
      obtain ⟨_, _, _, b4, _, b6⟩ := gc_loop_copies env (read_store f) hmax
        (fun k j hk hj hne hvk hvj hs => hne (hid k hk j hj hvk hvj hs)) hoff hsha
        (fun k j hk hj => hsame k hk j hj) hsize
        (read_store f).header.max_files 0 (read_store f) _ (by omega) rfl rfl (fun _ => rfl)
        (by rw [ch]; rfl) hinv0 hg1
      rw [Nat.zero_add] at b4 b6
      refine ⟨_, rfl, fun k hk hvk => ?_⟩
      exact ⟨b4 _ (slots_before_lt _ k _ hk hvk), b6 k hk hvk⟩

/-- Claim C29 as stated fails.  In `gap_store`, a store of capacity 8, the image
"img7" was inserted in the slot 7 while the slots 0 to 6 were occupied and the
image "img3" of the slot 3 was then deleted.  `do_gbcollect` returns `ERR_NONE`
and leaves a store whose slot 3 holds "img4" and whose slot 6 holds "img7":
the slot 3 is not the slot of "img7". -/
theorem gbcollect_slot_seven_moves_to_six :
    ((do_open (some gap_store.file)).toOption.map
      (fun o => ((List.range 8).map (fun k => (o.metadata k).is_valid),
        strncmp (o.metadata 7).img_id (img_name 7) MAX_IMG_ID))) =
      some ([1, 1, 1, 0, 1, 1, 1, 1], 0) ∧
    (do_gbcollect sample_env (some gap_store.file) (some [])).1 = ERR_NONE ∧
    (do_gbcollect sample_env (some gap_store.file) (some [])).2.2.map
      (fun t => (strncmp (t.metadata 3).img_id (img_name 4) MAX_IMG_ID,
        strncmp (t.metadata 6).img_id (img_name 7) MAX_IMG_ID,
        (t.metadata 6).is_valid,
        decide (strncmp (t.metadata 3).img_id (img_name 7) MAX_IMG_ID = 0))) =
      some (0, 0, NON_EMPTY, false) := by
  decide!

/-- Claim C29, as amended (slot movement under compaction).  Let the store read
from the file satisfy the invariants under which the garbage collection copies
every image, and let its slots 0 to 7 be NON_EMPTY except the slot 3, which is
EMPTY: an image was inserted in the slot 7 while the slots 0 to 6 were occupied
and the slot 3 was then deleted.  When `do_gbcollect` returns `ERR_NONE`, the
image of the slot 7 is in the slot 6 of the new store, with its identifier, its
SHA and its original size: the compaction keeps the order of the images, and
the slot 3 of the new store holds the image of the slot 4, whose identifier is
not the one of the slot 7. -/
theorem gbcollect_moves_slot_seven (env : Env) (f : FILE) (io : Option (List Bool))
    (hcreate : (do_create io (temp_store (read_store f))).1 = ERR_NONE)
    (hid : ∀ k, k < (read_store f).header.max_files → ∀ j, j < (read_store f).header.max_files →
      ((read_store f).metadata k).is_valid = NON_EMPTY →
      ((read_store f).metadata j).is_valid = NON_EMPTY →
      strncmp ((read_store f).metadata k).img_id ((read_store f).metadata j).img_id MAX_IMG_ID = 0 →
      k = j)
    (hoff : ∀ k, k < (read_store f).header.max_files →
      ((read_store f).metadata k).is_valid = NON_EMPTY →
      ((read_store f).metadata k).offset RES_ORIG < 2 ^ 63)
    (hsha : ∀ k, k < (read_store f).header.max_files →
      ((read_store f).metadata k).is_valid = NON_EMPTY →
      compare_sha (env.SHA256 (original_bytes (read_store f) k)) ((read_store f).metadata k).SHA = 0)
    (hsame : ∀ k, k < (read_store f).header.max_files → ∀ j, j < (read_store f).header.max_files →
      ((read_store f).metadata k).is_valid = NON_EMPTY →
      ((read_store f).metadata j).is_valid = NON_EMPTY →
      compare_sha ((read_store f).metadata k).SHA ((read_store f).metadata j).SHA = 0 →
      ((read_store f).metadata k).size RES_ORIG = ((read_store f).metadata j).size RES_ORIG)
    (hsize : ∀ k, k < (read_store f).header.max_files →
      ((read_store f).metadata k).is_valid = NON_EMPTY →
      ((read_store f).metadata k).size RES_ORIG < 2 ^ 32)
    (hcap : 8 ≤ (read_store f).header.max_files)
    (hfilled : ∀ k, k < 8 → k ≠ 3 → ((read_store f).metadata k).is_valid = NON_EMPTY)
    (hdeleted : ((read_store f).metadata 3).is_valid = EMPTY)
    (hok : (do_gbcollect env (some f) io).1 = ERR_NONE) :
    ∃ t, (do_gbcollect env (some f) io).2.2 = some t ∧
      (t.metadata 6).is_valid = NON_EMPTY ∧
      strncmp (t.metadata 6).img_id ((read_store f).metadata 7).img_id MAX_IMG_ID = 0 ∧
      compare_sha (t.metadata 6).SHA ((read_store f).metadata 7).SHA = 0 ∧
      (t.metadata 6).size RES_ORIG = ((read_store f).metadata 7).size RES_ORIG ∧
      strncmp (t.metadata 3).img_id ((read_store f).metadata 4).img_id MAX_IMG_ID = 0 ∧
      strncmp (t.metadata 3).img_id ((read_store f).metadata 7).img_id MAX_IMG_ID ≠ 0 := by
  obtain ⟨t, ht, hslots⟩ := gbcollect_slot env f io hcreate hid hoff hsha hsame hsize hok
  have hne : ((read_store f).metadata 3).is_valid ≠ NON_EMPTY := by
    rw [hdeleted]; decide
  have h0 : slots_before (read_store f) 0 = 0 := rfl
  have h1 : slots_before (read_store f) 1 = 1 := by
    rw [slots_before_succ, h0, if_pos (hfilled 0 (by omega) (by omega))]
  have h2 : slots_before (read_store f) 2 = 2 := by
    rw [slots_before_succ, h1, if_pos (hfilled 1 (by omega) (by omega))]
  have h3 : slots_before (read_store f) 3 = 3 := by
    rw [slots_before_succ, h2, if_pos (hfilled 2 (by omega) (by omega))]
  have h4 : slots_before (read_store f) 4 = 3 := by
    rw [slots_before_succ, h3, if_neg hne]
  have h5 : slots_before (read_store f) 5 = 4 := by
    rw [slots_before_succ, h4, if_pos (hfilled 4 (by omega) (by omega))]
  have h6 : slots_before (read_store f) 6 = 5 := by
    rw [slots_before_succ, h5, if_pos (hfilled 5 (by omega) (by omega))]
  have h7 : slots_before (read_store f) 7 = 6 := by
    rw [slots_before_succ, h6, if_pos (hfilled 6 (by omega) (by omega))]
  have hv4 := hfilled 4 (by omega) (by omega)
  have hv7 := hfilled 7 (by omega) (by omega)
  obtain ⟨a1, a2, a3, a4⟩ := hslots 7 (by omega) hv7
  obtain ⟨_, b2, _, _⟩ := hslots 4 (by omega) hv4
  rw [h7] at a1 a2 a3 a4
  rw [h4] at b2
  refine ⟨t, ht, a1, a2, a3, a4, b2, ?_⟩
  intro hc
  have h47 := strncmp_trans _ _ _ _ (strncmp_symm _ _ _ b2) hc
  have := hid 4 (by omega) 7 (by omega) hv4 hv7 h47
  omega

set_option maxHeartbeats 4000000 in
/-- The theorem `gbcollect_moves_slot_seven` on the file of `gap_store`. -/
theorem gbcollect_moves_slot_seven_witness :
    ∃ t, (do_gbcollect sample_env (some gap_store.file) (some [])).2.2 = some t ∧
      (t.metadata 6).is_valid = NON_EMPTY ∧
      strncmp (t.metadata 6).img_id ((read_store gap_store.file).metadata 7).img_id MAX_IMG_ID = 0 ∧
      compare_sha (t.metadata 6).SHA ((read_store gap_store.file).metadata 7).SHA = 0 ∧
      (t.metadata 6).size RES_ORIG = ((read_store gap_store.file).metadata 7).size RES_ORIG ∧
      strncmp (t.metadata 3).img_id ((read_store gap_store.file).metadata 4).img_id MAX_IMG_ID = 0 ∧
      strncmp (t.metadata 3).img_id ((read_store gap_store.file).metadata 7).img_id MAX_IMG_ID ≠ 0 :=
  gbcollect_moves_slot_seven sample_env gap_store.file (some []) (by decide!) (by decide!)
    (by decide!) (by decide!) (by decide!) (by decide!) (by decide!) (by decide!) (by decide!)
    (by decide!)


/-! ## The derived resolutions after the garbage collection -/

theorem load_image_from_imgst_ok (index res size : Nat) (s : imgst_file)
    (hoff : (s.metadata index).offset res < 2 ^ 63) (hs : size ≠ 0)
    (hlen : (s.metadata index).offset res + size ≤ s.file.len) :
    (load_image_from_imgst index res size s).1 = ERR_NONE ∧
    (load_image_from_imgst index res size s).2.1 =
      (List.range size).map (fun k => s.file.at ((s.metadata index).offset res + k)) := by
  have h1 : (fread size (fseek_set s.file (to_long ((s.metadata index).offset res)))).1 = 1 := by
    unfold fread
    rw [if_neg hs, to_long_of_lt _ hoff, fseek_set_pos, fseek_set_len, if_pos hlen]
  have h2 := fread_ok _ _ h1
  unfold load_image_from_imgst
  simp only []
  rw [if_neg (by rw [h1]; simp)]
  refine ⟨rfl, ?_⟩
  simp only []
  rw [h2, to_long_of_lt _ hoff, fseek_set_pos]
  apply List.map_congr_left
  intro k _
  exact fseek_set_at _ _ _

/-- The function `do_read` in the original resolution returns `ERR_NONE` when
it finds the identifier in a slot whose original image lies within the file. -/
theorem do_read_orig_ok (env : Env) (img_id : List Nat) (s : imgst_file) (k : Nat)
    (hn : s.header.num_files ≠ 0)
    (hfi : first_index
      (fun i => decide (strncmp (s.metadata i).img_id img_id MAX_IMG_ID = 0 ∧
        (s.metadata i).is_valid = NON_EMPTY)) s.header.max_files 0 = some k)
    (h0 : (s.metadata k).offset RES_ORIG ≠ 0)
    (hoff : (s.metadata k).offset RES_ORIG < 2 ^ 63)
    (hs : (s.metadata k).size RES_ORIG ≠ 0)
    (hlen : (s.metadata k).offset RES_ORIG + (s.metadata k).size RES_ORIG ≤ s.file.len) :
    (do_read env img_id RES_ORIG s).1 = ERR_NONE := by
  have hcast : ((RES_ORIG : Nat) : Int).toNat = RES_ORIG := Int.toNat_natCast _
  obtain ⟨hl, _⟩ := load_image_from_imgst_ok k RES_ORIG ((s.metadata k).size RES_ORIG) s hoff hs hlen
  unfold do_read
  rw [if_neg (by decide), if_neg hn, hfi]
  simp only []
  rw [hcast, if_neg h0]
  simp only []
  rw [if_neg (by simp), if_neg (by rw [hl]; simp)]

/-- The function `lazily_resize` returns `ERR_NONE` for a derived resolution
that the slot does not have yet, when the original image is loaded, decoded and
resized and the device accepts every write. -/
theorem lazily_resize_ok (env : Env) (res : Nat) (s : imgst_file) (index : Nat)
    (xy : Nat × Nat) (buffer : List Nat)
    (hres : res = RES_THUMB ∨ res = RES_SMALL) (hi : index < s.header.max_files)
    (h0 : (s.metadata index).offset res = 0)
    (hl : (load_image_from_imgst index RES_ORIG ((s.metadata index).size RES_ORIG) s).1 = ERR_NONE)
    (hdec : env.vips_jpegload_buffer
      (load_image_from_imgst index RES_ORIG ((s.metadata index).size RES_ORIG) s).2.1 = some xy)
    (hbuf : env.vips_resize_jpegsave
      (load_image_from_imgst index RES_ORIG ((s.metadata index).size RES_ORIG) s).2.1
      (s.header.res_resized (2 * res)) (s.header.res_resized (2 * res + 1)) = some buffer)
    (hne : buffer.length ≠ 0) (hf : s.file.faults = []) :
    (lazily_resize env res s index).1 = ERR_NONE := by
  have hcast : ((res : Nat) : Int).toNat = res := Int.toNat_natCast res
  obtain ⟨_, hlf, _⟩ := load_image_from_imgst_file index RES_ORIG ((s.metadata index).size RES_ORIG) s
  have hw := write_image_end_of_imgst_ok index res buffer buffer.length
    (load_image_from_imgst index RES_ORIG ((s.metadata index).size RES_ORIG) s).2.2
    (by rw [hlf]; exact hf) hne
  unfold lazily_resize
  have hc1 : ¬ ((res : Int) < RES_THUMB ∨ (res : Int) > RES_ORIG ∨ index ≥ s.header.max_files) := by
    intro h
    rcases h with h | h | h
    · rcases hres with hres | hres <;> rw [hres] at h <;> exact absurd h (by decide)
    · rcases hres with hres | hres <;> rw [hres] at h <;> exact absurd h (by decide)
    · omega
  have hc2 : ¬ ((res : Int) = RES_ORIG ∨ (s.metadata index).offset ((res : Nat) : Int).toNat ≠ 0) := by
    intro h
    rcases h with h | h
    · rcases hres with hres | hres <;> rw [hres] at h <;> exact absurd h (by decide)
    · rw [hcast] at h
      exact h h0
  rw [if_neg hc1, if_neg hc2]
  simp only []
  rw [if_neg (by rw [hl]; simp), hdec]
  simp only []
  rw [hcast, hbuf]
  simp only []
  rw [hw]
  simp only []
  rw [if_neg (by simp)]
  rw [update_metadata_ok _ _ (by simp only [FILE.put, fseek_end]; rw [hlf]; exact hf)]

/-- The slot and the file after an insertion in a store of capacity 1 whose
slot is EMPTY, when the device accepts every write and the JPEG library decodes
the buffer: the slot has no derived image and the bytes of the buffer are at
the end of the file found. -/
theorem do_insert_single_slot (env : Env) (buffer : List Nat) (size : Nat) (img_id : List Nat)
    (s : imgst_file) (h1 : s.header.max_files = 1) (h0 : s.header.num_files = 0)
    (hv : (s.metadata 0).is_valid = 0) (hf : s.file.faults = []) (hs : size ≠ 0)
    (hlen : sizeof_imgst_header + sizeof_img_metadata ≤ s.file.len)
    (hj : (env.vips_jpegload_buffer (buffer.take size)).isSome = true) :
    ((do_insert env buffer size img_id s).2.metadata 0).offset RES_SMALL = 0 ∧
    ((do_insert env buffer size img_id s).2.metadata 0).offset RES_THUMB = 0 ∧
    ((do_insert env buffer size img_id s).2.metadata 0).size RES_ORIG = to_uint32 size ∧
    (do_insert env buffer size img_id s).2.header.res_resized = s.header.res_resized ∧
    ∀ k, s.file.len ≤ k → k < s.file.len + (buffer.take size).length →
      (do_insert env buffer size img_id s).2.file.at k = (buffer.take size).getD (k - s.file.len) 0 := by
  have hfi : first_index (fun i => decide ((s.metadata i).is_valid = 0)) 1 0 = some 0 := by
    simp [first_index, hv]
  obtain ⟨xy, hxy⟩ := Option.isSome_iff_exists.mp hj
  obtain ⟨sd, hsd, hsdf, hsdh, hsdm⟩ : ∃ sd,
      do_name_and_content_dedup (insert_candidate env buffer size img_id s 0) 0 = (ERR_NONE, sd) ∧
      sd.file = s.file ∧ sd.header = s.header ∧
      sd.metadata = set_offset (insert_candidate env buffer size img_id s 0).metadata 0 RES_ORIG 0 :=
    ⟨_, dedup_single _ (by rw [insert_candidate_header]; exact h1), rfl, rfl, rfl⟩
  obtain ⟨hb1, hb2, hb3, hb4⟩ := insert_blob_ok buffer size sd 0
    (by rw [hsdm]; simp [set_offset]) (by rw [hsdf]; exact hf) hs
  obtain ⟨hc1, hc2, hc3, hc4, hc5⟩ := insert_commit_ok env buffer size (insert_blob buffer size sd 0).2 0 xy
    (by rw [hb3]; exact (by rw [hsdf]; exact hf)) hxy
  have hres : do_insert env buffer size img_id s =
      insert_commit env buffer size (insert_blob buffer size sd 0).2 0 := by
    unfold do_insert
    rw [if_neg (by omega), h1, hfi]
    simp only [do_insert_at]
    rw [hsd]
    simp only [ne_eq, not_true_eq_false, if_false]
    rw [if_neg (by rw [hb1]; simp)]
  have hblob := update_header_metadata_blobs
    (count_image (mark_valid (insert_blob buffer size sd 0).2 0) 0 xy.2 xy.1) 0 1 (by omega) (by decide)
  rw [hres]
  refine ⟨?_, ?_, ?_, ?_, ?_⟩
  · rw [hc3]; simp only [count_image, mark_valid]; rw [hb4, hsdm]
    simp [set_size, set_offset, RES_ORIG, RES_SMALL, RES_THUMB]
  · rw [hc3]; simp only [count_image, mark_valid]; rw [hb4, hsdm]
    simp [set_size, set_offset, RES_ORIG, RES_SMALL, RES_THUMB]
  · rw [hc3]; simp only [count_image, mark_valid]; rw [hb4, hsdm]
    simp [set_size, set_offset, insert_candidate, RES_ORIG, RES_SMALL, RES_THUMB]
  · rw [hc2]; simp only [count_image, mark_valid]; rw [hb2, hsdh]
  · intro k hk1 hk2
    rw [hc5, hblob.1 k (by omega)]
    show (insert_blob buffer size sd 0).2.file.at k = _
    rw [hb3, put_at, hsdf]
    have hpos : (fseek_end s.file).pos = s.file.len := rfl
    rw [hpos, if_pos ⟨hk1, hk2⟩]

theorem headD_map_range (g : Nat → Nat) (n : Nat) (hn : n ≠ 0) :
    ((List.range n).map g).headD 0 = g 0 := by
  obtain ⟨m, rfl⟩ : ∃ m, n = m + 1 := ⟨n - 1, by omega⟩
  rw [List.range_succ_eq_map]
  rfl

theorem gc_step_ok (env : Env) (o t : imgst_file) (i : Nat)
    (hr : (do_read env (o.metadata i).img_id RES_ORIG o).1 = ERR_NONE)
    (hins : (do_insert env
      ((do_read env (o.metadata i).img_id RES_ORIG o).2.1.getD
        ([], to_uint32 ((o.metadata i).size RES_ORIG))).1
      ((do_read env (o.metadata i).img_id RES_ORIG o).2.1.getD
        ([], to_uint32 ((o.metadata i).size RES_ORIG))).2
      ((do_read env (o.metadata i).img_id RES_ORIG o).2.2.metadata i).img_id t).1 = ERR_NONE)
    (hz : (gc_resize env (do_read env (o.metadata i).img_id RES_ORIG o).2.2
        (do_insert env
          ((do_read env (o.metadata i).img_id RES_ORIG o).2.1.getD
            ([], to_uint32 ((o.metadata i).size RES_ORIG))).1
          ((do_read env (o.metadata i).img_id RES_ORIG o).2.1.getD
            ([], to_uint32 ((o.metadata i).size RES_ORIG))).2
          ((do_read env (o.metadata i).img_id RES_ORIG o).2.2.metadata i).img_id t).2 i).1 = ERR_NONE) :
    (gc_step env o t i).1 = ERR_NONE := by
  unfold gc_step
  simp only []
  rw [if_neg (not_not.mpr hr), if_neg (not_not.mpr hins)]
  exact hz

theorem gc_resize_small (env : Env) (o t : imgst_file) (i : Nat)
    (hs : (o.metadata i).offset RES_SMALL ≠ 0) (ht : (o.metadata i).offset RES_THUMB = 0) :
    gc_resize env o t i =
      lazily_resize env RES_SMALL t (to_uint32 (t.header.num_files + (2 ^ 32 - 1))) := by
  unfold gc_resize
  simp only []
  rw [if_pos hs]
  split
  · rfl
  · rename_i h
    rw [if_neg (not_not.mpr ht)]
    have h1 : (lazily_resize env RES_SMALL t (to_uint32 (t.header.num_files + (2 ^ 32 - 1)))).1
        = ERR_NONE := by_contra (fun hne => h hne)
    exact Prod.ext h1.symm rfl

theorem gc_loop_one (env : Env) (o t : imgst_file) (i : Nat)
    (hv : (o.metadata i).is_valid = NON_EMPTY) (hok : (gc_step env o t i).1 = ERR_NONE) :
    gc_loop env 1 i o t = (ERR_NONE, (gc_step env o t i).2.1, (gc_step env o t i).2.2) := by
  unfold gc_loop
  rw [if_pos hv]
  simp only []
  rw [if_neg (not_not.mpr hok)]
  rfl

/-- The index `temp_file.header.num_files - 1` that `do_gbcollect` passes to
`lazily_resize` after a successful `do_insert`: in a temporary store whose
first `n` slots are NON_EMPTY, whose other slots are EMPTY and whose `num_files`
is `n`, it is `n`, the index of the slot that `do_insert` has just filled. -/
theorem gc_index_is_filled_slot (env : Env) (buffer : List Nat) (size : Nat) (img_id : List Nat)
    (t : imgst_file) (hmax : t.header.max_files ≤ MAX_MAX_FILES)
    (hfilled : ∀ j, j < t.header.num_files → (t.metadata j).is_valid = NON_EMPTY)
    (hempty : ∀ j, t.header.num_files ≤ j → (t.metadata j).is_valid = EMPTY)
    (hok : (do_insert env buffer size img_id t).1 = ERR_NONE) :
    to_uint32 ((do_insert env buffer size img_id t).2.header.num_files + (2 ^ 32 - 1)) =
      t.header.num_files ∧
    ((do_insert env buffer size img_id t).2.metadata t.header.num_files).is_valid = NON_EMPTY ∧
    ∀ k, k ≠ t.header.num_files → (do_insert env buffer size img_id t).2.metadata k = t.metadata k := by
  rcases do_insert_shape env buffer size img_id t with hfull | ⟨c, hc, hvc, hlow, hroom, heq⟩
  · rw [hfull] at hok
    cases hok
  · have hcn : c = t.header.num_files := by
      by_contra hne
      rcases Nat.lt_or_gt_of_ne hne with h | h
      · have := hfilled c h
        rw [hvc] at this
        cases this
      · exact hlow _ h (hempty _ (Nat.le_refl _))
    rw [heq] at hok ⊢
    obtain ⟨hnum, _, hvalid⟩ := do_insert_at_success env buffer size img_id t c hok
    obtain ⟨_, hother, _, _⟩ := do_insert_at_keys env buffer size img_id t c
    have hM : MAX_MAX_FILES = 100000 := rfl
    rw [hM] at hmax
    have hb : t.header.num_files < 100000 := by omega
    refine ⟨?_, by rw [← hcn]; exact hvalid, fun k hk => hother k (by rw [hcn]; exact hk)⟩
    rw [hnum]
    unfold to_uint32
    have h1 : (t.header.num_files + 1) % 2 ^ 32 = t.header.num_files + 1 :=
      Nat.mod_eq_of_lt (by omega)
    rw [h1]
    omega

theorem sample_env_decode (b : List Nat) (h : b.headD 0 = 255) :
    sample_env.vips_jpegload_buffer b = some (4, 3) := by
  show (if b.headD 0 = 255 then some ((4 : Nat), (3 : Nat)) else none) = some (4, 3)
  rw [if_pos h]

theorem set_size_set_offset_slot (md : Nat → img_metadata) (index res v w : Nat) :
    ((set_size (set_offset md index res v) index res w) index).is_valid = (md index).is_valid ∧
    ((set_size (set_offset md index res v) index res w) index).offset res = v := by
  simp [set_size, set_offset]

theorem getD_map_range (g : Nat → Nat) (n k : Nat) (hk : k < n) :
    ((List.range n).map g).getD k 0 = g k := by
  rw [List.getD_eq_getElem _ _ (by simp [hk])]
  simp

theorem map_slot_eq (x : Option imgst_file) (g : imgst_file) (a b : Nat) (hx : x = some g)
    (h1 : (g.metadata 0).is_valid = a) (h2 : (g.metadata 0).offset RES_SMALL = b) :
    x.map (fun t => ((t.metadata 0).is_valid, (t.metadata 0).offset RES_SMALL)) = some (a, b) := by
  subst hx
  simp [h1, h2]

/-- The function `do_gbcollect` on a store of capacity 1 whose slot is NON_EMPTY,
when the body of the loop succeeds. -/
theorem gbcollect_single (env : Env) (f : FILE) (io : Option (List Bool)) (o : imgst_file)
    (hopen : do_open (some f) = .ok o) (h1 : o.header.max_files = 1)
    (hv : (o.metadata 0).is_valid = NON_EMPTY)
    (hstep : (gc_step env o (do_create io (temp_store o)).2 0).1 = ERR_NONE) :
    do_gbcollect env (some f) io =
      (ERR_NONE,
        if io.isSome then some (gc_step env o (do_create io (temp_store o)).2 0).2.2.file else none,
        some (gc_step env o (do_create io (temp_store o)).2 0).2.2) := by
  have hloop := gc_loop_one env o (do_create io (temp_store o)).2 0 hv hstep
  unfold do_gbcollect
  rw [hopen]
  simp only []
  rw [h1, hloop]
  simp

/-- Claim C26 fails when the new file reaches `2^32` bytes.  The file
`giant_file` is a store of capacity 1 whose slot holds an image of `2^32 - 280`
bytes at the offset 280 and its small image at the offset `2^32`.
`do_gbcollect` returns `ERR_NONE`: it inserts the image in the new store, whose
file is then `2^32` bytes long, and calls `lazily_resize` on the slot 0, the slot
just filled, which appends the small image and records the offset 0.  The slot
of the new store is NON_EMPTY and its small offset is 0, although the small
offset of the source slot is not 0. -/
theorem gbcollect_small_offset_wraps :
    ((do_open (some giant_file)).toOption.map
      (fun o => (o.header.max_files, (o.metadata 0).is_valid, (o.metadata 0).size RES_ORIG,
        (o.metadata 0).offset RES_ORIG, (o.metadata 0).offset RES_SMALL))) =
      some (1, NON_EMPTY, 2 ^ 32 - 280, 280, 2 ^ 32) ∧
    (do_gbcollect sample_env (some giant_file) (some [])).1 = ERR_NONE ∧
    (do_gbcollect sample_env (some giant_file) (some [])).2.2.map
      (fun t => ((t.metadata 0).is_valid, (t.metadata 0).offset RES_SMALL)) =
      some (NON_EMPTY, 0) := by
  -- the store read from the file
  have o1 : (read_store giant_file).header.max_files = 1 := by decide!
  have o2 : (read_store giant_file).header.num_files = 1 := by decide!
  have o3 : ((read_store giant_file).metadata 0).is_valid = NON_EMPTY := by decide!
  have o4 : first_index
      (fun i => decide (strncmp ((read_store giant_file).metadata i).img_id
        ((read_store giant_file).metadata 0).img_id MAX_IMG_ID = 0 ∧
        ((read_store giant_file).metadata i).is_valid = NON_EMPTY))
      (read_store giant_file).header.max_files 0 = some 0 := by decide!
  have o5 : ((read_store giant_file).metadata 0).offset RES_ORIG = 280 := by decide!
  have o6 : ((read_store giant_file).metadata 0).size RES_ORIG = 2 ^ 32 - 280 := by decide!
  have o7 : ((read_store giant_file).metadata 0).offset RES_SMALL = 2 ^ 32 := by decide!
  have o8 : ((read_store giant_file).metadata 0).offset RES_THUMB = 0 := by decide!
  have o9 : (read_store giant_file).file.len = 2 ^ 32 + 4 := by decide!
  have o10 : (read_store giant_file).file.at 280 = 255 := by decide!
  have hopen : do_open (some giant_file) = .ok (read_store giant_file) := by
    rcases do_open_some giant_file with h | ⟨h, _⟩
    · have hs : (do_open (some giant_file)).toOption.isSome = true := by decide!
      rw [h] at hs
      cases hs
    · exact h
  -- the temporary store
  have t1 : (do_create (some []) (temp_store (read_store giant_file))).2.header.max_files = 1 := by
    decide!
  have t2 : (do_create (some []) (temp_store (read_store giant_file))).2.header.num_files = 0 := by
    decide!
  have t3 : ((do_create (some []) (temp_store (read_store giant_file))).2.metadata 0).is_valid = 0 := by
    decide!
  have t4 : (do_create (some []) (temp_store (read_store giant_file))).2.file.faults = [] := by
    decide!
  have t5 : (do_create (some []) (temp_store (read_store giant_file))).2.file.len = 280 := by
    decide!
  -- the read of the original image
  have hr1 := do_read_orig_ok sample_env ((read_store giant_file).metadata 0).img_id
    (read_store giant_file) 0 (by rw [o2]; decide) o4 (by rw [o5]; decide) (by rw [o5]; decide)
    (by rw [o6]; decide) (by rw [o5, o6, o9]; decide)
  obtain ⟨⟨k, hk, _, _, hbytes⟩, hrm, _, _, _⟩ := do_read_orig sample_env
    ((read_store giant_file).metadata 0).img_id (read_store giant_file)
    (by
      intro k hk _
      rw [o1] at hk
      have hk0 : k = 0 := by omega
      rw [hk0, o5]
      decide) hr1
  have hk0 : k = 0 := by rw [o1] at hk; omega
  rw [hk0, o6] at hbytes
  have himg1 : ((do_read sample_env ((read_store giant_file).metadata 0).img_id RES_ORIG
      (read_store giant_file)).2.1.getD
      ([], to_uint32 (((read_store giant_file).metadata 0).size RES_ORIG))).1 =
      original_bytes (read_store giant_file) 0 := by
    rw [hbytes, Option.getD_some]
  have himg2 : ((do_read sample_env ((read_store giant_file).metadata 0).img_id RES_ORIG
      (read_store giant_file)).2.1.getD
      ([], to_uint32 (((read_store giant_file).metadata 0).size RES_ORIG))).2 = 2 ^ 32 - 280 := by
    rw [hbytes, Option.getD_some]
  -- the image
  have hlenB : (original_bytes (read_store giant_file) 0).length = 2 ^ 32 - 280 := by
    rw [original_bytes_length, o6]
  have hB : (original_bytes (read_store giant_file) 0).take (2 ^ 32 - 280) =
      original_bytes (read_store giant_file) 0 := List.take_of_length_le (by rw [hlenB])
  have hget : (original_bytes (read_store giant_file) 0).getD 0 0 = 255 := by
    unfold original_bytes
    rw [getD_map_range _ _ _ (by rw [o6]; decide), o5]
    exact o10
  have hhead : (original_bytes (read_store giant_file) 0).headD 0 = 255 := by
    unfold original_bytes
    rw [headD_map_range _ _ (by rw [o6]; decide), o5]
    exact o10
  have hj : (sample_env.vips_jpegload_buffer
      ((original_bytes (read_store giant_file) 0).take (2 ^ 32 - 280))).isSome = true := by
    rw [hB, sample_env_decode _ hhead]
    rfl
  -- the insertion in the temporary store
  obtain ⟨i1, i2, i3, i4, i5, i6, _, i8⟩ := do_insert_single sample_env
    (original_bytes (read_store giant_file) 0) (2 ^ 32 - 280)
    ((do_read sample_env ((read_store giant_file).metadata 0).img_id RES_ORIG
      (read_store giant_file)).2.2.metadata 0).img_id
    (do_create (some []) (temp_store (read_store giant_file))).2 t1 t2 t3 t4 (by decide)
    (by rw [t5]; decide) hj
  obtain ⟨j1, _, j3, _, j5⟩ := do_insert_single_slot sample_env
    (original_bytes (read_store giant_file) 0) (2 ^ 32 - 280)
    ((do_read sample_env ((read_store giant_file).metadata 0).img_id RES_ORIG
      (read_store giant_file)).2.2.metadata 0).img_id
    (do_create (some []) (temp_store (read_store giant_file))).2 t1 t2 t3 t4 (by decide)
    (by rw [t5]; decide) hj
  rw [t5, hB, hlenB] at i5
  rw [t5] at i8
  have i8b : to_uint64 (to_int 280) = 280 := by decide
  rw [i8b] at i8
  have j3b : to_uint32 (2 ^ 32 - 280) = 2 ^ 32 - 280 := by decide
  rw [j3b] at j3
  have hat := j5 280 (by rw [t5]) (by rw [t5, hB, hlenB]; decide)
  rw [t5, hB, Nat.sub_self, hget] at hat
  -- the small image in the temporary store
  obtain ⟨hl1, hl2⟩ := load_image_from_imgst_ok 0 RES_ORIG
    (((do_insert sample_env (original_bytes (read_store giant_file) 0) (2 ^ 32 - 280)
      ((do_read sample_env ((read_store giant_file).metadata 0).img_id RES_ORIG
        (read_store giant_file)).2.2.metadata 0).img_id
      (do_create (some []) (temp_store (read_store giant_file))).2).2.metadata 0).size RES_ORIG)
    (do_insert sample_env (original_bytes (read_store giant_file) 0) (2 ^ 32 - 280)
      ((do_read sample_env ((read_store giant_file).metadata 0).img_id RES_ORIG
        (read_store giant_file)).2.2.metadata 0).img_id
      (do_create (some []) (temp_store (read_store giant_file))).2).2
    (by rw [i8]; decide) (by rw [j3]; decide) (by rw [i8, j3, i5])
  have hdec : sample_env.vips_jpegload_buffer
      (load_image_from_imgst 0 RES_ORIG
        (((do_insert sample_env (original_bytes (read_store giant_file) 0) (2 ^ 32 - 280)
          ((do_read sample_env ((read_store giant_file).metadata 0).img_id RES_ORIG
            (read_store giant_file)).2.2.metadata 0).img_id
          (do_create (some []) (temp_store (read_store giant_file))).2).2.metadata 0).size RES_ORIG)
        (do_insert sample_env (original_bytes (read_store giant_file) 0) (2 ^ 32 - 280)
          ((do_read sample_env ((read_store giant_file).metadata 0).img_id RES_ORIG
            (read_store giant_file)).2.2.metadata 0).img_id
          (do_create (some []) (temp_store (read_store giant_file))).2).2).2.1 = some (4, 3) := by
    rw [hl2]
    apply sample_env_decode
    rw [headD_map_range _ _ (by rw [j3]; decide), i8, Nat.add_zero]
    exact hat
  have hlz := lazily_resize_ok sample_env RES_SMALL _ 0 (4, 3) _ (Or.inr rfl)
    (by rw [i2]; decide) j1 hl1 hdec rfl (by simp) i4
  obtain ⟨buffer, _, _, _, hm, _, _, _⟩ := lazily_resize_success sample_env RES_SMALL _ 0
    (Or.inr rfl) j1 (by rw [i2]; decide) hlz
  have hidx : to_uint32 ((do_insert sample_env (original_bytes (read_store giant_file) 0)
      (2 ^ 32 - 280)
      ((do_read sample_env ((read_store giant_file).metadata 0).img_id RES_ORIG
        (read_store giant_file)).2.2.metadata 0).img_id
      (do_create (some []) (temp_store (read_store giant_file))).2).2.header.num_files
      + (2 ^ 32 - 1)) = 0 := by
    rw [i3]; decide
  have hs : ((do_read sample_env ((read_store giant_file).metadata 0).img_id RES_ORIG
      (read_store giant_file)).2.2.metadata 0).offset RES_SMALL ≠ 0 := by
    rw [hrm, o7]; decide
  have ht : ((do_read sample_env ((read_store giant_file).metadata 0).img_id RES_ORIG
      (read_store giant_file)).2.2.metadata 0).offset RES_THUMB = 0 := by
    rw [hrm, o8]
  -- the loop
  have hstep := gc_step_ok sample_env (read_store giant_file)
    (do_create (some []) (temp_store (read_store giant_file))).2 0 hr1
    (by rw [himg1, himg2]; exact i1)
    (by rw [himg1, himg2, gc_resize_small _ _ _ _ hs ht, hidx]; exact hlz)
  obtain ⟨_, _, _, g2⟩ := gc_step_success sample_env (read_store giant_file)
    (do_create (some []) (temp_store (read_store giant_file))).2 0 hstep
  rw [himg1, himg2, gc_resize_small _ _ _ _ hs ht, hidx] at g2
  have hloop := gc_loop_one sample_env (read_store giant_file)
    (do_create (some []) (temp_store (read_store giant_file))).2 0 o3 hstep
  have e1 := (congrArg imgst_file.metadata g2).trans hm
  have e2 := (congrArg (fun md : Nat → img_metadata => (md 0).is_valid) e1).trans
    ((set_size_set_offset_slot _ _ _ _ _).1.trans i6)
  have hw : to_uint64 (to_int (280 + (2 ^ 32 - 280))) = 0 := by decide
  have e3 := (congrArg (fun md : Nat → img_metadata => (md 0).offset RES_SMALL) e1).trans
    ((set_size_set_offset_slot _ _ _ _ _).2.trans ((congrArg (fun n => to_uint64 (to_int n)) i5).trans hw))
  have hres := gbcollect_single sample_env giant_file (some []) (read_store giant_file) hopen o1 o3
    hstep
  refine ⟨by decide!, (congrArg Prod.fst hres).trans rfl, ?_⟩
  exact map_slot_eq _ _ _ _ (congrArg (fun r => r.2.2) hres) e2 e3


/-! ## Evaluations of the code at further inputs -/

/-- Claim C19 (create postcondition) fails when the device does not take the
slots.  On a header of capacity 10, when `fopen` succeeds and both calls of
`fwrite` report their items written, `do_create` returns `ERR_NONE` with a store
whose header announces 10 slots and whose file, as the stream presents it, is
`64 + 10 * 216` bytes long.  Nothing in `do_create` flushes the stream: on a
device that holds 64 bytes of the file, `fclose` returns `EOF` when `do_close`
closes the stream, `do_close` does not keep this value, and the file left on
the disk is 64 bytes long.  Its header announces 10 slots and none of them is in
the file, which `do_open` refuses.  The command `create` returns `ERR_NONE` in
this run. -/
theorem do_create_slots_not_on_disk :
    (do_create (some []) (blank_store 10)).1 = ERR_NONE ∧
    (do_create (some []) (blank_store 10)).2.header.max_files = 10 ∧
    (do_create (some []) (blank_store 10)).2.file.len = 64 + 10 * 216 ∧
    (fclose (do_create (some []) (blank_store 10)).2.file (some 64)).1 = -1 ∧
    (do_close (do_create (some []) (blank_store 10)).2 (some 64)).len = 64 ∧
    (do_close (do_create (some []) (blank_store 10)).2 (some 64)).len ≠
      sizeof_imgst_header + 10 * sizeof_img_metadata ∧
    (do_open (some (do_close (do_create (some []) (blank_store 10)).2 (some 64)))).toOption.isSome
      = false ∧
    (do_create_cmd sample_atouint sample_atouint (some []) (some 64)
      [[99, 114, 101, 97, 116, 101], [115]]).1 = ERR_NONE ∧
    (do_create_cmd sample_atouint sample_atouint (some []) (some 64)
      [[99, 114, 101, 97, 116, 101], [115]]).2.2.map (fun f => f.len) = some 64 := by
  decide!

set_option maxRecDepth 100000 in
/-- Claim C15 (garbage collection rebuilds the same logical store) fails when
the temporary store is not created.  The store `reuse_store`, of capacity 2,
is reached by an insertion, a read in the resolution RES_SMALL and a deletion;
it has no NON_EMPTY slot.  When `fopen` fails in `do_create`, `do_gbcollect`
does not look at the value that `do_create` returns, finds no slot to copy and
returns `ERR_NONE`: no file is left under the name of the store, where the
claim has a store of capacity 2 with the two resolutions of the source and no
image.  When the temporary store is created, the same call leaves such a
store. -/
theorem gbcollect_leaves_no_store :
    Reachable sample_env reuse_store ∧
    ((do_open (some reuse_store.file)).toOption.map
      (fun o => (o.header.max_files, o.header.num_files,
        (List.range 2).map (fun k => (o.metadata k).is_valid)))) = some (2, 0, [EMPTY, EMPTY]) ∧
    (do_gbcollect sample_env (some reuse_store.file) none).1 = ERR_NONE ∧
    (do_gbcollect sample_env (some reuse_store.file) none).2.1.isSome = false ∧
    (do_gbcollect sample_env (some reuse_store.file) (some [])).1 = ERR_NONE ∧
    ((do_open (do_gbcollect sample_env (some reuse_store.file) (some [])).2.1).toOption.map
      (fun o => (o.header.max_files, o.header.num_files,
        (List.range 4).map (fun k => o.header.res_resized k),
        (List.range 2).map (fun k => (o.metadata k).is_valid)))) =
      some (2, 0, [64, 64, 256, 256], [EMPTY, EMPTY]) :=
  ⟨Reachable.delete _ _ (Reachable.read _ _ _ (Reachable.insert _ _ _ _
      (created_store_reachable _ 2))),
    by decide, by decide, by decide, by decide, by decide⟩

set_option maxRecDepth 100000 in
/-- Claim C22 (insert postcondition) fails for a buffer of `2^32` bytes.  In the
empty store of capacity 1, `do_insert` of the `2^32` bytes of `four_gib_jpeg`
under "pic1" returns `ERR_NONE` and fills the slot 0, which is NON_EMPTY and
holds the identifier; `num_files` and `imgst_version` are 1; but the original
size of the slot is `(uint32_t) size`, which is 0, not the byte length `2^32`,
and there is no other slot whose size it could be.  `do_read` of "pic1" in the
original resolution then returns `ERR_IO`. -/
theorem do_insert_size_truncated :
    (created_store 1).header.max_files = 1 ∧
    ((created_store 1).metadata 0).is_valid = EMPTY ∧
    (do_insert sample_env four_gib_jpeg (2 ^ 32) pic1 (created_store 1)).1 = ERR_NONE ∧
    ((do_insert sample_env four_gib_jpeg (2 ^ 32) pic1 (created_store 1)).2.metadata 0).is_valid
      = NON_EMPTY ∧
    strncmp ((do_insert sample_env four_gib_jpeg (2 ^ 32) pic1 (created_store 1)).2.metadata 0).img_id
      pic1 MAX_IMG_ID = 0 ∧
    (do_insert sample_env four_gib_jpeg (2 ^ 32) pic1 (created_store 1)).2.header.num_files = 1 ∧
    (do_insert sample_env four_gib_jpeg (2 ^ 32) pic1 (created_store 1)).2.header.imgst_version = 1 ∧
    ((do_insert sample_env four_gib_jpeg (2 ^ 32) pic1 (created_store 1)).2.metadata 0).size RES_ORIG
      = 0 ∧
    ((do_insert sample_env four_gib_jpeg (2 ^ 32) pic1 (created_store 1)).2.metadata 0).size RES_ORIG
      ≠ 2 ^ 32 ∧
    (do_read sample_env pic1 RES_ORIG
      (do_insert sample_env four_gib_jpeg (2 ^ 32) pic1 (created_store 1)).2).1 = ERR_IO := by
  decide

end ImgStore
